import Mathlib

/-! Receive-side decapsulation of the Linux vrouter module (`linux/vrouter_mod.c`).

A shallow embedding of the MSS clamp (`lh_adjust_tcp_mss`), the VM-side caller
(`lh_pkt_from_vm_tcp_mss_adj`), the general decapsulation path
(`lh_pull_inner_headers`), the fast path (`lh_pull_inner_headers_fast`), the
buffer helpers (`lh_pkt_may_pull`, `lh_pexpand_head`, `lh_data_at_offset`) and
the source-port choice (`lh_get_udp_src_port`), followed by theorems about them.

Conventions of the embedding.

* Memory is a list of bytes addressed by offset from `skb->head`; a C pointer
  into the buffer is such an offset and `NULL` is `none`.
* Multi-byte wire fields are represented by their network-order (big-endian)
  numeric value, so `htons`/`ntohs` applied to such a field is the identity on
  the representation.  The Internet checksum is byte-order independent
  (RFC 1071), so checksum arithmetic is carried out on these values.
* A load the code makes without byte-order conversion is read with `rd16_raw`
  or `rd32_raw`, the value a little-endian host finds.
* Machine integers are `Nat`/`Int` with explicit reduction modulo `2^w`.
* A memory allocation of the kernel succeeds or fails as the field
  `alloc_budget` of the buffer tells.
* The state of `lh_pull_inner_headers` carries, besides the local variables of
  the function, a log of its calls of `pskb_may_pull` and a log of its loads of
  header fields, each load with the number of bytes pulled when it was made.
-/

namespace Vrouter

set_option maxRecDepth 100000

/-! ## Bytes and wire fields -/

/-- Byte memory addressed from a base pointer. -/
abbrev Mem := List Nat

/-- Load of one `u8` at address `a`. -/
def rd8 (m : Mem) (a : Nat) : Nat := m.getD a 0 % 256

/-- Store of one `u8` at address `a`. -/
def wr8 (m : Mem) (a v : Nat) : Mem := m.set a (v % 256)

/-- Load of a 16-bit field, as its network-order value. -/
def rd16 (m : Mem) (a : Nat) : Nat := rd8 m a * 256 + rd8 m (a + 1)

/-- Store of a 16-bit field given by its network-order value. -/
def wr16 (m : Mem) (a v : Nat) : Mem := wr8 (wr8 m a (v / 256)) (a + 1) v

/-- Load of a 32-bit field, as its network-order value (`ntohl` of the raw load). -/
def rd32 (m : Mem) (a : Nat) : Nat := rd16 m a * 65536 + rd16 m (a + 2)

/-- Raw host-order load of a 32-bit word on a little-endian host. -/
def rd32_raw (m : Mem) (a : Nat) : Nat :=
  rd8 m a + rd8 m (a + 1) * 256 + rd8 m (a + 2) * 65536 + rd8 m (a + 3) * 16777216

/-- Raw host-order load of a 16-bit word on a little-endian host. -/
def rd16_raw (m : Mem) (a : Nat) : Nat := rd8 m a + rd8 m (a + 1) * 256

/-- Conversion of a C `int` to `unsigned int`. -/
def u32 (x : Int) : Nat := (x % 4294967296).toNat

/-- Conversion to `unsigned short`. -/
def u16 (x : Int) : Nat := (x % 65536).toNat

/-! ## Kernel checksum primitives (`net/checksum.h`) -/

/-- Bitwise complement of a 32-bit word. -/
def not32 (x : Nat) : Nat := 4294967295 - x % 4294967296

/-- `csum_add`: 32-bit addition with end-around carry. -/
def csum_add (csum addend : Nat) : Nat :=
  let res := (csum + addend) % 4294967296
  (res + (if res < addend then 1 else 0)) % 4294967296

/-- `csum_sub`: `csum_add(csum, ~addend)`. -/
def csum_sub (csum addend : Nat) : Nat := csum_add csum (not32 addend)

/-- `csum_fold`: fold a 32-bit partial sum to 16 bits and complement it. -/
def csum_fold (csum : Nat) : Nat :=
  let s1 := (csum % 65536) + (csum / 65536) % 65536
  let s2 := (s1 % 65536) + (s1 / 65536)
  65535 - s2 % 65536

/-- The 16-bit words of a byte string, an odd trailing byte padded with zero. -/
def csum_words : List Nat → List Nat
  | [] => []
  | [a] => [a % 256 * 256]
  | a :: b :: r => (a % 256 * 256 + b % 256) :: csum_words r

/-- `csum_partial`: add the 16-bit words of `buff` to the partial sum `sum`. -/
def csum_partial (buff : List Nat) (sum : Nat) : Nat :=
  (csum_words buff).foldl csum_add sum

/-- `csum_replace4`: `*sum = csum_fold(csum_add(csum_sub(~csum_unfold(*sum), from), to))`,
the update `HC' = ~(~HC + ~m + m')` of RFC 1624. -/
def csum_replace4 (sum old new : Nat) : Nat :=
  csum_fold (csum_add (csum_sub (not32 sum) old) new)

/-- `csum_tcpudp_nofold(saddr, daddr, len, proto, sum)`: pseudo-header sum. -/
def csum_tcpudp_nofold (saddr daddr len proto sum : Nat) : Nat :=
  csum_add (csum_add (csum_add (csum_add (csum_add sum (saddr / 65536 % 65536)) (saddr % 65536))
    (daddr / 65536 % 65536)) (daddr % 65536)) ((proto + len) % 4294967296)

/-! ## Constants fixed by external standards and kernel headers -/

def TCPOPT_EOL : Nat := 0
def TCPOPT_NOP : Nat := 1
def TCPOPT_MSS : Nat := 2
def TCPOLEN_MSS : Nat := 4

def CHECKSUM_NONE : Nat := 0
def CHECKSUM_UNNECESSARY : Nat := 1
def CHECKSUM_COMPLETE : Nat := 2
def CHECKSUM_PARTIAL : Nat := 3

def VR_IP_PROTO_ICMP : Nat := 1
def VR_IP_PROTO_TCP : Nat := 6
def VR_IP_PROTO_UDP : Nat := 17
def VR_IP_PROTO_GRE : Nat := 47
def VR_IP_PROTO_ICMP6 : Nat := 58
def VR_IP_PROTO_SCTP : Nat := 132

def VR_ETH_PROTO_IP : Nat := 0x0800
def VR_ETH_PROTO_ARP : Nat := 0x0806
def VR_ETH_PROTO_VLAN : Nat := 0x8100
def VR_ETH_PROTO_IP6 : Nat := 0x86DD

def VR_ICMP6_TYPE_ROUTER_SOL : Nat := 133
def VR_ICMP6_TYPE_NEIGH_SOL : Nat := 135

/-- Size of `struct tcphdr`. -/
def sizeof_tcphdr : Nat := 20
/-- Size of `struct udphdr` and of `struct vr_udp`. -/
def sizeof_udphdr : Nat := 8
/-- Size of `struct icmphdr` and of `struct vr_icmp`. -/
def sizeof_icmphdr : Nat := 8
/-- Size of `struct iphdr` and of `struct vr_ip`. -/
def sizeof_vr_ip : Nat := 20
/-- Size of `struct ipv6hdr` and of `struct vr_ip6`. -/
def sizeof_vr_ip6 : Nat := 40
/-- Size of `struct vr_gre` (flags and protocol type). -/
def sizeof_vr_gre : Nat := 4
/-- Size of `struct vr_vxlan`. -/
def sizeof_vr_vxlan : Nat := 8
/-- Size of `struct vr_eth`. -/
def sizeof_vr_eth : Nat := 14
/-- Size of `struct vr_vlan_hdr`. -/
def sizeof_vr_vlan_hdr : Nat := 4
/-- Size of `struct vr_arp`. -/
def sizeof_vr_arp : Nat := 28
/-- Size of `struct vr_tcp`. -/
def sizeof_vr_tcp : Nat := 20
/-- Size of `struct vr_sctp`. -/
def sizeof_vr_sctp : Nat := 12

def VR_MPLS_HDR_LEN : Nat := 4
def VR_L2_MCAST_CTRL_DATA_LEN : Nat := 4
def VR_VXLAN_HDR_LEN : Nat := 8

/-! ## The socket buffer -/

/-- One page fragment of a socket buffer: `frags[i]` of `skb_shared_info`. -/
structure skb_frag where
  /-- Contents of the page. -/
  page : List Nat
  page_offset : Nat
  size : Nat
deriving DecidableEq, Repr

/-- The fields of `struct sk_buff` the module reads and writes.  `head` holds the
bytes of the linear buffer (`skb->head` up to `skb->end`); `data`, `tail` and
`end_` are offsets from `skb->head`.  `frag_list` holds the payload bytes of the
chained buffers.  `head_addr` is the address of the linear buffer: it changes
when the kernel reallocates the buffer, which leaves offsets from `skb->head`
valid and raw pointers into the old buffer stale.  `cloned` is `skb_cloned`.

Two fields stand for what surrounds the buffer.  `alloc_budget` is the state of
the kernel allocator as the buffer meets it: the number of memory allocations
(`GFP_ATOMIC`) that still succeed, `none` when none fails.  `past_tail` holds
the bytes that a load finds in memory from `skb->tail` on, which the content of
the buffer does not determine. -/
structure sk_buff where
  head_addr : Nat
  cloned : Bool
  head : Mem
  data : Nat
  tail : Nat
  end_ : Nat
  len : Nat
  data_len : Nat
  frags : List skb_frag
  frag_list : List (List Nat)
  ip_summed : Nat
  csum : Nat
  alloc_budget : Option Nat := none
  past_tail : List Nat := []
deriving DecidableEq, Repr

/-! ## Router configuration reached through `vrouter_get(0)` -/

/-- The field of `struct net_device` that the module reads. -/
structure net_device where
  mtu : Nat
deriving DecidableEq, Repr

/-- A `struct vr_interface`: `vif_os` is its OS device, `NULL` when absent. -/
structure vr_interface where
  vif_os : Option net_device
deriving DecidableEq, Repr

/-- A `struct vrouter`: `vr_eth_if` is the physical interface, `NULL` when absent. -/
structure vrouter where
  vr_eth_if : Option vr_interface
deriving DecidableEq, Repr

/-- Global state read by the functions below: the result of `vrouter_get(0)` and
the `vr_to_vm_mss_adj` switch. -/
structure Globals where
  router : Option vrouter
  vr_to_vm_mss_adj : Bool
deriving DecidableEq, Repr

/-! ## `lh_adjust_tcp_mss` -/

/-- Field `doff` of `struct tcphdr` at `tcph`. -/
def tcp_doff (m : Mem) (tcph : Nat) : Nat := rd8 m (tcph + 12) / 16

/-- Field `syn` of `struct tcphdr` at `tcph`. -/
def tcp_syn (m : Mem) (tcph : Nat) : Bool := rd8 m (tcph + 13) / 2 % 2 = 1

/-- Field `check` of `struct tcphdr` at `tcph`. -/
def tcp_check (m : Mem) (tcph : Nat) : Nat := rd16 m (tcph + 16)

/-- `inet_proto_csum_replace2(sum, skb, old, new, 0)`, which the kernel forwards to
`inet_proto_csum_replace4` with the 16-bit values zero-extended: the checksum
field at address `sum` is patched by `csum_replace4` unless the buffer is
`CHECKSUM_PARTIAL`; with `pseudohdr = 0` nothing else is written. -/
def inet_proto_csum_replace2 (skb : sk_buff) (sum : Nat) (old new : Nat) : sk_buff :=
  if skb.ip_summed ≠ CHECKSUM_PARTIAL then
    { skb with head := wr16 skb.head sum (csum_replace4 (rd16 skb.head sum) old new) }
  else skb

/-- The value `max_mss = dev->mtu - (overlay_len + hlen + sizeof(struct tcphdr))`
as stored in a `u16`. -/
def max_mss_of (mtu overlay_len hlen : Nat) : Nat :=
  u16 ((mtu : Int) - ((overlay_len : Int) + (hlen : Int) + (sizeof_tcphdr : Int)))

/-- The body of `case TCPOPT_MSS` once the option is known to lie inside the
header and to have length `TCPOLEN_MSS`: read the advertised MSS, fetch the
device, compute `max_mss` and rewrite the option and the checksum when the
advertised value is larger. -/
def tcp_mss_rewrite (eth_if : vr_interface) (tcph : Nat) (skb : sk_buff)
    (overlay_len hlen opt_off : Nat) : sk_buff :=
  let pkt_mss := (rd8 skb.head (tcph + opt_off + 2) <<< 8) ||| rd8 skb.head (tcph + opt_off + 3)
  match eth_if.vif_os with
  | none => skb
  | some dev =>
    let max_mss := max_mss_of dev.mtu overlay_len hlen
    if pkt_mss > max_mss then
      let m1 := wr8 skb.head (tcph + opt_off + 2) ((max_mss &&& 0xff00) >>> 8)
      let m2 := wr8 m1 (tcph + opt_off + 3) (max_mss &&& 0xff)
      inet_proto_csum_replace2 { skb with head := m2 } (tcph + 16) pkt_mss max_mss
    else skb

/-- The `while` loop of `lh_adjust_tcp_mss`, one iteration per unit of fuel;
`none` when the fuel runs out before the loop exits. -/
def lh_adjust_tcp_mss_loop (eth_if : vr_interface) (tcph : Nat)
    (skb : sk_buff) (overlay_len hlen : Nat) : Nat → Nat → Option sk_buff
  | 0, _ => none
  | fuel + 1, opt_off =>
    if opt_off < tcp_doff skb.head tcph * 4 then
      let opt := rd8 skb.head (tcph + opt_off)
      if opt = TCPOPT_EOL then some skb
      else if opt = TCPOPT_NOP then
        lh_adjust_tcp_mss_loop eth_if tcph skb overlay_len hlen fuel (opt_off + 1)
      else if opt = TCPOPT_MSS then
        if opt_off + TCPOLEN_MSS > tcp_doff skb.head tcph * 4 then some skb
        else if rd8 skb.head (tcph + opt_off + 1) ≠ TCPOLEN_MSS then some skb
        else some (tcp_mss_rewrite eth_if tcph skb overlay_len hlen opt_off)
      else
        if opt_off + 1 = tcp_doff skb.head tcph * 4 then some skb
        else if rd8 skb.head (tcph + opt_off + 1) ≠ 0 then
          lh_adjust_tcp_mss_loop eth_if tcph skb overlay_len hlen fuel
            (opt_off + rd8 skb.head (tcph + opt_off + 1))
        else
          lh_adjust_tcp_mss_loop eth_if tcph skb overlay_len hlen fuel (opt_off + 1)
    else some skb

/-- `lh_adjust_tcp_mss(tcph, skb, overlay_len, hlen)`: the buffer after the call.
The option area is at most 40 bytes, so 64 units of fuel are more than the loop
can use. -/
def lh_adjust_tcp_mss (G : Globals) (tcph : Option Nat) (skb : sk_buff)
    (overlay_len hlen : Nat) : Option sk_buff :=
  match tcph, G.router with
  | none, _ => some skb
  | some _, none => some skb
  | some t, some router =>
    if !tcp_syn skb.head t then some skb
    else
      match router.vr_eth_if with
      | none => some skb
      | some eth_if =>
        lh_adjust_tcp_mss_loop eth_if t skb overlay_len hlen 64 sizeof_tcphdr

/-! ## The option walk of `lh_adjust_tcp_mss` with its iterations and accesses -/

/-- What a run of the `while` loop of `lh_adjust_tcp_mss` did: the values of
`opt_off` with which the loop body ran, the byte indexes of the TCP header it
read or wrote (byte 12 holds `doff`), and the buffer it left. -/
structure mss_trace where
  iters : List Nat
  accesses : List Nat
  result : Option sk_buff
deriving DecidableEq, Repr

/-- One more iteration, at `opt_off`, in front of the rest of the run. -/
def mss_trace.step (opt_off : Nat) (acc : List Nat) (rest : mss_trace) : mss_trace :=
  { iters := opt_off :: rest.iters, accesses := acc ++ rest.accesses, result := rest.result }

/-- The byte indexes `tcp_mss_rewrite` reads and writes: the two bytes of the MSS
value and, when it rewrites them, the checksum field through
`inet_proto_csum_replace2`. -/
def tcp_mss_rewrite_accesses (eth_if : vr_interface) (tcph : Nat) (skb : sk_buff)
    (overlay_len hlen opt_off : Nat) : List Nat :=
  let pkt_mss := (rd8 skb.head (tcph + opt_off + 2) <<< 8) ||| rd8 skb.head (tcph + opt_off + 3)
  [opt_off + 2, opt_off + 3] ++
    match eth_if.vif_os with
    | none => []
    | some dev =>
      if pkt_mss > max_mss_of dev.mtu overlay_len hlen then
        [opt_off + 2, opt_off + 3] ++ (if skb.ip_summed ≠ CHECKSUM_PARTIAL then [16, 17] else [])
      else []

/-- The `while` loop of `lh_adjust_tcp_mss` as in `lh_adjust_tcp_mss_loop`, with
the iterations and the accesses logged. -/
def lh_adjust_tcp_mss_loop_trace (eth_if : vr_interface) (tcph : Nat)
    (skb : sk_buff) (overlay_len hlen : Nat) : Nat → Nat → mss_trace
  | 0, _ => { iters := [], accesses := [], result := none }
  | fuel + 1, opt_off =>
    if opt_off < tcp_doff skb.head tcph * 4 then
      let opt := rd8 skb.head (tcph + opt_off)
      if opt = TCPOPT_EOL then
        { iters := [opt_off], accesses := [12, opt_off], result := some skb }
      else if opt = TCPOPT_NOP then
        mss_trace.step opt_off [12, opt_off]
          (lh_adjust_tcp_mss_loop_trace eth_if tcph skb overlay_len hlen fuel (opt_off + 1))
      else if opt = TCPOPT_MSS then
        if opt_off + TCPOLEN_MSS > tcp_doff skb.head tcph * 4 then
          { iters := [opt_off], accesses := [12, opt_off, 12], result := some skb }
        else if rd8 skb.head (tcph + opt_off + 1) ≠ TCPOLEN_MSS then
          { iters := [opt_off], accesses := [12, opt_off, 12, opt_off + 1], result := some skb }
        else
          { iters := [opt_off],
            accesses := [12, opt_off, 12, opt_off + 1] ++
              tcp_mss_rewrite_accesses eth_if tcph skb overlay_len hlen opt_off,
            result := some (tcp_mss_rewrite eth_if tcph skb overlay_len hlen opt_off) }
      else
        if opt_off + 1 = tcp_doff skb.head tcph * 4 then
          { iters := [opt_off], accesses := [12, opt_off, 12], result := some skb }
        else if rd8 skb.head (tcph + opt_off + 1) ≠ 0 then
          mss_trace.step opt_off [12, opt_off, 12, opt_off + 1]
            (lh_adjust_tcp_mss_loop_trace eth_if tcph skb overlay_len hlen fuel
              (opt_off + rd8 skb.head (tcph + opt_off + 1)))
        else
          mss_trace.step opt_off [12, opt_off, 12, opt_off + 1]
            (lh_adjust_tcp_mss_loop_trace eth_if tcph skb overlay_len hlen fuel (opt_off + 1))
    else { iters := [], accesses := [12], result := some skb }

/-- The byte indexes of the TCP header that `lh_adjust_tcp_mss` reads or writes:
`syn` (byte 13) once `tcph` is not `NULL`, then those of the loop. -/
def lh_adjust_tcp_mss_accesses (G : Globals) (tcph : Option Nat) (skb : sk_buff)
    (overlay_len hlen : Nat) : List Nat :=
  match tcph, G.router with
  | none, _ => []
  | some _, none => [13]
  | some t, some router =>
    if !tcp_syn skb.head t then [13]
    else
      match router.vr_eth_if with
      | none => [13]
      | some eth_if =>
        13 :: (lh_adjust_tcp_mss_loop_trace eth_if t skb overlay_len hlen 64 sizeof_tcphdr).accesses

/-- How `opt_off` moves from one iteration to the next: by 1 after a NOP, by the
declared length after another option, by 1 when the declared length is 0. -/
def opt_step (m : Mem) (tcph a b : Nat) : Prop :=
  if rd8 m (tcph + a) = TCPOPT_NOP then b = a + 1
  else if rd8 m (tcph + a + 1) ≠ 0 then b = a + rd8 m (tcph + a + 1)
  else b = a + 1

/-! ## Notions used to state properties of the MSS clamp -/

/-- The offset at which the option walk of `lh_adjust_tcp_mss` arrives at an MSS
option that lies inside the header and has length `TCPOLEN_MSS`: the walk of
`lh_adjust_tcp_mss_loop` with the rewrite replaced by reporting the offset. -/
def mss_option_reached (m : Mem) (tcph : Nat) : Nat → Nat → Option Nat
  | 0, _ => none
  | fuel + 1, opt_off =>
    if opt_off < tcp_doff m tcph * 4 then
      let opt := rd8 m (tcph + opt_off)
      if opt = TCPOPT_EOL then none
      else if opt = TCPOPT_NOP then mss_option_reached m tcph fuel (opt_off + 1)
      else if opt = TCPOPT_MSS then
        if opt_off + TCPOLEN_MSS > tcp_doff m tcph * 4 then none
        else if rd8 m (tcph + opt_off + 1) ≠ TCPOLEN_MSS then none
        else some opt_off
      else
        if opt_off + 1 = tcp_doff m tcph * 4 then none
        else if rd8 m (tcph + opt_off + 1) ≠ 0 then
          mss_option_reached m tcph fuel (opt_off + rd8 m (tcph + opt_off + 1))
        else mss_option_reached m tcph fuel (opt_off + 1)
    else none

/-- The MSS option the walk of `lh_adjust_tcp_mss` reaches in the header at `tcph`. -/
def first_mss_option (m : Mem) (tcph : Nat) : Option Nat :=
  mss_option_reached m tcph 64 sizeof_tcphdr

/-- The 16-bit MSS value of the option at offset `opt_off` of the header at `tcph`. -/
def mss_value (m : Mem) (tcph opt_off : Nat) : Nat := rd16 m (tcph + opt_off + 2)

/-- Receiver-side validity of a transport checksum: the segment `seg` (header and
payload, checksum field included) added to the pseudo-header sum folds to zero. -/
def transport_csum_ok (pseudo : Nat) (seg : List Nat) : Bool :=
  csum_fold ( csum_partial seg pseudo) = 0

/-- The `n` bytes of memory starting at address `a`. -/
def mem_slice (m : Mem) (a n : Nat) : List Nat := (m.drop a).take n

/-! ## Kernel buffer primitives (`linux/skbuff.h`, `net/core/skbuff.c`)

These are the contracts of the kernel functions the module calls.  A memory
allocation succeeds or fails as the field `alloc_budget` of the buffer tells;
kernel assertions (`BUG_ON`) are taken to hold. -/

/-- One memory allocation: `none` when it fails, otherwise the budget left. -/
def alloc_step (budget : Option Nat) : Option (Option Nat) :=
  match budget with
  | none => some none
  | some 0 => none
  | some (n + 1) => some (some n)

/-- The memory a load through a pointer into the linear buffer finds: the bytes
of the buffer before `skb->tail`, then `past_tail`. -/
def skb_mem (skb : sk_buff) : Mem := skb.head.take skb.tail ++ skb.past_tail

/-- `skb_headlen`: length of the linear part. -/
def skb_headlen (skb : sk_buff) : Nat := skb.len - skb.data_len

/-- The bytes described by one page fragment. -/
def frag_bytes (f : skb_frag) : List Nat := (f.page.drop f.page_offset).take f.size

/-- The bytes that follow the linear part: page fragments, then chained buffers. -/
def skb_paged_bytes (skb : sk_buff) : List Nat :=
  (skb.frags.map frag_bytes).flatten ++ skb.frag_list.flatten

/-- The payload of the buffer: `skb->len` bytes starting at `skb->data`. -/
def skb_bytes (skb : sk_buff) : List Nat :=
  (mem_slice skb.head skb.data (skb_headlen skb) ++ skb_paged_bytes skb).take skb.len

/-- Memory `m` cut or zero-extended to `n` bytes. -/
def mem_resize (m : Mem) (n : Nat) : Mem := m.take n ++ List.replicate (n - m.length) 0

/-- Memory `m` with the bytes `b` copied to address `a`. -/
def mem_write (m : Mem) (a : Nat) (b : List Nat) : Mem :=
  mem_resize m a ++ b ++ m.drop (a + b.length)

/-- The page fragments left after `eat` bytes were moved to the linear part
(the `pull_pages` loop of `__pskb_pull_tail`). -/
def eat_frags : Nat → List skb_frag → List skb_frag
  | _, [] => []
  | eat, f :: fs =>
    if f.size ≤ eat then eat_frags (eat - f.size) fs
    else if eat ≠ 0 then
      { f with page_offset := f.page_offset + eat, size := f.size - eat } :: eat_frags 0 fs
    else f :: eat_frags 0 fs

/-- The chained buffers left after `eat` of their bytes were moved to the linear part. -/
def eat_frag_list : Nat → List (List Nat) → List (List Nat)
  | _, [] => []
  | eat, b :: bs =>
    if b.length ≤ eat then eat_frag_list (eat - b.length) bs
    else b.drop eat :: bs

/-- `__pskb_pull_tail(skb, delta)`: move `delta` bytes from the paged part to the
linear part; `none` is `NULL`.  The linear buffer is reallocated, with room for
the missing bytes and 128 more, when it is too small or the buffer is cloned:
the call fails when that allocation fails. -/
def __pskb_pull_tail (skb : sk_buff) (delta : Nat) : Option sk_buff :=
  let eat := skb.tail + delta - skb.end_
  let realloc := decide (skb.tail + delta > skb.end_) || skb.cloned
  match (if realloc then alloc_step skb.alloc_budget else some skb.alloc_budget) with
  | none => none
  | some budget =>
    let end1 := if skb.tail + delta > skb.end_ then skb.end_ + eat + 128 else skb.end_
    let paged := skb_paged_bytes skb
    let frag_total := ((skb.frags.map frag_bytes).flatten).length
    some { skb with
      head_addr := if realloc then skb.head_addr + 1 else skb.head_addr
      cloned := if realloc then false else skb.cloned
      head := mem_write (mem_resize skb.head end1) skb.tail (paged.take delta)
      end_ := end1
      tail := skb.tail + delta
      data_len := skb.data_len - delta
      frags := eat_frags delta skb.frags
      frag_list := eat_frag_list (delta - frag_total) skb.frag_list
      alloc_budget := budget }

/-- `pskb_may_pull(skb, len)`: `none` when it returns 0, otherwise the buffer
with at least `len` bytes in its linear part.  It returns 0 when the frame has
fewer than `len` bytes and when `__pskb_pull_tail` cannot allocate. -/
def pskb_may_pull (skb : sk_buff) (len : Nat) : Option sk_buff :=
  if len ≤ skb_headlen skb then some skb
  else if len > skb.len then none
  else __pskb_pull_tail skb (len - skb_headlen skb)

/-- `skb_pull(skb, len)`: nothing happens when `len` exceeds `skb->len`. -/
def skb_pull (skb : sk_buff) (len : Nat) : sk_buff :=
  if len > skb.len then skb else { skb with len := skb.len - len, data := skb.data + len }

/-- `skb_push(skb, len)`.  The module only pushes back what it pulled just before;
the kernel assertion `skb_under_panic` is not part of the embedding. -/
def skb_push (skb : sk_buff) (len : Nat) : sk_buff :=
  { skb with data := skb.data - len, len := skb.len + len }

/-- The assignment `skb->ip_summed = v`. -/
def skb_set_ip_summed (skb : sk_buff) (v : Nat) : sk_buff := { skb with ip_summed := v }

/-- `skb_csum_unnecessary(skb)`: `skb->ip_summed & CHECKSUM_UNNECESSARY`. -/
def skb_csum_unnecessary (skb : sk_buff) : Bool := skb.ip_summed &&& CHECKSUM_UNNECESSARY ≠ 0

/-- `__skb_checksum_complete(skb)`: the folded sum of the payload and `skb->csum`;
when it is zero the buffer is marked `CHECKSUM_UNNECESSARY`. -/
def __skb_checksum_complete (skb : sk_buff) : Nat × sk_buff :=
  let sum := csum_fold ( csum_partial (skb_bytes skb) skb.csum)
  (sum, if sum = 0 then { skb with ip_summed := CHECKSUM_UNNECESSARY } else skb)

/-! ## The packet and the constants of the vrouter headers -/

/-- The fields of `struct vr_packet` (`vr_packet.h`) used here.  Offsets are
`unsigned short`, relative to `vp_head`; `diag` is the diagnostic flag of
`vp_flags` set by `vr_pkt_set_diag`. -/
structure vr_packet where
  vp_head : Nat
  vp_data : Nat
  vp_tail : Nat
  vp_len : Nat
  vp_end : Nat
  vp_network_h : Nat
  vp_inner_network_h : Nat
  vp_type : Nat
  diag : Bool
deriving DecidableEq, Repr

/-- Constants and inline predicates of the vrouter headers (`vr_packet.h`,
`vr_mpls.h`, `vrouter.h`), which are not part of the source given here: they
are parameters of the embedding.  The predicates on headers take the memory
and the address of the header. -/
structure VrParams where
  VP_DROP_PULL : Nat
  VP_DROP_MISC : Nat
  VP_DROP_CKSUM_ERR : Nat
  PKT_MPLS_TUNNEL_L3 : Int
  PKT_MPLS_TUNNEL_L2_UCAST : Int
  PKT_MPLS_TUNNEL_L2_MCAST : Int
  PKT_MPLS_TUNNEL_L2_MCAST_EVPN : Int
  VR_DIAG_CSUM : Nat
  VROUTER_OVERLAY_LEN : Nat
  VROUTER_L2_OVERLAY_LEN : Nat
  vr_mpls_udp_port : Nat → Bool
  vr_ip_transport_header_valid : Mem → Nat → Bool
  vr_ip_fragment : Mem → Nat → Bool
  vr_icmp_error : Mem → Nat → Bool
  vr_icmp6_error : Mem → Nat → Bool

/-- The classifier callback `tunnel_type_cb(label, control_data, reason)`: from
the label, the control word and the current content of `*reason` to the value
it returns and the content of `*reason` afterwards. -/
abbrev tunnel_type_cb := Nat → Nat → Nat → Int × Nat

/-- Field `ip_hl` of a `struct vr_ip` at `iph`. -/
def ip_hl (m : Mem) (iph : Nat) : Nat := rd8 m iph % 16

/-- Field `ip_len` of a `struct vr_ip` at `iph`, after `ntohs`. -/
def ip_len (m : Mem) (iph : Nat) : Nat := rd16 m (iph + 2)

/-- Field `ip_proto` of a `struct vr_ip` at `iph`. -/
def ip_proto_of (m : Mem) (iph : Nat) : Nat := rd8 m (iph + 9)

/-- Field `ip_saddr` of a `struct vr_ip` at `iph`. -/
def ip_saddr (m : Mem) (iph : Nat) : Nat := rd32 m (iph + 12)

/-- Field `ip_daddr` of a `struct vr_ip` at `iph`. -/
def ip_daddr (m : Mem) (iph : Nat) : Nat := rd32 m (iph + 16)

/-- Field `ip6_nxt` of a `struct vr_ip6` at `ip6h`. -/
def ip6_nxt (m : Mem) (ip6h : Nat) : Nat := rd8 m (ip6h + 6)

/-- Modelled from the spec: `vr_ip_is_ip6` of `vr_packet.h`, which tells IPv6 from
IPv4 "by version nibble". -/
def vr_ip_is_ip6 (m : Mem) (iph : Nat) : Bool := rd8 m iph / 16 = 6

/-- Modelled from the spec: `vr_ip_is_ip4` of `vr_packet.h`, which tells IPv4 from
IPv6 "by version nibble". -/
def vr_ip_is_ip4 (m : Mem) (iph : Nat) : Bool := rd8 m iph / 16 = 4

/-- `lh_reset_skb_fields(pkt)`. -/
def lh_reset_skb_fields (skb : sk_buff) (pkt : vr_packet) : vr_packet :=
  { pkt with
    vp_head := skb.head_addr
    vp_tail := skb.tail % 65536
    vp_end := skb.end_ % 65536
    vp_len := u16 ((skb.tail % 65536 : Nat) - (pkt.vp_data : Int)) }

/-- `lh_network_header(pkt)` for a packet whose network header lies in its own
buffer; a network header located in a chained segment is outside this
embedding and yields `NULL` here. -/
def pkt_network_header (pkt : vr_packet) : Option Nat :=
  if pkt.vp_network_h < pkt.vp_end then some pkt.vp_network_h else none

/-- `vr_pkt_set_diag(pkt)`. -/
def vr_pkt_set_diag (pkt : vr_packet) : vr_packet := { pkt with diag := true }

/-- `pkt_head_len(pkt)`: `vp_tail - vp_data` as an `unsigned short`. -/
def pkt_head_len (pkt : vr_packet) : Nat := u16 ((pkt.vp_tail : Int) - (pkt.vp_data : Int))

/-! ## Checksum verification -/

/-- `lh_csum_verify(skb, iph)`: the value returned (0 when the checksum is right)
and the buffer afterwards. -/
def lh_csum_verify (skb : sk_buff) (iph : Nat) : Int × sk_buff :=
  let pseudo := csum_tcpudp_nofold (ip_saddr skb.head iph) (ip_daddr skb.head iph)
    (u32 ((ip_len skb.head iph : Int) - (ip_hl skb.head iph * 4 : Nat))) (ip_proto_of skb.head iph) 0
  let skb1 := { skb with csum := pseudo }
  let r := __skb_checksum_complete skb1
  if r.1 ≠ 0 then (-1, r.2) else (0, r.2)

/-- `lh_handle_checksum_complete_skb(skb)`. -/
def lh_handle_checksum_complete_skb (skb : sk_buff) : sk_buff :=
  if skb.ip_summed = CHECKSUM_COMPLETE then { skb with csum := 0, ip_summed := CHECKSUM_NONE }
  else skb

/-- `lh_csum_verify_udp(skb, iph)`: the value returned (0 when the checksum is
right) and the buffer afterwards. -/
def lh_csum_verify_udp (skb : sk_buff) (iph : Nat) : Int × sk_buff :=
  if skb.ip_summed = CHECKSUM_COMPLETE ∧
      csum_fold (csum_tcpudp_nofold (ip_saddr skb.head iph) (ip_daddr skb.head iph)
        (skb.len % 4294967296) VR_IP_PROTO_UDP skb.csum) = 0 then
    (0, { skb with ip_summed := CHECKSUM_UNNECESSARY })
  else
    let pseudo := csum_tcpudp_nofold (ip_saddr skb.head iph) (ip_daddr skb.head iph)
      (skb.len % 4294967296) VR_IP_PROTO_UDP 0
    let skb1 := { skb with csum := pseudo }
    let r := __skb_checksum_complete skb1
    if r.1 ≠ 0 then (-1, r.2) else (0, r.2)

/-- `lh_csum_verify_fast(iph, transport_hdr, proto, size)` on the memory `m` that
holds both headers: 0 when the checksum is right. -/
def lh_csum_verify_fast (m : Mem) (iph transport_hdr proto size : Nat) : Int :=
  let csum := csum_tcpudp_nofold (ip_saddr m iph) (ip_daddr m iph) size proto 0
  if csum_fold ( csum_partial (mem_slice m transport_hdr size) csum) ≠ 0 then -1 else 0

/-! ## `lh_pull_inner_headers` -/

/-- One load of header bytes made by the header walk of `lh_pull_inner_headers`:
`size` bytes at offset `addr` from `skb->head`, made when the successful calls
of `pskb_may_pull` had brought the bytes before offset `limit` (`skb->data`
plus the longest length pulled) into the linear part.  `quoted` marks the load
of the checksum field of a transport header quoted in an ICMP or ICMPv6 error. -/
structure hdr_load where
  addr : Nat
  size : Nat
  limit : Nat
  quoted : Bool
deriving DecidableEq, Repr

/-- The local variables of `lh_pull_inner_headers` together with `*reason`, the
buffer and the packet.  Pointers are offsets from `skb->head` (`none` is
`NULL`); `iph_base` is the address of the buffer `iph` was computed from.
Four fields record what the function did: `pulls` logs each call of
`pskb_may_pull` as (requested length, success); `gated` logs those of them made
as `if (!pskb_may_pull(skb, pull_len)) goto error;`; `pulled` is the longest
length a successful call asked for; `loads` logs the loads of header fields the
function makes itself from the start to the checksum block (the predicates of
`VrParams` are handed a header and are not logged). -/
structure pull_state where
  skb : sk_buff
  pkt : vr_packet
  reason : Nat
  pull_len : Int
  hdr_len : Nat
  hlen : Nat
  hoff : Nat
  ret : Int
  iph : Option Nat
  iph_base : Nat
  ip6h : Option Nat
  tcph : Option Nat
  eth : Option Nat
  eth_proto : Nat
  thdr_valid : Bool
  mpls_pkt : Bool
  vrouter_overlay_len : Nat
  l4_proto : Nat
  udph_cksum : Nat
  th_csum : Nat
  pulls : List (Nat × Bool)
  gated : List (Nat × Bool)
  pulled : Nat
  loads : List hdr_load
deriving DecidableEq, Repr

/-- Where control goes after a piece of the function body: on to the code that
follows, to the label `error`, to the label `cksum_err`, into an invalid memory
access or kernel panic, or nowhere because the fuel of a loop ran out. -/
inductive pull_step where
  | next (s : pull_state)
  | error (s : pull_state)
  | cksum_err (s : pull_state)
  | fault (s : pull_state)
  | out_of_fuel (s : pull_state)
deriving DecidableEq, Repr

/-- Sequencing: the code `f` runs only after a piece that falls through. -/
def pull_step.bind (x : pull_step) (f : pull_state → pull_step) : pull_step :=
  match x with
  | .next s => f s
  | other => other

/-- The state a step ends in. -/
def pull_step.state : pull_step → pull_state
  | .next s => s
  | .error s => s
  | .cksum_err s => s
  | .fault s => s
  | .out_of_fuel s => s

/-- The state after a load of `size` bytes at offset `addr` from `skb->head`. -/
abbrev pull_state.ld (s : pull_state) (addr size : Nat) : pull_state :=
  { s with loads := s.loads ++
      [{ addr := addr, size := size, limit := s.skb.data + s.pulled, quoted := false }] }

/-- The state after the load of the checksum field, `size` bytes at offset `addr`
from `skb->head`, of a transport header quoted in an ICMP error. -/
abbrev pull_state.ldq (s : pull_state) (addr size : Nat) : pull_state :=
  { s with loads := s.loads ++
      [{ addr := addr, size := size, limit := s.skb.data + s.pulled, quoted := true }] }

/-- `if (!pskb_may_pull(skb, pull_len)) goto error;` followed by the code `k`. -/
def pull_or_error (s : pull_state) (k : pull_state → pull_step) : pull_step :=
  match pskb_may_pull s.skb (u32 s.pull_len) with
  | none => .error { s with pulls := s.pulls ++ [(u32 s.pull_len, false)],
                            gated := s.gated ++ [(u32 s.pull_len, false)] }
  | some skb1 => k { s with skb := skb1, pulls := s.pulls ++ [(u32 s.pull_len, true)],
                            gated := s.gated ++ [(u32 s.pull_len, true)],
                            pulled := max s.pulled (u32 s.pull_len) }

/-- The state on entry, after `*reason = VP_DROP_PULL; pull_len = 0;`. -/
def pull_init (P : VrParams) (skb : sk_buff) (pkt : vr_packet) : pull_state :=
  { skb := skb, pkt := pkt, reason := P.VP_DROP_PULL, pull_len := 0, hdr_len := 0, hlen := 0,
    hoff := 0, ret := 0, iph := none, iph_base := skb.head_addr, ip6h := none, tcph := none,
    eth := none, eth_proto := 0, thdr_valid := false, mpls_pkt := true,
    vrouter_overlay_len := 0, l4_proto := 0, udph_cksum := 0, th_csum := 0, pulls := [],
    gated := [], pulled := 0, loads := [] }

/-- Outer header: the first pull and, for UDP, the test of the destination port
with the second pull of the VXLAN case. -/
def stage_outer (P : VrParams) (ip_proto : Nat) (s : pull_state) : pull_step :=
  if ip_proto = VR_IP_PROTO_GRE ∨ ip_proto = VR_IP_PROTO_UDP then
    let hdr_len := if ip_proto = VR_IP_PROTO_GRE then sizeof_vr_gre else sizeof_udphdr
    let s1 := { s with hdr_len := hdr_len, pull_len := (hdr_len : Int) + (VR_MPLS_HDR_LEN : Int) +
      (VR_L2_MCAST_CTRL_DATA_LEN : Int) + ((s.pkt.vp_data : Int) - (s.skb.data : Int)) }
    pull_or_error s1 fun s2 =>
      let s3 := { s2 with vrouter_overlay_len := P.VROUTER_L2_OVERLAY_LEN }
      if ip_proto = VR_IP_PROTO_UDP then
        let udph := s3.pkt.vp_data
        let s4 := { (s3.ld (udph + 6) 2).ld (udph + 2) 2 with
          udph_cksum := rd16 s3.skb.head (udph + 6) }
        if !P.vr_mpls_udp_port (rd16 s4.skb.head (udph + 2)) then
          let s5 := { s4 with mpls_pkt := false, pull_len := s4.pull_len -
            ((VR_MPLS_HDR_LEN : Int) + (VR_L2_MCAST_CTRL_DATA_LEN : Int)) +
            (sizeof_vr_vxlan : Int) + (sizeof_vr_eth : Int) }
          pull_or_error s5 pull_step.next
        else .next s4
      else .next s3
  else .error s

/-- Label classification of the MPLS case, or the location of the inner
Ethernet header of the VXLAN case. -/
def stage_label (P : VrParams) (cb : Option tunnel_type_cb) (s : pull_state) : pull_step :=
  if s.mpls_pkt then
    let label := rd32 s.skb.head (s.pkt.vp_data + s.hdr_len)
    let hoff := s.pkt.vp_data + s.hdr_len + VR_MPLS_HDR_LEN
    let control_data := rd32_raw s.skb.head hoff
    let s1 := { (s.ld (s.pkt.vp_data + s.hdr_len) 4).ld hoff 4 with hoff := hoff }
    match cb with
    | none => .error { s1 with reason := P.VP_DROP_MISC }
    | some f =>
      let r := f label control_data s1.reason
      let s2 := { s1 with ret := r.1, reason := r.2 }
      if r.1 ≤ 0 then .error s2
      else if r.1 = P.PKT_MPLS_TUNNEL_L3 then
        pull_or_error { s2 with pull_len := s2.pull_len - (VR_L2_MCAST_CTRL_DATA_LEN : Int) +
            (sizeof_vr_ip : Int) } fun s3 =>
          let hoff3 := s3.pkt.vp_data + s3.hdr_len + VR_MPLS_HDR_LEN
          let s4 :=
            if vr_ip_is_ip6 s3.skb.head hoff3 then
              { (s3.ld hoff3 1) with
                hoff := hoff3, ip6h := some hoff3, iph := none,
                pull_len := s3.pull_len + ((sizeof_vr_ip6 : Int) - (sizeof_vr_ip : Int)) }
            else
              { (s3.ld hoff3 1) with
                hoff := hoff3, iph := some hoff3, iph_base := s3.skb.head_addr }
          .next { s4 with vrouter_overlay_len := P.VROUTER_OVERLAY_LEN }
      else if r.1 = P.PKT_MPLS_TUNNEL_L2_MCAST then
        pull_or_error { s2 with pull_len := s2.pull_len + (VR_VXLAN_HDR_LEN : Int) +
            (sizeof_vr_eth : Int) } fun s3 =>
          .next { s3 with hoff := s3.hoff + VR_L2_MCAST_CTRL_DATA_LEN + VR_VXLAN_HDR_LEN,
                          eth := some (s3.hoff + VR_L2_MCAST_CTRL_DATA_LEN + VR_VXLAN_HDR_LEN) }
      else if r.1 = P.PKT_MPLS_TUNNEL_L2_UCAST ∨ r.1 = P.PKT_MPLS_TUNNEL_L2_MCAST_EVPN then
        pull_or_error { s2 with pull_len := s2.pull_len - (VR_L2_MCAST_CTRL_DATA_LEN : Int) +
            (sizeof_vr_eth : Int) } fun s3 =>
          .next { s3 with eth := some s3.hoff }
      else .error { s2 with reason := P.VP_DROP_MISC }
  else
    let hoff := s.pkt.vp_data + s.hdr_len + sizeof_vr_vxlan
    .next { s with hoff := hoff, eth := some hoff }

/-- The `while` loop over VLAN tags, one test of the loop condition per unit of
fuel. -/
def vlan_loop : Nat → pull_state → pull_step
  | 0, s => .out_of_fuel s
  | fuel + 1, s =>
    if s.eth_proto = VR_ETH_PROTO_VLAN then
      pull_or_error { s with pull_len := s.pull_len + (sizeof_vr_vlan_hdr : Int) } fun s1 =>
        vlan_loop fuel { (s1.ld (s1.hoff + 2) 2) with
          eth_proto := rd16 s1.skb.head (s1.hoff + 2), hoff := s1.hoff + sizeof_vr_vlan_hdr }
    else .next s

/-- The inner network header that follows the Ethernet header. -/
def stage_l3 (s : pull_state) : pull_step :=
  if s.eth_proto = VR_ETH_PROTO_IP then
    pull_or_error { s with pull_len := s.pull_len + (sizeof_vr_ip : Int) } fun s1 =>
      .next { s1 with iph := some s1.hoff, iph_base := s1.skb.head_addr }
  else if s.eth_proto = VR_ETH_PROTO_IP6 then
    pull_or_error { s with pull_len := s.pull_len + (sizeof_vr_ip6 : Int) } fun s1 =>
      .next { s1 with ip6h := some s1.hoff, iph := none }
  else if s.eth_proto = VR_ETH_PROTO_ARP then
    pull_or_error { s with pull_len := s.pull_len + (sizeof_vr_arp : Int) } pull_step.next
  else .next s

/-- The block `if (eth) { ... }`.  Every iteration of the VLAN loop but the last
pulls four more bytes, so `skb->len + 2` tests of the loop condition are more
than a frame of `skb->len` bytes allows. -/
def stage_eth (s : pull_state) : pull_step :=
  match s.eth with
  | none => .next s
  | some eth =>
    (vlan_loop (s.skb.len + 2)
      { (s.ld (eth + 12) 2) with
        eth_proto := rd16 s.skb.head (eth + 12), hoff := s.hoff + sizeof_vr_eth }).bind
      stage_l3

/-- Lines `l4_proto = ...; hlen = ...; thdr_valid = ...` and the addition of the
fixed transport header size to `pull_len`. -/
def l4_prologue (P : VrParams) (s : pull_state) : pull_state :=
  let s1 :=
    match s.ip6h with
    | some ip6h =>
      { (s.ld (ip6h + 6) 1) with
        l4_proto := ip6_nxt s.skb.head ip6h, hlen := sizeof_vr_ip6, thdr_valid := true }
    | none =>
      match s.iph with
      | some iph =>
        let valid := P.vr_ip_transport_header_valid s.skb.head iph
        let s0 := { (s.ld (iph + 9) 1) with
          l4_proto := ip_proto_of s.skb.head iph, thdr_valid := valid }
        if valid then
          { (s0.ld iph 1) with
            hlen := ip_hl s.skb.head iph * 4,
            pull_len := s0.pull_len + ((ip_hl s.skb.head iph * 4 : Nat) - (sizeof_vr_ip : Int)) }
        else s0
      | none => s
  if s1.thdr_valid then
    if s1.l4_proto = VR_IP_PROTO_TCP then
      { s1 with pull_len := s1.pull_len + (sizeof_tcphdr : Int) }
    else if s1.l4_proto = VR_IP_PROTO_UDP then
      { s1 with pull_len := s1.pull_len + (sizeof_udphdr : Int) }
    else if s1.l4_proto = VR_IP_PROTO_ICMP ∨ s1.l4_proto = VR_IP_PROTO_ICMP6 then
      { s1 with pull_len := s1.pull_len + (sizeof_icmphdr : Int) }
    else s1
  else s1

/-- The assignments `iph = skb->head + hoff; if (ip6h) ip6h = iph;`. -/
def rederive_iph (s : pull_state) : pull_state :=
  { s with iph := some s.hoff, iph_base := s.skb.head_addr,
           ip6h := if s.ip6h.isSome then some s.hoff else none }

/-- Inner TCP: pull the options and record the checksum field. -/
def stage_tcp (s : pull_state) : pull_step :=
  let tcph := s.hoff + s.hlen
  let s1 := { (s.ld (tcph + 12) 1) with tcph := some tcph }
  if tcp_doff s1.skb.head tcph * 4 > sizeof_tcphdr then
    pull_or_error { (s1.ld (tcph + 12) 1) with pull_len := s1.pull_len +
        ((tcp_doff s1.skb.head tcph * 4 : Nat) - (sizeof_tcphdr : Int)) } fun s2 =>
      let s3 := { rederive_iph s2 with tcph := some (s2.hoff + s2.hlen) }
      .next { (s3.ld (s2.hoff + s2.hlen + 16) 2) with
        th_csum := tcp_check s3.skb.head (s2.hoff + s2.hlen) }
  else .next { (s1.ld (tcph + 16) 2) with th_csum := tcp_check s1.skb.head tcph }

/-- Size pulled for the transport header quoted in an ICMP error. -/
def icmp_pl_size (icmp_pl_ip_proto : Nat) : Nat :=
  if icmp_pl_ip_proto = VR_IP_PROTO_TCP then sizeof_vr_tcp
  else if icmp_pl_ip_proto = VR_IP_PROTO_UDP then sizeof_udphdr
  else if icmp_pl_ip_proto = VR_IP_PROTO_SCTP then sizeof_vr_sctp
  else sizeof_icmphdr

/-- The lines `pull_len += sizeof(struct vr_icmp); if (skb->len < pull_len)
pull_len = skb->len;`. -/
def icmp_ports_pull_len (s : pull_state) : pull_state :=
  let pl := s.pull_len + (sizeof_icmphdr : Int)
  { s with pull_len := if s.skb.len < u32 pl then (s.skb.len : Int) else pl }

/-- The block `if (skb->len >= pull_len) { if (pskb_may_pull(skb, pull_len)) { ... } }`
of the ICMP error case: when the pull succeeds, the checksum field of the
quoted transport header is loaded and recorded in `th_csum`.  The load is made
at the place the quoted IP header gives, whatever the length pulled: where it
lies beyond `skb->tail` it finds `past_tail`. -/
def icmp_quoted_csum (icmp_pl_ip_proto : Nat) (s : pull_state) : pull_state :=
  if s.skb.len ≥ u32 s.pull_len then
    match pskb_may_pull s.skb (u32 s.pull_len) with
    | some skb1 =>
      let s5 := { s with skb := skb1, pulls := s.pulls ++ [(u32 s.pull_len, true)],
                         pulled := max s.pulled (u32 s.pull_len) }
      let pl_iph := s.hoff + s.hlen + sizeof_icmphdr
      let th := pl_iph + ip_hl skb1.head pl_iph * 4
      if icmp_pl_ip_proto = VR_IP_PROTO_TCP then
        { (s5.ld pl_iph 1).ldq (th + 16) 2 with th_csum := rd16 (skb_mem skb1) (th + 16) }
      else if icmp_pl_ip_proto = VR_IP_PROTO_UDP then
        { (s5.ld pl_iph 1).ldq (th + 6) 2 with th_csum := rd16 (skb_mem skb1) (th + 6) }
      else if icmp_pl_ip_proto = VR_IP_PROTO_ICMP then
        { (s5.ld pl_iph 1).ldq (th + 2) 2 with th_csum := rd16 (skb_mem skb1) (th + 2) }
      else s5
    | none => { s with pulls := s.pulls ++ [(u32 s.pull_len, false)] }
  else s

/-- Inner ICMP over IPv4: record the checksum field and, for an ICMP error, walk
the quoted packet. -/
def stage_icmp (P : VrParams) (s : pull_state) : pull_step :=
  let icmph := s.hoff + s.hlen
  let s1 := { (s.ld (icmph + 2) 2) with th_csum := rd16 s.skb.head (icmph + 2) }
  if P.vr_icmp_error s1.skb.head icmph then
    pull_or_error { s1 with pull_len := s1.pull_len + (sizeof_vr_ip : Int) } fun s2 =>
      let icmp_pl_iph := s2.hoff + s2.hlen + sizeof_icmphdr
      let icmp_pl_ip_proto := ip_proto_of s2.skb.head icmp_pl_iph
      pull_or_error { rederive_iph ((s2.ld (icmp_pl_iph + 9) 1).ld icmp_pl_iph 1) with
          pull_len := s2.pull_len +
          ((ip_hl s2.skb.head icmp_pl_iph * 4 : Nat) - (sizeof_vr_ip : Int)) } fun s3 =>
        pull_or_error (icmp_ports_pull_len s3) fun s4 =>
          .next (rederive_iph (icmp_quoted_csum icmp_pl_ip_proto
            { s4 with pull_len := s4.pull_len - (sizeof_icmphdr : Int) +
              (icmp_pl_size icmp_pl_ip_proto : Int) }))
  else .next s1

/-- The block `if (skb->len >= pull_len) { if (pskb_may_pull(skb, pull_len)) { ... } }`
of the ICMPv6 error case.  The source recomputes `icmph` from `iph`, which was
computed before the three pulls of the ICMPv6 error case, and reads the quoted
ICMP checksum through `icmp_pl_iph`, which is `NULL` here.  As in the ICMP
case, a load beyond `skb->tail` finds `past_tail`. -/
def icmp6_quoted_csum (icmp_pl_ip_proto : Nat) (s : pull_state) : pull_step :=
  if s.skb.len ≥ u32 s.pull_len then
    match pskb_may_pull s.skb (u32 s.pull_len) with
    | some skb1 =>
      let s6 := { s with skb := skb1, pulls := s.pulls ++ [(u32 s.pull_len, true)],
                         pulled := max s.pulled (u32 s.pull_len), ip6h := some s.hoff }
      let stale := decide (s.iph_base ≠ skb1.head_addr)
      let pl_ip6h := s.iph.getD 0 + s.hlen + sizeof_icmphdr
      if icmp_pl_ip_proto = VR_IP_PROTO_TCP then
        if stale ∨ s.iph.isNone then .fault s6
        else .next { (s6.ldq (pl_ip6h + sizeof_vr_ip6 + 16) 2) with
          th_csum := rd16 (skb_mem skb1) (pl_ip6h + sizeof_vr_ip6 + 16) }
      else if icmp_pl_ip_proto = VR_IP_PROTO_UDP then
        if stale ∨ s.iph.isNone then .fault s6
        else .next { (s6.ldq (pl_ip6h + sizeof_vr_ip6 + 6) 2) with
          th_csum := rd16 (skb_mem skb1) (pl_ip6h + sizeof_vr_ip6 + 6) }
      else if icmp_pl_ip_proto = VR_IP_PROTO_ICMP then .fault s6
      else .next s6
    | none => .next { s with pulls := s.pulls ++ [(u32 s.pull_len, false)] }
  else .next s

/-- The assignments `ip6h = skb->head + hoff; iph = (struct vr_ip *) ip6h;` that
end the ICMPv6 case. -/
def rederive_ip6h (s : pull_state) : pull_state :=
  { s with ip6h := some s.hoff, iph := some s.hoff, iph_base := s.skb.head_addr }

/-- Inner ICMPv6: the fixed option bytes of solicitations, or the quoted packet
of an ICMPv6 error. -/
def stage_icmp6 (P : VrParams) (s : pull_state) : pull_step :=
  let icmph := s.hoff + s.hlen
  let s0 := s.ld icmph 1
  if rd8 s.skb.head icmph = VR_ICMP6_TYPE_NEIGH_SOL then
    pull_or_error { s0 with pull_len := s.pull_len + 24 } fun s1 => .next (rederive_ip6h s1)
  else if rd8 s.skb.head icmph = VR_ICMP6_TYPE_ROUTER_SOL then
    pull_or_error { (s0.ld icmph 1) with pull_len := s.pull_len + 8 } fun s1 =>
      .next (rederive_ip6h s1)
  else if P.vr_icmp6_error s.skb.head icmph then
    pull_or_error { (s0.ld icmph 1) with pull_len := s.pull_len + (sizeof_vr_ip6 : Int) } fun s2 =>
      let icmp_pl_ip6h := s2.hoff + s2.hlen + sizeof_icmphdr
      let icmp_pl_ip_proto := ip6_nxt s2.skb.head icmp_pl_ip6h
      pull_or_error (icmp_ports_pull_len { (s2.ld (icmp_pl_ip6h + 6) 1) with
          ip6h := some s2.hoff }) fun s4 =>
        (icmp6_quoted_csum icmp_pl_ip_proto
          { s4 with pull_len := s4.pull_len - (sizeof_icmphdr : Int) +
            (icmp_pl_size icmp_pl_ip_proto : Int) }).bind fun s7 => .next (rederive_ip6h s7)
  else .next (rederive_ip6h (s0.ld icmph 1))

/-- The block `if (thdr_valid) { ... }`: pull the fixed transport header and
dispatch on the transport protocol. -/
def stage_l4 (P : VrParams) (s : pull_state) : pull_step :=
  let s0 := l4_prologue P s
  if s0.thdr_valid then
    pull_or_error s0 fun s1 =>
      let s2 := rederive_iph s1
      if s2.l4_proto = VR_IP_PROTO_TCP then stage_tcp s2
      else if s2.ip6h.isNone ∧ s2.l4_proto = VR_IP_PROTO_ICMP then stage_icmp P s2
      else if s2.l4_proto = VR_IP_PROTO_UDP then
        .next { (s2.ld (s2.hoff + s2.hlen + 6) 2) with
          th_csum := rd16 s2.skb.head (s2.hoff + s2.hlen + 6) }
      else if s2.ip6h.isSome ∧ s2.l4_proto = VR_IP_PROTO_ICMP6 then stage_icmp6 P s2
      else .next s2
  else .next s0

/-- What the checksum block did: where control went, the value returned by the
checksum verification it called (`none` when it called none), whether that was
the verification of the outer UDP datagram, and the arguments `overlay_len` and
`hlen` of the call of `lh_adjust_tcp_mss` (`none` when there was no call). -/
structure csum_out where
  step : pull_step
  verify : Option Int
  outer_udp : Bool
  mss_args : Option (Nat × Nat)
deriving DecidableEq, Repr

/-- The call `lh_adjust_tcp_mss(tcph, skb, vrouter_overlay_len, sizeof(struct vr_ip))`
when `cond` holds, and the end of the checksum block. -/
def csum_finish (G : Globals) (cond : Bool) (s : pull_state) (verify : Option Int)
    (outer_udp : Bool) : csum_out :=
  if cond then
    match lh_adjust_tcp_mss G s.tcph s.skb s.vrouter_overlay_len sizeof_vr_ip with
    | some skb1 =>
      { step := .next { s with skb := skb1 }, verify := verify, outer_udp := outer_udp,
        mss_args := some (s.vrouter_overlay_len, sizeof_vr_ip) }
    | none =>
      { step := .out_of_fuel s, verify := verify, outer_udp := outer_udp,
        mss_args := some (s.vrouter_overlay_len, sizeof_vr_ip) }
  else { step := .next s, verify := verify, outer_udp := outer_udp, mss_args := none }

/-- The block `if (!skb_csum_unnecessary(skb)) { ... }`: checksum verification and
MSS adjustment. -/
def stage_csum (P : VrParams) (G : Globals) (s : pull_state) : csum_out :=
  if skb_csum_unnecessary s.skb then
    { step := .next s, verify := none, outer_udp := false, mss_args := none }
  else
    let outer_iph := pkt_network_header s.pkt
    if outer_iph.isSome ∧ ip_proto_of s.skb.head (outer_iph.getD 0) = VR_IP_PROTO_UDP ∧
        s.udph_cksum ≠ 0 then
      let skb_pull_len := u32 ((s.pkt.vp_data : Int) - (s.skb.data : Int))
      let v := lh_csum_verify_udp (skb_pull s.skb skb_pull_len) (outer_iph.getD 0)
      if v.1 ≠ 0 ∧ s.th_csum ≠ P.VR_DIAG_CSUM then
        { step := .cksum_err { s with skb := v.2 }, verify := some v.1, outer_udp := true,
          mss_args := none }
      else
        let pkt2 := if v.1 ≠ 0 then vr_pkt_set_diag s.pkt else s.pkt
        csum_finish G (s.tcph.isSome && G.vr_to_vm_mss_adj)
          { s with skb := skb_push v.2 skb_pull_len, pkt := pkt2 } (some v.1) true
    else
      match s.ip6h, s.iph with
      | some _, _ => { step := .next s, verify := none, outer_udp := false, mss_args := none }
      | none, none => { step := .fault s, verify := none, outer_udp := false, mss_args := none }
      | none, some iph =>
        if P.vr_ip_fragment s.skb.head iph then
          { step := .next s, verify := none, outer_udp := false, mss_args := none }
        else
          let proto := ip_proto_of s.skb.head iph
          let mss := decide (proto = VR_IP_PROTO_TCP) && G.vr_to_vm_mss_adj
          if (s.th_csum = P.VR_DIAG_CSUM ∧ proto = VR_IP_PROTO_UDP) ∨ proto = VR_IP_PROTO_TCP then
            let skb1 := lh_handle_checksum_complete_skb s.skb
            let toff := u32 ((iph : Int) + (ip_hl skb1.head iph * 4 : Nat) - (skb1.data : Int))
            let v := lh_csum_verify (skb_pull skb1 toff) iph
            if v.1 ≠ 0 ∧ s.th_csum ≠ P.VR_DIAG_CSUM then
              { step := .cksum_err { s with skb := v.2 }, verify := some v.1, outer_udp := false,
                mss_args := none }
            else
              let pkt2 := if v.1 ≠ 0 then vr_pkt_set_diag s.pkt else s.pkt
              let skb4 := skb_set_ip_summed v.2 CHECKSUM_UNNECESSARY
              csum_finish G mss { s with skb := skb_push skb4 toff, pkt := pkt2 } (some v.1) false
          else csum_finish G mss s none false

/-- How a call of `lh_pull_inner_headers` ended. -/
inductive pull_exit where
  | success
  | error
  | cksum_err
  | fault
  | out_of_fuel
deriving DecidableEq, Repr

/-- The outcome of `lh_pull_inner_headers`: the value returned, `*reason`, the
buffer and the packet on return, the local variables, and what the checksum
block did. -/
structure pull_result where
  exit : pull_exit
  ret : Int
  reason : Nat
  skb : sk_buff
  pkt : vr_packet
  st : pull_state
  verify : Option Int
  outer_udp : Bool
  mss_args : Option (Nat × Nat)
deriving DecidableEq, Repr

/-- No checksum verification and no MSS adjustment took place. -/
def csum_skipped (step : pull_step) : csum_out :=
  { step := step, verify := none, outer_udp := false, mss_args := none }

/-- The code from the start of the function to the call of `lh_reset_skb_fields`
that precedes `if (iph || ip6h)`. -/
def pull_outer_headers (P : VrParams) (skb : sk_buff) (pkt : vr_packet) (ip_proto : Nat)
    (cb : Option tunnel_type_cb) : pull_step :=
  (((stage_outer P ip_proto (pull_init P skb pkt)).bind (stage_label P cb)).bind stage_eth).bind
    fun s => .next { s with pkt := lh_reset_skb_fields s.skb s.pkt }

/-- The block `if (iph || ip6h) { ... }`: transport header walk, reset of the
packet fields, checksum block. -/
def stage_inner (P : VrParams) (G : Globals) (s : pull_state) : csum_out :=
  if s.iph.isSome ∨ s.ip6h.isSome then
    match stage_l4 P s with
    | .next s2 => stage_csum P G { s2 with pkt := lh_reset_skb_fields s2.skb s2.pkt }
    | other => csum_skipped other
  else csum_skipped (.next s)

/-- The three ways out of the function: `return 1` after the final adjustment of
`ip_summed`, the label `error`, the label `cksum_err`. -/
def pull_finish (P : VrParams) (o : csum_out) : pull_result :=
  match o.step with
  | .next s =>
    let skb1 :=
      if (!s.mpls_pkt ∨ s.ret ≠ P.PKT_MPLS_TUNNEL_L3) ∧ s.skb.ip_summed = CHECKSUM_PARTIAL then
        { s.skb with ip_summed := CHECKSUM_UNNECESSARY }
      else s.skb
    { exit := .success, ret := 1, reason := s.reason, skb := skb1, pkt := s.pkt,
      st := { s with skb := skb1 }, verify := o.verify, outer_udp := o.outer_udp,
      mss_args := o.mss_args }
  | .error s =>
    let pkt1 := lh_reset_skb_fields s.skb s.pkt
    { exit := .error, ret := 0, reason := s.reason, skb := s.skb, pkt := pkt1,
      st := { s with pkt := pkt1 }, verify := o.verify, outer_udp := o.outer_udp,
      mss_args := o.mss_args }
  | .cksum_err s =>
    let pkt1 := lh_reset_skb_fields s.skb s.pkt
    { exit := .cksum_err, ret := 0, reason := P.VP_DROP_CKSUM_ERR, skb := s.skb, pkt := pkt1,
      st := { s with pkt := pkt1, reason := P.VP_DROP_CKSUM_ERR }, verify := o.verify,
      outer_udp := o.outer_udp, mss_args := o.mss_args }
  | .fault s =>
    { exit := .fault, ret := 0, reason := s.reason, skb := s.skb, pkt := s.pkt, st := s,
      verify := o.verify, outer_udp := o.outer_udp, mss_args := o.mss_args }
  | .out_of_fuel s =>
    { exit := .out_of_fuel, ret := 0, reason := s.reason, skb := s.skb, pkt := s.pkt, st := s,
      verify := o.verify, outer_udp := o.outer_udp, mss_args := o.mss_args }

/-- `lh_pull_inner_headers(pkt, ip_proto, reason, tunnel_type_cb)`. -/
def lh_pull_inner_headers (P : VrParams) (G : Globals) (skb : sk_buff) (pkt : vr_packet)
    (ip_proto : Nat) (cb : Option tunnel_type_cb) : pull_result :=
  match pull_outer_headers P skb pkt ip_proto cb with
  | .next s => pull_finish P (stage_inner P G s)
  | other => pull_finish P (csum_skipped other)

/-! ## `lh_pkt_from_vm_tcp_mss_adj` -/

/-- Outcome of `lh_pkt_from_vm_tcp_mss_adj`: the value returned, the buffer and
the packet afterwards, the arguments `overlay_len` and `hlen` of the call of
`lh_adjust_tcp_mss` (`none` when there was no call), and how the call ended
(`success` for a return, `fault` for a read through a pointer into a buffer
that was reallocated since, `out_of_fuel` when the option walk ran out of fuel). -/
structure from_vm_result where
  exit : pull_exit
  ret : Nat
  skb : sk_buff
  pkt : vr_packet
  mss_args : Option (Nat × Nat)
deriving DecidableEq, Repr

/-- The label `out` of `lh_pkt_from_vm_tcp_mss_adj`. -/
def from_vm_out (skb : sk_buff) (pkt : vr_packet) (mss_args : Option (Nat × Nat)) :
    from_vm_result :=
  { exit := .success, ret := 0, skb := skb, pkt := lh_reset_skb_fields skb pkt,
    mss_args := mss_args }

/-- The part of `lh_pkt_from_vm_tcp_mss_adj` after the network header was
examined: `proto`, `hlen` and `opt_len` are set. -/
def from_vm_tcp (P : VrParams) (G : Globals) (skb : sk_buff) (pkt : vr_packet)
    (overlay_len : Nat) (pull_len : Int) (iph_base proto hlen : Nat) (opt_len : Int) :
    from_vm_result :=
  if proto ≠ VR_IP_PROTO_TCP then from_vm_out skb pkt none
  else
    let pull_len1 := pull_len + (sizeof_tcphdr : Int) + opt_len
    match pskb_may_pull skb (u32 pull_len1) with
    | none => { exit := .success, ret := P.VP_DROP_PULL, skb := skb, pkt := pkt, mss_args := none }
    | some skb1 =>
      if iph_base ≠ skb1.head_addr then
        { exit := .fault, ret := 0, skb := skb1, pkt := pkt, mss_args := none }
      else
        let tcph := pkt.vp_data + hlen
        if tcp_doff skb1.head tcph * 4 ≤ sizeof_tcphdr then from_vm_out skb1 pkt none
        else
          let pull_len2 := pull_len1 + ((tcp_doff skb1.head tcph * 4 : Nat) - (sizeof_tcphdr : Int))
          match pskb_may_pull skb1 (u32 pull_len2) with
          | none =>
            { exit := .success, ret := P.VP_DROP_PULL, skb := skb1, pkt := pkt, mss_args := none }
          | some skb2 =>
            match lh_adjust_tcp_mss G (some (pkt.vp_data + hlen)) skb2 overlay_len hlen with
            | some skb3 => from_vm_out skb3 pkt (some (overlay_len, hlen))
            | none =>
              { exit := .out_of_fuel, ret := 0, skb := skb2, pkt := pkt,
                mss_args := some (overlay_len, hlen) }

/-- `lh_pkt_from_vm_tcp_mss_adj(pkt, overlay_len)`. -/
def lh_pkt_from_vm_tcp_mss_adj (P : VrParams) (G : Globals) (skb : sk_buff) (pkt : vr_packet)
    (overlay_len : Nat) : from_vm_result :=
  let pull_len : Int := (pkt.vp_data : Int) - (skb.data : Int) + (sizeof_vr_ip : Int)
  match pskb_may_pull skb (u32 pull_len) with
  | none => { exit := .success, ret := P.VP_DROP_PULL, skb := skb, pkt := pkt, mss_args := none }
  | some skb1 =>
    let iph := pkt.vp_data
    if vr_ip_is_ip6 skb1.head iph then
      let pull_len1 := pull_len + ((sizeof_vr_ip6 : Int) - (sizeof_vr_ip : Int))
      match pskb_may_pull skb1 (u32 pull_len1) with
      | none =>
        { exit := .success, ret := P.VP_DROP_PULL, skb := skb1, pkt := pkt, mss_args := none }
      | some skb2 =>
        from_vm_tcp P G skb2 pkt overlay_len pull_len1 skb1.head_addr
          (ip6_nxt skb2.head pkt.vp_data) sizeof_vr_ip6 0
    else if vr_ip_is_ip4 skb1.head iph then
      if rd16 skb1.head (iph + 6) % 8192 ≠ 0 then from_vm_out skb1 pkt none
      else
        from_vm_tcp P G skb1 pkt overlay_len pull_len skb1.head_addr
          (ip_proto_of skb1.head iph) (ip_hl skb1.head iph * 4)
          ((ip_hl skb1.head iph * 4 : Nat) - (sizeof_vr_ip : Int))
    else from_vm_out skb1 pkt none

/-! ## `lh_pkt_may_pull` and `lh_pexpand_head` -/

/-- `skb_headroom(skb)`: `skb->data - skb->head`. -/
def skb_headroom (skb : sk_buff) : Nat := skb.data

/-- What `lh_pkt_may_pull` returns and leaves behind. -/
structure may_pull_result where
  ret : Int
  skb : sk_buff
  pkt : vr_packet
deriving DecidableEq, Repr

/-- `lh_pkt_may_pull(pkt, len)`; `pull_len` is an `unsigned int`. -/
def lh_pkt_may_pull (skb : sk_buff) (pkt : vr_packet) (len : Nat) : may_pull_result :=
  let pull_len := u32 ((pkt.vp_data : Int) - (skb_headroom skb : Int) + (len : Int))
  match pskb_may_pull skb pull_len with
  | none => { ret := -1, skb := skb, pkt := pkt }
  | some skb1 => { ret := 0, skb := skb1, pkt := lh_reset_skb_fields skb1 pkt }

/-- `pskb_expand_head(skb, nhead, ntail, GFP_ATOMIC)`: `none` when the allocation
fails (the call returns non-zero); otherwise the linear buffer is reallocated
with `nhead` more bytes in front and `ntail` more behind. -/
def pskb_expand_head (skb : sk_buff) (nhead ntail : Nat) : Option sk_buff :=
  match alloc_step skb.alloc_budget with
  | none => none
  | some budget =>
    some { skb with
      head_addr := skb.head_addr + 1
      cloned := false
      head := List.replicate nhead 0 ++ mem_resize skb.head skb.end_ ++ List.replicate ntail 0
      data := skb.data + nhead
      tail := skb.tail + nhead
      end_ := skb.end_ + nhead + ntail
      alloc_budget := budget }

/-- `lh_pexpand_head(pkt, hspace)`: `none` is `NULL`; `skb` is `vp_os_packet(pkt)`.
The offsets of the packet are `unsigned short`. -/
def lh_pexpand_head (skb : Option sk_buff) (pkt : vr_packet) (hspace : Nat) :
    Option (sk_buff × vr_packet) :=
  match skb with
  | none => none
  | some skb0 =>
    match pskb_expand_head skb0 hspace 0 with
    | none => none
    | some skb1 =>
      some (skb1, { pkt with
        vp_head := skb1.head_addr
        vp_data := u16 ((pkt.vp_data : Int) + (hspace : Int))
        vp_tail := u16 ((pkt.vp_tail : Int) + (hspace : Int))
        vp_end := skb1.end_ % 65536
        vp_network_h := u16 ((pkt.vp_network_h : Int) + (hspace : Int))
        vp_inner_network_h := u16 ((pkt.vp_inner_network_h : Int) + (hspace : Int)) })

/-- The packet invariant `len = tail - data`, in `unsigned short` arithmetic. -/
def pkt_len_inv (pkt : vr_packet) : Prop :=
  pkt.vp_len = u16 ((pkt.vp_tail : Int) - (pkt.vp_data : Int))

/-! ## `lh_data_at_offset`, `lh_network_header`, `lh_inner_network_header` -/

/-- A chained segment as the walks below see it: the fields `vp_head` (an address)
and `vp_end` of the `struct vr_packet` kept in `frag->cb`. -/
structure pkt_seg where
  vp_head : Nat
  vp_end : Nat
deriving DecidableEq, Repr

/-- The loop `while (skb_shinfo(skb)->frag_list) { ... skb = frag; }` shared by the
three functions: `chain` lists the segments reached through `frag_list`, one
after the other; `off` is an `unsigned short`; `none` is `NULL`. -/
def frag_list_walk : List pkt_seg → Nat → Option Nat
  | [], _ => none
  | frag_pkt :: rest, off =>
    if off < frag_pkt.vp_end then some (frag_pkt.vp_head + off)
    else frag_list_walk rest (u16 ((off : Int) - (frag_pkt.vp_end : Int)))

/-- `lh_data_at_offset(pkt, off)`. -/
def lh_data_at_offset (pkt : vr_packet) (chain : List pkt_seg) (off : Nat) : Option Nat :=
  if off < pkt.vp_end then some (pkt.vp_head + off)
  else frag_list_walk chain (u16 ((off : Int) - (pkt.vp_end : Int)))

/-- `lh_network_header(pkt)`. -/
def lh_network_header (pkt : vr_packet) (chain : List pkt_seg) : Option Nat :=
  if pkt.vp_network_h < pkt.vp_end then some (pkt.vp_head + pkt.vp_network_h)
  else frag_list_walk chain (u16 ((pkt.vp_network_h : Int) - (pkt.vp_end : Int)))

/-- `lh_inner_network_header(pkt)`. -/
def lh_inner_network_header (pkt : vr_packet) (chain : List pkt_seg) : Option Nat :=
  frag_list_walk chain (u16 ((pkt.vp_inner_network_h : Int) - (pkt.vp_end : Int)))

/-- The head segment of a packet followed by its chained segments. -/
def pkt_segments (pkt : vr_packet) (chain : List pkt_seg) : List pkt_seg :=
  { vp_head := pkt.vp_head, vp_end := pkt.vp_end } :: chain

/-- The sum `e0 + ... + e_{k-1}` of the capacities of the first `k` segments. -/
def seg_offset (segs : List pkt_seg) (k : Nat) : Nat := ((segs.take k).map pkt_seg.vp_end).sum

/-! ## `lh_get_udp_src_port` -/

/-- Constants and functions that `lh_get_udp_src_port` takes from headers and files
outside the source given here (`vr_packet.h`, `vr_mpls.h`, `vr_flow.h`,
`linux/jhash.h`, `vr_hash.h`): they are parameters of the embedding, as is the
build configuration `NET_SKBUFF_DATA_USES_OFFSET`.  Hash values are `__u32`. -/
structure PortParams where
  VP_TYPE_IP : Nat
  VP_TYPE_IP6 : Nat
  VR_MUDP_PORT_RANGE_START : Nat
  VR_MUDP_PORT_RANGE_END : Nat
  VR_FLOW_HASH_SIZE : Nat → Nat
  vr_hashrnd : Nat
  jhash : List Nat → Nat → Nat → Nat
  vr_hash : List Nat → Nat → Nat → Nat
  vr_hash_2words : Nat → Nat → Nat → Nat
  NET_SKBUFF_DATA_USES_OFFSET : Bool

/-- The way `lh_get_udp_src_port` returned: through the label `error`, with the
port of the flow entry, or with the port computed from the hash (`fallback`
when the branch `port > port_range` reset it to 0 first). -/
inductive port_path where
  | error
  | flow_entry
  | hashed
  | fallback
deriving DecidableEq, Repr

/-- The outcome of `lh_get_udp_src_port`: the `__u16` returned, the buffer and the
packet afterwards, the calls of `pskb_may_pull` (length, success), and the way
out. -/
structure port_result where
  ret : Nat
  skb : sk_buff
  pkt : vr_packet
  pulls : List (Nat × Bool)
  path : port_path
deriving DecidableEq, Repr

/-- The label `error` of `lh_get_udp_src_port`. -/
def port_error (skb : sk_buff) (pkt : vr_packet) (pulls : List (Nat × Bool)) : port_result :=
  { ret := 0, skb := skb, pkt := lh_reset_skb_fields skb pkt, pulls := pulls, path := .error }

/-- The end of `lh_get_udp_src_port`: conversion of the hash value to a port. -/
def port_of_hash (Q : PortParams) (hashval : Nat) : Nat × port_path :=
  let port_range := u32 ((Q.VR_MUDP_PORT_RANGE_END : Int) - (Q.VR_MUDP_PORT_RANGE_START : Int))
  let port := ((hashval % 4294967296) * port_range % 18446744073709551616 / 4294967296) % 65536
  if port > port_range then ((0 + Q.VR_MUDP_PORT_RANGE_START) % 65536, .fallback)
  else ((port + Q.VR_MUDP_PORT_RANGE_START) % 65536, .hashed)

/-- The code of the IP case after the header is in place: ports, flow entry, hash.
`fentry` is the field `fe_udp_src_port` of the flow entry when `fmd` names one
that `vr_get_flow_entry` finds; `frag` are the ports of the fragment entry
`vr_fragment_get` finds.  The ports are read as the source reads them, by raw
loads `*l4_hdr` and `*(l4_hdr + 1)` of `__u16`, without `ntohs`. -/
def port_ip_tail (P : VrParams) (Q : PortParams) (skb : sk_buff) (pkt : vr_packet)
    (pull_len : Int) (pulls : List (Nat × Bool)) (fentry : Option Nat)
    (frag : Option (Nat × Nat)) (vrf : Nat) : port_result :=
  let iph := pkt.vp_network_h
  let finish := fun (skb1 : sk_buff) (pulls1 : List (Nat × Bool)) (sport dport : Nat) =>
    match fentry with
    | some fe_udp_src_port =>
      { ret := fe_udp_src_port % 65536, skb := skb1, pkt := lh_reset_skb_fields skb1 pkt,
        pulls := pulls1, path := port_path.flow_entry : port_result }
    | none =>
      let addrs :=
        if pkt.vp_type = Q.VP_TYPE_IP then [rd32_raw skb1.head (iph + 12), rd32_raw skb1.head (iph + 16)]
        else (List.range 8).map fun i => rd32_raw skb1.head (iph + 8 + 4 * i)
      let hash_key := [vrf, (sport <<< 16 ||| dport) % 4294967296] ++ addrs
      let hashval := Q.jhash hash_key (Q.VR_FLOW_HASH_SIZE pkt.vp_type) Q.vr_hashrnd
      let r := port_of_hash Q hashval
      { ret := r.1, skb := skb1, pkt := lh_reset_skb_fields skb1 pkt, pulls := pulls1, path := r.2 }
  let ports := fun (pl : Int) (l4_of : sk_buff → Nat) =>
    if 0 < pl then
      match pskb_may_pull skb (u32 pl) with
      | none => port_error skb pkt (pulls ++ [(u32 pl, false)])
      | some skb1 =>
        finish skb1 (pulls ++ [(u32 pl, true)]) (rd16_raw skb1.head (l4_of skb1))
          (rd16_raw skb1.head (l4_of skb1 + 2))
    else finish skb pulls (rd16_raw skb.head (l4_of skb)) (rd16_raw skb.head (l4_of skb + 2))
  if pkt.vp_type = Q.VP_TYPE_IP6 then
    if ip6_nxt skb.head iph = VR_IP_PROTO_TCP ∨ ip6_nxt skb.head iph = VR_IP_PROTO_UDP then
      ports (pull_len + 4) fun _ => iph + sizeof_vr_ip6
    else finish skb pulls 0 0
  else if P.vr_ip_transport_header_valid skb.head iph then
    if ip_proto_of skb.head iph = VR_IP_PROTO_TCP ∨ ip_proto_of skb.head iph = VR_IP_PROTO_UDP then
      ports (pull_len + ((ip_hl skb.head iph * 4 : Nat) - (sizeof_vr_ip : Int) + 4))
        fun skb1 => iph + ip_hl skb1.head iph * 4
    else finish skb pulls 0 0
  else
    match frag with
    | some f => finish skb pulls f.1 f.2
    | none => finish skb pulls 0 0

/-- `lh_get_udp_src_port(pkt, fmd, vrf)`. -/
def lh_get_udp_src_port (P : VrParams) (Q : PortParams) (skb : sk_buff) (pkt : vr_packet)
    (fentry : Option Nat) (frag : Option (Nat × Nat)) (vrf : Nat) : port_result :=
  if pkt.vp_type = Q.VP_TYPE_IP ∨ pkt.vp_type = Q.VP_TYPE_IP6 then
    let hdr_len : Nat := if pkt.vp_type = Q.VP_TYPE_IP then 20 else 40
    let pull_len : Int := (hdr_len : Int) + (pkt.vp_network_h : Int) - (skb_headroom skb : Int)
    if pkt.vp_network_h + hdr_len > pkt.vp_tail then
      if Q.NET_SKBUFF_DATA_USES_OFFSET then
        if pkt.vp_tail ≠ skb.tail then
          match pskb_may_pull skb (u32 pull_len) with
          | none => port_error skb pkt [(u32 pull_len, false)]
          | some skb1 => port_ip_tail P Q skb1 pkt pull_len [(u32 pull_len, true)] fentry frag vrf
        else port_ip_tail P Q skb pkt pull_len [] fentry frag vrf
      else
        if pkt.vp_tail ≠ skb.tail then port_error skb pkt []
        else
          match pskb_may_pull skb (u32 pull_len) with
          | none => port_error skb pkt [(u32 pull_len, false)]
          | some skb1 => port_ip_tail P Q skb1 pkt pull_len [(u32 pull_len, true)] fentry frag vrf
    else port_ip_tail P Q skb pkt pull_len [] fentry frag vrf
  else
    if pkt_head_len pkt < 14 then port_error skb pkt []
    else
      let hashval := Q.vr_hash_2words
        (Q.vr_hash (mem_slice skb.head pkt.vp_data 14) 14 Q.vr_hashrnd % 4294967296) vrf Q.vr_hashrnd
      let r := port_of_hash Q hashval
      { ret := r.1, skb := skb, pkt := pkt, pulls := [], path := r.2 }

/-- Every return of `lh_get_udp_src_port` is through `error`, with the port of a
flow entry, or with `port_of_hash` of some hash value. -/
def port_shape (Q : PortParams) (fentry : Option Nat) (r : port_result) : Prop :=
  (r.path = .error ∧ r.ret = 0) ∨ (r.path = .flow_entry ∧ ∃ p, fentry = some p ∧ r.ret = p % 65536) ∨
    ∃ h, r.ret = (port_of_hash Q h).1 ∧ r.path = (port_of_hash Q h).2

/-! ## The fast path `lh_pull_inner_headers_fast`

The inner headers lie in the first page fragment, mapped at `va`: pointers into
it (`iph`, `ip6h`, `th`) are offsets from `va`. -/

/-- Length of a GRE header without optional fields (RFC 2784). -/
def VR_GRE_BASIC_HDR_LEN : Nat := 4

/-- Length of a GRE header with the checksum field (RFC 2784). -/
def VR_GRE_CKSUM_HDR_LEN : Nat := 8

/-- Length of a GRE header with the key field (RFC 2890). -/
def VR_GRE_KEY_HDR_LEN : Nat := 8

/-- The checksum-present bit of the GRE flag word, as a network-order value. -/
def VR_GRE_FLAG_CSUM : Nat := 0x8000

/-- The key-present bit of the GRE flag word, as a network-order value. -/
def VR_GRE_FLAG_KEY : Nat := 0x2000

/-- The GRE protocol type of MPLS unicast, as a network-order value. -/
def VR_GRE_PROTO_MPLS : Nat := 0x8847

/-- What `vr_inner_pkt_parse` returns and stores through its pointer arguments. -/
structure inner_parse where
  ret : Int
  encap_type : Int
  pkt_type : Int
  pull_len : Nat
  iph : Option Nat
  ip6h : Option Nat
deriving DecidableEq, Repr

/-- What `vr_ip_transport_parse` returns and stores through its pointer arguments. -/
structure transport_parse where
  ret : Int
  th : Nat
  hlen : Nat
  th_csum : Nat
  th_pull_len : Nat
  pull_len : Nat
deriving DecidableEq, Repr

/-- Constants and helpers of the fast path that are defined outside the source
given here: they are parameters of the embedding.  `vr_inner_pkt_parse` takes
the mapped page, the classifier, `*encap_type`, `*pull_len`, `frag_size`, the
UDP destination port or GRE protocol, and the outer protocol;
`vr_ip_transport_parse` takes the mapped page, `iph`, `ip6h`, `frag_size` and
`*pull_len`. -/
structure FastParams where
  PKT_RET_FAST_PATH : Int
  PKT_RET_SLOW_PATH : Int
  PKT_RET_ERROR : Int
  PKT_RET_UNHANDLED : Int
  PKT_ENCAP_VXLAN : Int
  vr_inner_pkt_parse : Mem → Option tunnel_type_cb → Int → Nat → Nat → Nat → Nat → inner_parse
  vr_ip_transport_parse : Mem → Option Nat → Option Nat → Nat → Nat → transport_parse

/-- Modelled from the spec: `pkt_pull(pkt, len)` of `vr_packet.h`, which "advances
the Packet's `data` offset past the outer header"; `len` of the packet is
`tail - data`. -/
def pkt_pull (pkt : vr_packet) (len : Nat) : vr_packet :=
  { pkt with vp_data := u16 ((pkt.vp_data : Int) + (len : Int)),
             vp_len := u16 ((pkt.vp_len : Int) - (len : Int)) }

/-- The labels at which a fast-path function ends, and an invalid memory access. -/
inductive fast_exit where
  | fast_path
  | slow_path
  | unhandled
  | cksum_err
  | fault
deriving DecidableEq, Repr

/-- The outcome of a fast-path function: the value returned, `*ret` (`none` when
it is not written), `*encap_type`, the buffer and the packet afterwards, the
label reached, the number of bytes copied by `memcpy` (`none` when there was
no copy), the length given to `skb_pull` (`none` when it was not called), the
value of the checksum verification called (`none` when none was called), and
the outer header length `hdr_len`. -/
structure fast_result where
  retval : Int
  ret : Option Int
  encap_type : Int
  skb : sk_buff
  pkt : vr_packet
  exit : fast_exit
  copied : Option Nat
  pulled : Option Nat
  verify : Option Int
  hdr_len : Nat
deriving DecidableEq, Repr

/-- The label `slow_path`. -/
def fast_slow (F : FastParams) (skb : sk_buff) (pkt : vr_packet) (encap_type : Int)
    (hdr_len : Nat) : fast_result :=
  { retval := 1, ret := some F.PKT_RET_SLOW_PATH, encap_type := encap_type, skb := skb,
    pkt := pkt, exit := .slow_path, copied := none, pulled := none, verify := none,
    hdr_len := hdr_len }

/-- The label `unhandled`. -/
def fast_unhandled (skb : sk_buff) (pkt : vr_packet) (encap_type : Int) (hdr_len : Nat) :
    fast_result :=
  { retval := 0, ret := none, encap_type := encap_type, skb := skb, pkt := pkt,
    exit := .unhandled, copied := none, pulled := none, verify := none, hdr_len := hdr_len }

/-- `lh_csum_verify(skb, iph)` with the IP header read from the mapped page `m`. -/
def lh_csum_verify_mem (m : Mem) (skb : sk_buff) (iph : Nat) : Int × sk_buff :=
  let pseudo := csum_tcpudp_nofold (ip_saddr m iph) (ip_daddr m iph)
    (u32 ((ip_len m iph : Int) - (ip_hl m iph * 4 : Nat))) (ip_proto_of m iph) 0
  let skb1 := { skb with csum := pseudo }
  let r := __skb_checksum_complete skb1
  if r.1 ≠ 0 then (-1, r.2) else (0, r.2)

/-- The lines `memcpy(skb_tail_pointer(skb), va, pull_len); skb_frag_size_sub(frag,
pull_len); frag->page_offset += pull_len; skb->data_len -= pull_len; skb->tail
+= pull_len;` for the first fragment `frag` of `skb`. -/
def fast_copy (skb : sk_buff) (frag : skb_frag) (rest : List skb_frag) (va : Mem)
    (pull_len : Nat) : sk_buff :=
  { skb with
    head := mem_write skb.head skb.tail (mem_resize va pull_len)
    frags := { frag with size := u32 ((frag.size : Int) - (pull_len : Int)),
                         page_offset := frag.page_offset + pull_len } :: rest
    data_len := u32 ((skb.data_len : Int) - (pull_len : Int))
    tail := skb.tail + pull_len }

/-- What the checksum block of a fast-path function did. -/
structure fast_csum where
  err : Bool
  fault : Bool
  skb : sk_buff
  pkt : vr_packet
  verify : Option Int
  pulled : Option Nat
deriving DecidableEq, Repr

/-- No verification: the block leaves buffer and packet as they are. -/
def fast_csum_none (skb : sk_buff) (pkt : vr_packet) : fast_csum :=
  { err := false, fault := false, skb := skb, pkt := pkt, verify := none, pulled := none }

/-- The block `if (!ip6h && iph && !vr_ip_fragment(iph)) { ... }` shared by the two
fast-path functions: verification of the inner transport checksum for TCP, and
for UDP under the diagnostic sentinel. -/
def fast_inner_csum (P : VrParams) (va : Mem) (skb : sk_buff) (pkt : vr_packet)
    (pkt_headlen : Nat) (h : inner_parse) (t : transport_parse) : fast_csum :=
  match h.ip6h, h.iph with
  | none, some iph =>
    if P.vr_ip_fragment va iph then fast_csum_none skb pkt
    else
      let proto := ip_proto_of va iph
      if (proto = VR_IP_PROTO_UDP ∧ t.th_csum = P.VR_DIAG_CSUM) ∨ proto = VR_IP_PROTO_TCP then
        let skb1 := lh_handle_checksum_complete_skb skb
        if skb1.frags.length = 1 then
          let tcp_size := u32 ((ip_len va iph : Int) - (t.hlen : Int))
          let v := lh_csum_verify_fast va iph t.th proto tcp_size
          if v ≠ 0 ∧ t.th_csum ≠ P.VR_DIAG_CSUM then
            { err := true, fault := false, skb := skb1, pkt := pkt, verify := some v,
              pulled := none }
          else
            { err := false, fault := false, skb := skb_set_ip_summed skb1 CHECKSUM_UNNECESSARY,
              pkt := if v ≠ 0 then vr_pkt_set_diag pkt else pkt, verify := some v,
              pulled := none }
        else
          let skb_pull_len := u32 (((pkt.vp_data : Int) - (skb1.data : Int)) +
            (pkt_headlen : Int) + (t.th_pull_len : Int))
          let v := lh_csum_verify_mem va (skb_pull skb1 skb_pull_len) iph
          if v.1 ≠ 0 ∧ t.th_csum ≠ P.VR_DIAG_CSUM then
            { err := true, fault := false, skb := v.2, pkt := pkt, verify := some v.1,
              pulled := some skb_pull_len }
          else
            { err := false, fault := false,
              skb := skb_set_ip_summed (skb_push v.2 skb_pull_len) CHECKSUM_UNNECESSARY,
              pkt := if v.1 ≠ 0 then vr_pkt_set_diag pkt else pkt, verify := some v.1,
              pulled := some skb_pull_len }
      else
        fast_csum_none (skb_set_ip_summed skb (skb.ip_summed &&& 2)) pkt
  | _, _ => fast_csum_none skb pkt

/-- The end of a fast-path function after the checksum block: the labels
`cksum_err` and the return with `PKT_RET_FAST_PATH`, where `fix_summed` tells
whether `CHECKSUM_PARTIAL` is turned into `CHECKSUM_UNNECESSARY`. -/
def fast_finish (F : FastParams) (c : fast_csum) (encap_type : Int) (fix_summed : Bool)
    (hdr_len pull_len : Nat) : fast_result :=
  if c.fault then
    { retval := 0, ret := none, encap_type := encap_type, skb := c.skb, pkt := c.pkt,
      exit := .fault, copied := some pull_len, pulled := c.pulled, verify := c.verify,
      hdr_len := hdr_len }
  else if c.err then
    { retval := 1, ret := some F.PKT_RET_ERROR, encap_type := encap_type, skb := c.skb,
      pkt := c.pkt, exit := .cksum_err, copied := some pull_len, pulled := c.pulled,
      verify := c.verify, hdr_len := hdr_len }
  else
    let skb1 :=
      if fix_summed ∧ c.skb.ip_summed = CHECKSUM_PARTIAL then
        skb_set_ip_summed c.skb CHECKSUM_UNNECESSARY
      else c.skb
    { retval := 1, ret := some F.PKT_RET_FAST_PATH, encap_type := encap_type, skb := skb1,
      pkt := pkt_pull c.pkt hdr_len, exit := .fast_path, copied := some pull_len,
      pulled := c.pulled, verify := c.verify, hdr_len := hdr_len }

/-- The checksum block of `lh_pull_inner_headers_fast_udp`; `udp_csum` is the
checksum field of the outer UDP header. -/
def fast_udp_csum (P : VrParams) (va : Mem) (skb : sk_buff) (pkt : vr_packet)
    (pkt_headlen udp_csum : Nat) (h : inner_parse) (t : transport_parse) : fast_csum :=
  if udp_csum ≠ 0 then
    if !skb_csum_unnecessary skb then
      let skb_pull_len := u32 ((pkt.vp_data : Int) - (skb.data : Int))
      match pkt_network_header pkt with
      | none =>
        { err := false, fault := true, skb := skb_pull skb skb_pull_len, pkt := pkt,
          verify := none, pulled := some skb_pull_len }
      | some outer_iph =>
        let v := lh_csum_verify_udp (skb_pull skb skb_pull_len) outer_iph
        if v.1 ≠ 0 then
          { err := true, fault := false, skb := v.2, pkt := pkt, verify := some v.1,
            pulled := some skb_pull_len }
        else
          { err := false, fault := false, skb := skb_push v.2 skb_pull_len, pkt := pkt,
            verify := some v.1, pulled := some skb_pull_len }
    else fast_csum_none skb pkt
  else fast_inner_csum P va skb pkt pkt_headlen h t

/-- The checksum block of `lh_pull_inner_headers_fast_gre`. -/
def fast_gre_csum (P : VrParams) (va : Mem) (skb : sk_buff) (pkt : vr_packet)
    (pkt_headlen : Nat) (h : inner_parse) (t : transport_parse) : fast_csum :=
  if !skb_csum_unnecessary skb then fast_inner_csum P va skb pkt pkt_headlen h t
  else fast_csum_none skb pkt

/-- The code of `lh_pull_inner_headers_fast_udp` from the `memcpy` to the return:
copy, reset of the packet fields, checksum block, `CHECKSUM_PARTIAL` fix-up,
`pkt_pull(pkt, hdr_len)`. -/
def fast_udp_tail (P : VrParams) (F : FastParams) (skb : sk_buff) (pkt : vr_packet)
    (frag : skb_frag) (rest : List skb_frag) (va : Mem) (pkt_headlen udp_csum : Nat)
    (h : inner_parse) (t : transport_parse) : fast_result :=
  let skb1 := fast_copy skb frag rest va t.pull_len
  let pkt1 := lh_reset_skb_fields skb1 pkt
  fast_finish F (fast_udp_csum P va skb1 pkt1 pkt_headlen udp_csum h t) h.encap_type
    (decide (h.encap_type = F.PKT_ENCAP_VXLAN ∨ h.pkt_type ≠ P.PKT_MPLS_TUNNEL_L3))
    sizeof_udphdr t.pull_len

/-- The code of `lh_pull_inner_headers_fast_gre` from the `memcpy` to the return. -/
def fast_gre_tail (P : VrParams) (F : FastParams) (skb : sk_buff) (pkt : vr_packet)
    (frag : skb_frag) (rest : List skb_frag) (va : Mem) (pkt_headlen hdr_len : Nat)
    (h : inner_parse) (t : transport_parse) : fast_result :=
  let skb1 := fast_copy skb frag rest va t.pull_len
  let pkt1 := lh_reset_skb_fields skb1 pkt
  fast_finish F (fast_gre_csum P va skb1 pkt1 pkt_headlen h t) h.encap_type
    (decide (h.pkt_type ≠ P.PKT_MPLS_TUNNEL_L3)) hdr_len t.pull_len

/-- The code of `lh_pull_inner_headers_fast_udp` after the call of
`vr_ip_transport_parse`, whose results are `t`: the tests of `parse_ret` and of
the room left in the linear part, then the copy. -/
def fast_udp_after_parse (P : VrParams) (F : FastParams) (skb : sk_buff) (pkt : vr_packet)
    (frag : skb_frag) (rest : List skb_frag) (va : Mem) (pkt_headlen udp_csum : Nat)
    (h : inner_parse) (t : transport_parse) : fast_result :=
  if t.ret = F.PKT_RET_SLOW_PATH then fast_slow F skb pkt h.encap_type sizeof_udphdr
  else if t.ret = F.PKT_RET_UNHANDLED then fast_unhandled skb pkt h.encap_type sizeof_udphdr
  else if u32 ((skb.end_ : Int) - (skb.tail : Int)) < t.pull_len then
    fast_slow F skb pkt h.encap_type sizeof_udphdr
  else fast_udp_tail P F skb pkt frag rest va pkt_headlen udp_csum h t

/-- The code of `lh_pull_inner_headers_fast_udp` after the call of
`vr_inner_pkt_parse`, whose results are `h`. -/
def fast_udp_after_helper (P : VrParams) (F : FastParams) (skb : sk_buff) (pkt : vr_packet)
    (frag : skb_frag) (rest : List skb_frag) (va : Mem) (pkt_headlen udp_csum : Nat)
    (h : inner_parse) : fast_result :=
  if h.ret = F.PKT_RET_SLOW_PATH then fast_slow F skb pkt h.encap_type sizeof_udphdr
  else if h.ret = F.PKT_RET_UNHANDLED then fast_unhandled skb pkt h.encap_type sizeof_udphdr
  else
    fast_udp_after_parse P F skb pkt frag rest va pkt_headlen udp_csum h
      (F.vr_ip_transport_parse va h.iph h.ip6h frag.size h.pull_len)

/-- The code of `lh_pull_inner_headers_fast_udp` once the first page fragment is
mapped at `va`: the UDP header is in the page when the linear part is empty,
at the packet data otherwise. -/
def fast_udp_mapped (P : VrParams) (F : FastParams) (skb : sk_buff) (pkt : vr_packet)
    (cb : Option tunnel_type_cb) (encap_type : Int) (frag : skb_frag) (rest : List skb_frag)
    (va : Mem) (pkt_headlen : Nat) : fast_result :=
  fast_udp_after_helper P F skb pkt frag rest va pkt_headlen
    (if pkt_headlen = 0 then rd16 va 6 else rd16 skb.head (pkt.vp_data + 6))
    (F.vr_inner_pkt_parse va cb encap_type (if pkt_headlen = 0 then sizeof_udphdr else 0)
      frag.size (if pkt_headlen = 0 then rd16 va 2 else rd16 skb.head (pkt.vp_data + 2))
      VR_IP_PROTO_UDP)

/-- `lh_pull_inner_headers_fast_udp(pkt, tunnel_type_cb, ret, encap_type)`. -/
def lh_pull_inner_headers_fast_udp (P : VrParams) (F : FastParams) (skb : sk_buff)
    (pkt : vr_packet) (cb : Option tunnel_type_cb) (encap_type : Int) : fast_result :=
  if pkt_head_len pkt ≠ 0 ∧ pkt_head_len pkt ≠ sizeof_udphdr then
    fast_slow F skb pkt encap_type sizeof_udphdr
  else
    match skb.frags with
    | [] => fast_slow F skb pkt encap_type sizeof_udphdr
    | frag :: rest =>
      if skb.frag_list ≠ [] then fast_slow F skb pkt encap_type sizeof_udphdr
      else
        fast_udp_mapped P F skb pkt cb encap_type frag rest (frag.page.drop frag.page_offset)
          (pkt_head_len pkt)

/-- The tests that `lh_pull_inner_headers_fast_gre` makes on a non-empty linear
part: `none` for `goto slow_path`, otherwise `hdr_len`. -/
def fast_gre_linear (skb : sk_buff) (pkt : vr_packet) (pkt_headlen : Nat) : Option Nat :=
  let flags := rd16 skb.head pkt.vp_data
  let hdr_len :=
    if pkt_headlen > VR_GRE_BASIC_HDR_LEN then
      VR_GRE_BASIC_HDR_LEN +
        (if flags &&& VR_GRE_FLAG_CSUM ≠ 0 then VR_GRE_CKSUM_HDR_LEN - VR_GRE_BASIC_HDR_LEN else 0) +
        (if flags &&& VR_GRE_FLAG_KEY ≠ 0 then VR_GRE_KEY_HDR_LEN - VR_GRE_BASIC_HDR_LEN else 0)
    else VR_GRE_BASIC_HDR_LEN
  if pkt_headlen > VR_GRE_BASIC_HDR_LEN ∧ pkt_headlen > hdr_len then none
  else if pkt_headlen < hdr_len then none
  else if ¬ pkt_headlen > VR_GRE_BASIC_HDR_LEN ∧
      flags &&& (VR_GRE_FLAG_CSUM ||| VR_GRE_FLAG_KEY) ≠ 0 then none
  else some hdr_len

/-- The tests that `lh_pull_inner_headers_fast_gre` makes on a GRE header that
starts the mapped page: `none` for `goto slow_path`, otherwise `hdr_len`. -/
def fast_gre_paged (va : Mem) (frag_size : Nat) : Option Nat :=
  if frag_size < VR_GRE_BASIC_HDR_LEN then none
  else
    let flags := rd16 va 0
    if flags &&& VR_GRE_FLAG_CSUM ≠ 0 ∧ frag_size < VR_GRE_CKSUM_HDR_LEN then none
    else
      let hdr1 := VR_GRE_BASIC_HDR_LEN +
        (if flags &&& VR_GRE_FLAG_CSUM ≠ 0 then VR_GRE_CKSUM_HDR_LEN - VR_GRE_BASIC_HDR_LEN else 0)
      if flags &&& VR_GRE_FLAG_KEY ≠ 0 then
        let hdr2 := hdr1 + (VR_GRE_KEY_HDR_LEN - VR_GRE_BASIC_HDR_LEN)
        if frag_size < hdr2 then none else some hdr2
      else some hdr1

/-- The code of `lh_pull_inner_headers_fast_gre` after the call of
`vr_ip_transport_parse`, whose results are `t`: the test of `parse_ret`, the
second test of `helper_ret`, the test of the room left, then the copy. -/
def fast_gre_after_parse (P : VrParams) (F : FastParams) (skb : sk_buff) (pkt : vr_packet)
    (frag : skb_frag) (rest : List skb_frag) (va : Mem) (pkt_headlen hdr_len : Nat)
    (h : inner_parse) (t : transport_parse) : fast_result :=
  if t.ret = F.PKT_RET_SLOW_PATH then fast_slow F skb pkt h.encap_type hdr_len
  else if h.ret = F.PKT_RET_UNHANDLED then fast_unhandled skb pkt h.encap_type hdr_len
  else if u32 ((skb.end_ : Int) - (skb.tail : Int)) < t.pull_len then
    fast_slow F skb pkt h.encap_type hdr_len
  else fast_gre_tail P F skb pkt frag rest va pkt_headlen hdr_len h t

/-- The code of `lh_pull_inner_headers_fast_gre` after the call of
`vr_inner_pkt_parse`, whose results are `h`. -/
def fast_gre_after_helper (P : VrParams) (F : FastParams) (skb : sk_buff) (pkt : vr_packet)
    (frag : skb_frag) (rest : List skb_frag) (va : Mem) (pkt_headlen hdr_len : Nat)
    (h : inner_parse) : fast_result :=
  if h.ret = F.PKT_RET_SLOW_PATH then fast_slow F skb pkt h.encap_type hdr_len
  else if h.ret = F.PKT_RET_UNHANDLED then fast_unhandled skb pkt h.encap_type hdr_len
  else
    fast_gre_after_parse P F skb pkt frag rest va pkt_headlen hdr_len h
      (F.vr_ip_transport_parse va h.iph h.ip6h frag.size h.pull_len)

/-- The code of `lh_pull_inner_headers_fast_gre` once `hdr_len` is known: the test
of the GRE protocol, read in the page when the linear part is empty and at the
packet data otherwise, and the call of `vr_inner_pkt_parse`. -/
def fast_gre_mapped (P : VrParams) (F : FastParams) (skb : sk_buff) (pkt : vr_packet)
    (cb : Option tunnel_type_cb) (encap_type : Int) (frag : skb_frag) (rest : List skb_frag)
    (va : Mem) (pkt_headlen hdr_len : Nat) : fast_result :=
  if (if pkt_headlen = 0 then rd16 va 2 else rd16 skb.head (pkt.vp_data + 2)) ≠
      VR_GRE_PROTO_MPLS then fast_unhandled skb pkt encap_type hdr_len
  else
    fast_gre_after_helper P F skb pkt frag rest va pkt_headlen hdr_len
      (F.vr_inner_pkt_parse va cb encap_type (if pkt_headlen = 0 then hdr_len else 0) frag.size
        (if pkt_headlen = 0 then rd16 va 2 else rd16 skb.head (pkt.vp_data + 2))
        VR_IP_PROTO_GRE)

/-- `lh_pull_inner_headers_fast_gre(pkt, tunnel_type_cb, ret, encap_type)`. -/
def lh_pull_inner_headers_fast_gre (P : VrParams) (F : FastParams) (skb : sk_buff)
    (pkt : vr_packet) (cb : Option tunnel_type_cb) (encap_type : Int) : fast_result :=
  match (if pkt_head_len pkt ≠ 0 then fast_gre_linear skb pkt (pkt_head_len pkt)
         else some VR_GRE_BASIC_HDR_LEN) with
  | none => fast_slow F skb pkt encap_type VR_GRE_BASIC_HDR_LEN
  | some hdr_lin =>
    match skb.frags with
    | [] => fast_slow F skb pkt encap_type hdr_lin
    | frag :: rest =>
      if skb.frag_list ≠ [] then fast_slow F skb pkt encap_type hdr_lin
      else
        match (if pkt_head_len pkt = 0 then
            fast_gre_paged (frag.page.drop frag.page_offset) frag.size else some hdr_lin) with
        | none => fast_slow F skb pkt encap_type hdr_lin
        | some hdr_len =>
          fast_gre_mapped P F skb pkt cb encap_type frag rest (frag.page.drop frag.page_offset)
            (pkt_head_len pkt) hdr_len

/-- `lh_pull_inner_headers_fast(pkt, proto, tunnel_type_cb, ret, encap_type)`. -/
def lh_pull_inner_headers_fast (P : VrParams) (F : FastParams) (skb : sk_buff)
    (pkt : vr_packet) (proto : Nat) (cb : Option tunnel_type_cb) (encap_type : Int) :
    fast_result :=
  if proto = VR_IP_PROTO_GRE then lh_pull_inner_headers_fast_gre P F skb pkt cb encap_type
  else if proto = VR_IP_PROTO_UDP then lh_pull_inner_headers_fast_udp P F skb pkt cb encap_type
  else fast_unhandled skb pkt encap_type 0

/-! ## Notions used to state properties of the general path -/

/-- Every logged call of `pskb_may_pull` in `l` succeeded. -/
def all_ok (l : List (Nat × Bool)) : Prop := ∀ p ∈ l, p.2 = true

/-- What a piece of the header walk keeps, relative to the log `pl` of gating
pulls, the drop reason `rs` and the checksum status `ips` it starts from:
`*reason` and `skb->ip_summed` are unchanged, the label `cksum_err` is not
taken, the log is extended, and a failed gating `pskb_may_pull` is only logged
on the way to `error`. -/
def keeps (pl : List (Nat × Bool)) (rs ips : Nat) (x : pull_step) : Prop :=
  x.state.reason = rs ∧ x.state.skb.ip_summed = ips ∧ (∀ s, x ≠ .cksum_err s) ∧
    ∃ l, x.state.gated = pl ++ l ∧ ((∃ s, x = .error s) ∨ all_ok l)

/-- The header walk left `skb->ip_summed` alone and did not take the label
`cksum_err`. -/
def walk_ok0 (ips : Nat) (x : pull_step) : Prop :=
  x.state.skb.ip_summed = ips ∧ ∀ t, x ≠ .cksum_err t

/-- In addition to `walk_ok0`: control falls through with `*reason` still `rs`,
and a failed gating `pskb_may_pull` was logged only on the way to `error`, with
`*reason` still `rs`. -/
def walk_ok (rs ips : Nat) (x : pull_step) : Prop :=
  walk_ok0 ips x ∧ (∀ t, x = .next t → t.reason = rs) ∧
    ((∃ p ∈ x.state.gated, p.2 = false) → (∃ t, x = .error t) ∧ x.state.reason = rs)

/-- Where the drop reason comes from that `lh_pull_inner_headers` reports when it
does not leave through `cksum_err`: `VP_DROP_PULL` set on entry,
`VP_DROP_MISC`, or the value the classifier stored in `*reason` when it was
called with `*reason = VP_DROP_PULL`. -/
def reason_origin (P : VrParams) (cb : Option tunnel_type_cb) (r : Nat) : Prop :=
  r = P.VP_DROP_PULL ∨ r = P.VP_DROP_MISC ∨ ∃ f l c, cb = some f ∧ r = (f l c P.VP_DROP_PULL).2

/-- The destination port of the outer UDP header as `lh_pull_inner_headers` reads
it, after its first pull; `none` when that pull fails. -/
def outer_udp_dport (skb : sk_buff) (pkt : vr_packet) : Option Nat :=
  (pskb_may_pull skb (u32 ((sizeof_udphdr : Int) + (VR_MPLS_HDR_LEN : Int) +
    (VR_L2_MCAST_CTRL_DATA_LEN : Int) + ((pkt.vp_data : Int) - (skb.data : Int))))).map
    fun skb1 => rd16 skb1.head (pkt.vp_data + 2)

/-- The value returned by `lh_csum_verify_udp(skb, outer_iph)` as the checksum
block of `lh_pull_inner_headers` calls it in state `s`, after
`skb_pull(skb, pkt_data(pkt) - skb->data)`. -/
def outer_udp_verify (s : pull_state) (outer_iph : Nat) : Int :=
  (lh_csum_verify_udp (skb_pull s.skb (u32 ((s.pkt.vp_data : Int) - (s.skb.data : Int))))
    outer_iph).1

/-- A linear buffer holding exactly the bytes `l`. -/
def linear_skb (l : List Nat) (ip_summed : Nat) : sk_buff :=
  { head_addr := 0, cloned := false, head := l, data := 0, tail := l.length,
    end_ := l.length, len := l.length, data_len := 0,
    frags := [], frag_list := [], ip_summed := ip_summed, csum := 0 }

/-- Configuration with a physical interface whose device has the given MTU. -/
def globals_with_mtu (mtu : Nat) : Globals :=
  { router := some { vr_eth_if := some { vif_os := some { mtu := mtu } } },
    vr_to_vm_mss_adj := true }

/-- Configuration whose physical interface has no OS device. -/
def globals_no_device : Globals :=
  { router := some { vr_eth_if := some { vif_os := none } }, vr_to_vm_mss_adj := true }

/-- An IPv4 header of 20 bytes, 10.0.0.1 to 10.0.0.2, protocol TCP, total length 44. -/
def ex_ip_hdr : List Nat :=
  [0x45, 0, 0, 44, 0, 0, 0x40, 0, 0x40, 6, 0x26, 0xca, 10, 0, 0, 1, 10, 0, 0, 2]

/-- A TCP SYN of 24 bytes whose only option is MSS 1460, at offset 20; the
checksum `0xff8e` is the correct one between 10.0.0.1 and 10.0.0.2. -/
def ex_syn_aligned : List Nat :=
  [0x12, 0x34, 0x00, 0x50, 0, 0, 0, 1, 0, 0, 0, 0, 0x60, 0x02, 0x72, 0x10,
   0xff, 0x8e, 0, 0, 2, 4, 5, 0xb4]

/-- A TCP SYN of 28 bytes with options NOP, MSS 1460, EOL: the MSS option starts
at the odd offset 21; the checksum `0x3e3b` is the correct one between 10.0.0.1
and 10.0.0.2. -/
def ex_syn_odd : List Nat :=
  [0x12, 0x34, 0x00, 0x50, 0, 0, 0, 1, 0, 0, 0, 0, 0x70, 0x02, 0x72, 0x10,
   0x3e, 0x3b, 0, 0, 1, 2, 4, 5, 0xb4, 0, 0, 0]

/-- Pseudo-header sum of a TCP segment of `n` bytes between 10.0.0.1 and 10.0.0.2. -/
def ex_pseudo (n : Nat) : Nat := csum_tcpudp_nofold 0x0a000001 0x0a000002 n VR_IP_PROTO_TCP 0

/-- The inner packet `ex_ip_hdr ++ ex_syn_aligned` in a linear buffer. -/
def ex_inner_syn : sk_buff := linear_skb (ex_ip_hdr ++ ex_syn_aligned) CHECKSUM_NONE

/-- Values of the vrouter header constants used in the concrete frames below:
drop reasons `VP_DROP_PULL = 1`, `VP_DROP_MISC = 33`, `VP_DROP_CKSUM_ERR = 35`,
tunnel kinds 1 to 4, the sentinel checksum `0xffff`, overlay lengths 40 and 62,
MPLS-over-UDP ports 51234 and 6635, fragment tests on the flags and offset field,
ICMP errors of types 3 and 11, ICMPv6 errors of type below 128. -/
def ex_params : VrParams :=
  { VP_DROP_PULL := 1, VP_DROP_MISC := 33, VP_DROP_CKSUM_ERR := 35,
    PKT_MPLS_TUNNEL_L3 := 1, PKT_MPLS_TUNNEL_L2_UCAST := 2, PKT_MPLS_TUNNEL_L2_MCAST := 3,
    PKT_MPLS_TUNNEL_L2_MCAST_EVPN := 4, VR_DIAG_CSUM := 0xffff,
    VROUTER_OVERLAY_LEN := 40, VROUTER_L2_OVERLAY_LEN := 62,
    vr_mpls_udp_port := fun port => port = 51234 || port = 6635,
    vr_ip_transport_header_valid := fun m iph => rd16 m (iph + 6) % 8192 = 0,
    vr_ip_fragment := fun m iph => rd16 m (iph + 6) % 16384 ≠ 0,
    vr_icmp_error := fun m icmph => rd8 m icmph = 3 || rd8 m icmph = 11,
    vr_icmp6_error := fun m icmph => rd8 m icmph < 128 }

/-- A classifier that accepts every label as an L3 tunnel and leaves `*reason`. -/
def ex_cb_l3 : tunnel_type_cb := fun _ _ reason => (1, reason)

/-- A buffer whose linear part holds `l`, with `skb->data` at offset `data`. -/
def linear_skb_at (l : List Nat) (data ip_summed : Nat) : sk_buff :=
  { head_addr := 0, cloned := false, head := l, data := data, tail := l.length,
    end_ := l.length, len := l.length - data, data_len := 0,
    frags := [], frag_list := [], ip_summed := ip_summed, csum := 0 }

/-- The packet of a buffer whose outer IP header is at offset 0 and whose tunnel
header (packet data) starts at offset `data`. -/
def pkt_at (skb : sk_buff) (data : Nat) : vr_packet :=
  { vp_head := skb.head_addr, vp_data := data, vp_tail := skb.tail, vp_len := skb.tail - data,
    vp_end := skb.end_, vp_network_h := 0, vp_inner_network_h := 0, vp_type := 0, diag := false }

/-- An outer IPv4 header of 20 bytes, 192.168.0.1 to 192.168.0.2, with the given
protocol. -/
def ex_outer_ip (proto : Nat) : List Nat :=
  [0x45, 0, 0, 0, 0, 0, 0x40, 0, 0x40, proto, 0, 0, 192, 168, 0, 1, 192, 168, 0, 2]

/-- A GRE header without optional fields, protocol MPLS, and one MPLS label entry
(label 16, bottom of stack, TTL 64). -/
def ex_gre_mpls : List Nat := [0, 0, 0x88, 0x47, 0, 1, 1, 64]

/-- An inner IPv4 header of 24 bytes (`ip_hl = 6`, one option word), 10.0.0.1 to
10.0.0.2, protocol TCP, total length 48. -/
def ex_ip_hdr_opts : List Nat :=
  [0x46, 0, 0, 48, 0, 0, 0x40, 0, 0x40, 6, 0, 0, 10, 0, 0, 1, 10, 0, 0, 2, 1, 1, 1, 0]

/-- A GRE/MPLS L3 tunnel frame carrying `ex_ip_hdr_opts` and the SYN
`ex_syn_aligned`, with `skb->data` at the GRE header. -/
def ex_gre_frame : sk_buff :=
  linear_skb_at (ex_outer_ip VR_IP_PROTO_GRE ++ ex_gre_mpls ++ ex_ip_hdr_opts ++ ex_syn_aligned)
    20 CHECKSUM_NONE

/-- The inner packet of `ex_gre_frame` as a VM would send it. -/
def ex_vm_frame : sk_buff := linear_skb (ex_ip_hdr_opts ++ ex_syn_aligned) CHECKSUM_NONE

/-- A GRE/MPLS frame cut after the first four bytes of the inner IP header. -/
def ex_gre_short : sk_buff :=
  linear_skb_at (ex_outer_ip VR_IP_PROTO_GRE ++ ex_gre_mpls ++ [0x45, 0, 0, 48]) 20 CHECKSUM_NONE

/-- A classifier that rejects every label with drop reason 22. -/
def ex_cb_reject : tunnel_type_cb := fun _ _ _ => (0, 22)

/-- A classifier that rejects every label and stores 35, the value of
`VP_DROP_CKSUM_ERR` in `ex_params`, in `*reason`. -/
def ex_cb_reject_cksum : tunnel_type_cb := fun _ _ _ => (0, 35)

/-- A classifier that accepts every label as an L3 tunnel and stores 22 in
`*reason`. -/
def ex_cb_l3_writes : tunnel_type_cb := fun _ _ _ => (1, 22)

/-- The GRE/MPLS frame `ex_gre_frame` with the inner TCP checksum replaced by the
two given bytes. -/
def ex_gre_frame_csum (c1 c2 : Nat) : sk_buff :=
  linear_skb_at ((ex_outer_ip VR_IP_PROTO_GRE ++ ex_gre_mpls ++ ex_ip_hdr_opts ++
    ex_syn_aligned).set 68 c1 |>.set 69 c2) 20 CHECKSUM_NONE

/-- A VXLAN frame: outer IP, UDP to port 4789 with checksum 0, VXLAN header,
inner Ethernet header (type IPv4), then `ex_ip_hdr ++ ex_syn_aligned`. -/
def ex_vxlan_frame : sk_buff :=
  linear_skb_at (ex_outer_ip VR_IP_PROTO_UDP ++ [0xc0, 0x00, 0x12, 0xb5, 0, 74, 0, 0] ++
    [8, 0, 0, 0, 0, 0, 5, 0] ++ [2, 0, 0, 0, 0, 1, 2, 0, 0, 0, 0, 2, 8, 0] ++
    ex_ip_hdr ++ ex_syn_aligned) 20 CHECKSUM_NONE

/-- A GRE header with the key-present flag and key 7, protocol MPLS, followed by
one MPLS label entry (label 16, bottom of stack, TTL 64). -/
def ex_gre_key_mpls : List Nat := [0x20, 0, 0x88, 0x47, 0, 0, 0, 7, 0, 1, 1, 64]

/-- A GRE/MPLS L3 tunnel frame whose GRE header carries a key, with `skb->data`
at the GRE header. -/
def ex_gre_key_frame : sk_buff :=
  linear_skb_at (ex_outer_ip VR_IP_PROTO_GRE ++ ex_gre_key_mpls ++ ex_ip_hdr ++ ex_syn_aligned)
    20 CHECKSUM_NONE

/-- A classifier that rejects every label and stores the label it was given in
`*reason` (an `unsigned short`). -/
def ex_cb_echo_label : tunnel_type_cb := fun label _ _ => (0, label % 65536)

/-- An MPLS-over-UDP frame: outer IP, UDP to port 51234 with the non-zero
checksum field `0x1234`, one MPLS label entry, then `ex_ip_hdr ++ ex_syn_aligned`. -/
def ex_udp_mpls_frame : sk_buff :=
  linear_skb_at (ex_outer_ip VR_IP_PROTO_UDP ++ [0xc0, 0x00, 0xc8, 0x22, 0, 56, 0x12, 0x34] ++
    [0, 1, 1, 64] ++ ex_ip_hdr ++ ex_syn_aligned) 20 CHECKSUM_NONE

/-- An inner IPv4 header of 20 bytes, 10.0.0.1 to 10.0.0.2, protocol ICMP. -/
def ex_ip_hdr_icmp : List Nat :=
  [0x45, 0, 0, 50, 0, 0, 0x40, 0, 0x40, 1, 0, 0, 10, 0, 0, 1, 10, 0, 0, 2]

/-- An ICMP destination-unreachable header (type 3, code 3, checksum `0xabcd`). -/
def ex_icmp_unreach : List Nat := [3, 3, 0xab, 0xcd, 0, 0, 0, 0]

/-- A quoted IPv4 header of 20 bytes, protocol UDP. -/
def ex_quoted_ip_udp : List Nat :=
  [0x45, 0, 0, 60, 0, 0, 0x40, 0, 0x40, 17, 0, 0, 10, 0, 0, 2, 10, 0, 0, 1]

/-- A GRE/MPLS L3 frame carrying an ICMP error whose quoted UDP datagram is cut
after two bytes: 30 bytes follow the inner IP header where the ICMP header, the
quoted IP header and the quoted UDP header need 36. -/
def ex_icmp_trunc_frame : sk_buff :=
  linear_skb_at (ex_outer_ip VR_IP_PROTO_GRE ++ ex_gre_mpls ++ ex_ip_hdr_icmp ++ ex_icmp_unreach ++
    ex_quoted_ip_udp ++ [0x30, 0x39]) 20 CHECKSUM_NONE

/-- A GRE/MPLS L3 frame carrying an ICMP error that quotes a whole TCP header: the
linear part, which has no room to spare, ends 8 bytes into the quoted TCP
header and the other 16 bytes of `ex_syn_aligned` lie in a page fragment; the
allocator has the given budget. -/
def ex_icmp_paged_frame (budget : Option Nat) : sk_buff :=
  { head_addr := 0, cloned := false,
    head := ex_outer_ip VR_IP_PROTO_GRE ++ ex_gre_mpls ++ ex_ip_hdr_icmp ++ ex_icmp_unreach ++
      ex_ip_hdr ++ ex_syn_aligned.take 8,
    data := 20, tail := 84, end_ := 84, len := 80, data_len := 16,
    frags := [{ page := ex_syn_aligned.drop 8, page_offset := 0, size := 16 }],
    frag_list := [], ip_summed := CHECKSUM_NONE, csum := 0, alloc_budget := budget }

/-- A GRE/MPLS frame whose linear part ends with the label (8 bytes from the
packet data) and whose inner IPv4 packet, a TCP SYN, lies in one page. -/
def ex_gre_paged_frame (budget : Option Nat) : sk_buff :=
  { head_addr := 0, cloned := false,
    head := ex_outer_ip VR_IP_PROTO_GRE ++ ex_gre_mpls,
    data := 20, tail := 28, end_ := 28, len := 52, data_len := 44,
    frags := [{ page := ex_ip_hdr ++ ex_syn_aligned, page_offset := 0, size := 44 }],
    frag_list := [], ip_summed := CHECKSUM_NONE, csum := 0, alloc_budget := budget }

/-- The local variables with which `lh_pull_inner_headers` enters the inner ICMP
case on `ex_icmp_trunc_frame`: inner IP header at offset 28, 36 bytes pulled. -/
def ex_icmp_trunc_state : pull_state :=
  { pull_init ex_params ex_icmp_trunc_frame (pkt_at ex_icmp_trunc_frame 20) with
    pull_len := 36, hdr_len := 4, hlen := 20, hoff := 28, ret := 1, iph := some 28,
    thdr_valid := true, l4_proto := VR_IP_PROTO_ICMP, vrouter_overlay_len := 40,
    pulls := [(12, true), (28, true), (36, true)],
    gated := [(12, true), (28, true), (36, true)], pulled := 36,
    loads := [⟨24, 4, 32, false⟩, ⟨28, 4, 32, false⟩, ⟨28, 1, 48, false⟩, ⟨37, 1, 48, false⟩,
      ⟨28, 1, 48, false⟩] }

/-- An inner IPv6 header, next header ICMPv6, and an ICMPv6 destination-unreachable
header (type 1). -/
def ex_ip6_icmp6_err : List Nat :=
  [0x60, 0, 0, 0, 0, 56, 58, 64] ++ List.replicate 15 0 ++ [1] ++ List.replicate 15 0 ++ [2] ++
  [1, 0, 0x12, 0x34, 0, 0, 0, 0]

/-- A quoted IPv6 header with the given next header, followed by 24 bytes of the
quoted transport header whose bytes are 0x11. -/
def ex_quoted_ip6 (nxt : Nat) : List Nat :=
  [0x60, 0, 0, 0, 0, 24, nxt, 64] ++ List.replicate 15 0 ++ [2] ++ List.replicate 15 0 ++ [1] ++
  List.replicate 24 0x11

/-- A GRE/MPLS L3 frame carrying an ICMPv6 error that quotes, in full, a packet
with the given next header. -/
def ex_icmp6_frame (nxt : Nat) : sk_buff :=
  linear_skb_at (ex_outer_ip VR_IP_PROTO_GRE ++ ex_gre_mpls ++ ex_ip6_icmp6_err ++ ex_quoted_ip6 nxt)
    20 CHECKSUM_NONE

/-- A TCP header of 20 bytes with SYN set whose data offset field is 0. -/
def ex_tcp_doff0 : List Nat :=
  [0x12, 0x34, 0x00, 0x50, 0, 0, 0, 1, 0, 0, 0, 0, 0x00, 0x02, 0x72, 0x10, 0, 0, 0, 0]

/-- An interface whose device has MTU 1500. -/
def ex_eth_if : vr_interface := { vif_os := some { mtu := 1500 } }

/-- Values of the constants of `lh_get_udp_src_port` used in the concrete runs:
packet types 1 (IPv4) and 2 (IPv6), dynamic port range 49152 to 65535, and
simple stand-ins for the hash functions. -/
def ex_port_params (uses_offset : Bool) : PortParams :=
  { VP_TYPE_IP := 1, VP_TYPE_IP6 := 2, VR_MUDP_PORT_RANGE_START := 49152,
    VR_MUDP_PORT_RANGE_END := 65535, VR_FLOW_HASH_SIZE := fun _ => 16, vr_hashrnd := 7,
    jhash := fun key _ seed => (key.sum + seed) * 2654435761,
    vr_hash := fun b _ seed => (b.sum + seed) * 2654435761,
    vr_hash_2words := fun a b seed => (a + b + seed) * 2654435761,
    NET_SKBUFF_DATA_USES_OFFSET := uses_offset }

/-- A buffer whose linear part holds an Ethernet header of 14 bytes and whose
IPv4 packet `ex_ip_hdr ++ ex_syn_aligned` lies in one page fragment. -/
def ex_paged_ip_skb : sk_buff :=
  { head_addr := 0, cloned := false,
    head := [2, 0, 0, 0, 0, 1, 2, 0, 0, 0, 0, 2, 8, 0] ++ List.replicate 50 0,
    data := 0, tail := 14, end_ := 64, len := 58, data_len := 44,
    frags := [{ page := ex_ip_hdr ++ ex_syn_aligned, page_offset := 0, size := 44 }],
    frag_list := [], ip_summed := CHECKSUM_NONE, csum := 0 }

/-- The IPv4 packet of `ex_paged_ip_skb` with the network header at offset 14 and
the given tail offset. -/
def ex_paged_ip_pkt (tail : Nat) : vr_packet :=
  { vp_head := 0, vp_data := 0, vp_tail := tail, vp_len := tail, vp_end := 64,
    vp_network_h := 14, vp_inner_network_h := 0, vp_type := 1, diag := false }

/-- Values of the fast-path constants used in the concrete runs, and stand-ins for
the two helpers on MPLS L3 frames: `vr_inner_pkt_parse` accepts the label entry
that follows the outer header and locates the inner IPv4 header after it;
`vr_ip_transport_parse` locates the transport header and reports its checksum
field for TCP and UDP and `PKT_RET_UNHANDLED` for another protocol. -/
def ex_fast_params : FastParams :=
  { PKT_RET_FAST_PATH := 1, PKT_RET_SLOW_PATH := 2, PKT_RET_ERROR := 3, PKT_RET_UNHANDLED := 4,
    PKT_ENCAP_VXLAN := 2,
    vr_inner_pkt_parse := fun _ _ _ pull_len _ _ _ =>
      { ret := 1, encap_type := 1, pkt_type := 1, pull_len := pull_len + 4 + 20,
        iph := some (pull_len + 4), ip6h := none },
    vr_ip_transport_parse := fun va iph _ _ pull_len =>
      let i := iph.getD 0
      let th := i + ip_hl va i * 4
      if ip_proto_of va i = VR_IP_PROTO_TCP then
        { ret := 1, th := th, hlen := ip_hl va i * 4, th_csum := rd16 va (th + 16),
          th_pull_len := th, pull_len := pull_len + (ip_hl va i * 4 - 20) + tcp_doff va th * 4 }
      else if ip_proto_of va i = VR_IP_PROTO_UDP then
        { ret := 1, th := th, hlen := ip_hl va i * 4, th_csum := rd16 va (th + 6),
          th_pull_len := th, pull_len := pull_len + (ip_hl va i * 4 - 20) + 8 }
      else
        { ret := 4, th := th, hlen := ip_hl va i * 4, th_csum := 0, th_pull_len := th,
          pull_len := pull_len + (ip_hl va i * 4 - 20) } }

/-- A buffer whose linear part holds the outer IP header and the tunnel header
`outer` (with `skb->data` at the tunnel header and room up to 160 bytes), and
whose page fragments are `pages`. -/
def paged_skb (outer_ip outer : List Nat) (pages : List (List Nat)) (ip_summed : Nat) : sk_buff :=
  { head_addr := 0, cloned := false,
    head := outer_ip ++ outer ++ List.replicate (160 - (outer_ip ++ outer).length) 0,
    data := outer_ip.length, tail := (outer_ip ++ outer).length, end_ := 160,
    len := outer.length + (pages.map List.length).sum,
    data_len := (pages.map List.length).sum,
    frags := pages.map fun pg => { page := pg, page_offset := 0, size := pg.length },
    frag_list := [], ip_summed := ip_summed, csum := 0 }

/-- The packet of `paged_skb`: data offset at the tunnel header. -/
def paged_pkt (skb : sk_buff) : vr_packet :=
  { vp_head := skb.head_addr, vp_data := skb.data, vp_tail := skb.tail,
    vp_len := skb.tail - skb.data, vp_end := skb.end_, vp_network_h := 0,
    vp_inner_network_h := 0, vp_type := 0, diag := false }

/-- An inner IPv4 header of 20 bytes, 10.0.0.1 to 10.0.0.2, with the given
protocol and total length. -/
def ex_inner_ip (proto len : Nat) : List Nat :=
  [0x45, 0, 0, len, 0, 0, 0x40, 0, 0x40, proto, 0, 0, 10, 0, 0, 1, 10, 0, 0, 2]

/-- An MPLS-over-UDP frame (port 51234) whose outer UDP checksum field `0x1234` is
wrong and whose inner UDP datagram carries the sentinel checksum `0xffff`: UDP
header in the linear part, the rest in one page. -/
def ex_fast_udp_diag : sk_buff :=
  paged_skb (ex_outer_ip VR_IP_PROTO_UDP) [0xc0, 0x00, 0xc8, 0x22, 0, 44, 0x12, 0x34]
    [[0, 1, 1, 64] ++ ex_inner_ip VR_IP_PROTO_UDP 32 ++ [0x30, 0x39, 0, 53, 0, 12, 0xff, 0xff] ++
      [1, 2, 3, 4]] CHECKSUM_NONE

/-- An MPLS-over-UDP frame (port 51234) with outer UDP checksum 0 whose inner TCP
SYN has the wrong checksum `0x0000` (the right one is `0xff8e`), received with
the given checksum status. -/
def ex_fast_udp_badtcp (ip_summed : Nat) : sk_buff :=
  paged_skb (ex_outer_ip VR_IP_PROTO_UDP) [0xc0, 0x00, 0xc8, 0x22, 0, 56, 0, 0]
    [[0, 1, 1, 64] ++ ex_ip_hdr ++ (ex_syn_aligned.set 16 0).set 17 0] ip_summed

/-- The same inner packet behind a GRE header, received with the given checksum
status. -/
def ex_fast_gre_badtcp (ip_summed : Nat) : sk_buff :=
  paged_skb (ex_outer_ip VR_IP_PROTO_GRE) [0, 0, 0x88, 0x47]
    [[0, 1, 1, 64] ++ ex_ip_hdr ++ (ex_syn_aligned.set 16 0).set 17 0] ip_summed

/-- A GRE frame whose header (protocol IPv4, not MPLS) starts the first of two
pages; nothing is in the linear part after the outer IP header. -/
def ex_fast_gre_two_pages : sk_buff :=
  paged_skb (ex_outer_ip VR_IP_PROTO_GRE) []
    [[0, 0, 0x08, 0x00] ++ ex_ip_hdr, ex_syn_aligned] CHECKSUM_NONE

/-- A GRE/MPLS frame whose inner IPv4 packet has protocol 47, and the same inner
packet behind an MPLS-over-UDP header. -/
def ex_fast_gre_other : sk_buff :=
  paged_skb (ex_outer_ip VR_IP_PROTO_GRE) [0, 0, 0x88, 0x47]
    [[0, 1, 1, 64] ++ ex_inner_ip 47 28 ++ [0, 0, 8, 0, 1, 2, 3, 4]] CHECKSUM_NONE

def ex_fast_udp_other : sk_buff :=
  paged_skb (ex_outer_ip VR_IP_PROTO_UDP) [0xc0, 0x00, 0xc8, 0x22, 0, 40, 0, 0]
    [[0, 1, 1, 64] ++ ex_inner_ip 47 28 ++ [0, 0, 8, 0, 1, 2, 3, 4]] CHECKSUM_NONE

/-! ## Theorems -/

/-! ### Bytes -/

theorem rd8_lt (m : Mem) (a : Nat) : rd8 m a < 256 := by
  unfold rd8; omega

theorem tcp_doff_le (m : Mem) (t : Nat) : tcp_doff m t * 4 ≤ 60 := by
  have h := rd8_lt m (t + 12)
  unfold tcp_doff; omega

theorem rd8_wr8_ne (m : Mem) (a b v : Nat) (h : a ≠ b) : rd8 (wr8 m a v) b = rd8 m b := by
  unfold rd8 wr8
  simp [List.getD_eq_getElem?_getD, List.getElem?_set, h]

theorem rd8_wr8_same (m : Mem) (a v : Nat) (h : a < m.length) :
    rd8 (wr8 m a v) a = v % 256 := by
  unfold rd8 wr8
  simp [List.getD_eq_getElem?_getD, List.getElem?_set, h]

theorem lt_length_of_rd8_ne_zero (m : Mem) (a : Nat) (h : rd8 m a ≠ 0) : a < m.length := by
  by_contra hc
  apply h
  unfold rd8
  simp [List.getD_eq_getElem?_getD, List.getElem?_eq_none (Nat.le_of_not_lt hc)]

/-! ### The option walk -/

/-- With enough fuel the loop of `lh_adjust_tcp_mss` returns: the buffer is left
as it is unless the walk reaches an MSS option, where the rewrite is applied. -/
theorem lh_adjust_tcp_mss_loop_eq (eth_if : vr_interface) (t : Nat) (skb : sk_buff)
    (ovl hlen : Nat) : ∀ (fuel off : Nat), tcp_doff skb.head t * 4 ≤ off + fuel →
    lh_adjust_tcp_mss_loop eth_if t skb ovl hlen (fuel + 1) off =
      match mss_option_reached skb.head t (fuel + 1) off with
      | none => some skb
      | some o => some (tcp_mss_rewrite eth_if t skb ovl hlen o) := by
  intro fuel
  induction fuel with
  | zero =>
    intro off h
    have h1 : ¬ off < tcp_doff skb.head t * 4 := by omega
    simp [lh_adjust_tcp_mss_loop, mss_option_reached, h1]
  | succ n ih =>
    intro off h
    rw [lh_adjust_tcp_mss_loop, mss_option_reached]
    by_cases h1 : off < tcp_doff skb.head t * 4
    · simp only [h1, if_true]
      by_cases h2 : rd8 skb.head (t + off) = TCPOPT_EOL
      · simp [h2]
      · simp only [h2, if_false]
        by_cases h3 : rd8 skb.head (t + off) = TCPOPT_NOP
        · simp only [h3, if_true]
          exact ih (off + 1) (by omega)
        · simp only [h3, if_false]
          by_cases h4 : rd8 skb.head (t + off) = TCPOPT_MSS
          · simp only [h4, if_true]
            by_cases h5 : off + TCPOLEN_MSS > tcp_doff skb.head t * 4
            · simp [h5]
            · simp only [h5, if_false]
              by_cases h6 : rd8 skb.head (t + off + 1) = TCPOLEN_MSS
              · simp [h6]
              · simp [h6]
          · simp only [h4, if_false]
            by_cases h5 : off + 1 = tcp_doff skb.head t * 4
            · simp [h5]
            · simp only [h5, if_false]
              by_cases h6 : rd8 skb.head (t + off + 1) = 0
              · simp only [h6, ne_eq, not_true_eq_false, if_false]
                exact ih _ (by omega)
              · simp only [h6, ne_eq, not_false_eq_true, if_true]
                exact ih _ (by omega)
    · simp [h1]

/-- The walk only reports offsets at or after the one it starts from, inside the
header, and the option there has kind MSS and length 4. -/
theorem mss_option_reached_spec (m : Mem) (t : Nat) : ∀ (fuel off o : Nat),
    mss_option_reached m t fuel off = some o →
      off ≤ o ∧ o + 4 ≤ tcp_doff m t * 4 ∧ rd8 m (t + o) = TCPOPT_MSS ∧
        rd8 m (t + o + 1) = TCPOLEN_MSS := by
  intro fuel
  induction fuel with
  | zero => intro off o h; simp [mss_option_reached] at h
  | succ n ih =>
    intro off o h
    rw [mss_option_reached] at h
    by_cases h1 : off < tcp_doff m t * 4
    · simp only [h1, if_true] at h
      by_cases h2 : rd8 m (t + off) = TCPOPT_EOL
      · simp [h2] at h
      · simp only [h2, if_false] at h
        by_cases h3 : rd8 m (t + off) = TCPOPT_NOP
        · simp only [h3, if_true] at h
          have := ih _ _ h; omega
        · simp only [h3, if_false] at h
          by_cases h4 : rd8 m (t + off) = TCPOPT_MSS
          · simp only [h4, if_true] at h
            by_cases h5 : off + TCPOLEN_MSS > tcp_doff m t * 4
            · simp [h5] at h
            · simp only [h5, if_false] at h
              by_cases h6 : rd8 m (t + off + 1) = TCPOLEN_MSS
              · simp only [h6, ne_eq, not_true_eq_false, if_false, Option.some.injEq] at h
                subst h
                simp only [TCPOLEN_MSS] at h5 ⊢
                exact ⟨Nat.le_refl _, by omega, h4, h6⟩
              · simp [h6] at h
          · simp only [h4, if_false] at h
            by_cases h5 : off + 1 = tcp_doff m t * 4
            · simp [h5] at h
            · simp only [h5, if_false] at h
              by_cases h6 : rd8 m (t + off + 1) = 0
              · simp only [h6, ne_eq, not_true_eq_false, if_false] at h
                have := ih _ _ h; omega
              · simp only [h6, ne_eq, not_false_eq_true, if_true] at h
                have := ih _ _ h; omega
    · simp [h1] at h

/-- The call returns for every header: 64 units of fuel suffice. -/
theorem lh_adjust_tcp_mss_eq (G : Globals) (router : vrouter) (eth_if : vr_interface)
    (t : Nat) (skb : sk_buff) (ovl hlen : Nat)
    (hr : G.router = some router) (he : router.vr_eth_if = some eth_if)
    (hs : tcp_syn skb.head t = true) :
    lh_adjust_tcp_mss G (some t) skb ovl hlen =
      match first_mss_option skb.head t with
      | none => some skb
      | some o => some (tcp_mss_rewrite eth_if t skb ovl hlen o) := by
  have hd := tcp_doff_le skb.head t
  unfold lh_adjust_tcp_mss first_mss_option
  simp only [hr, he, hs]
  exact lh_adjust_tcp_mss_loop_eq eth_if t skb ovl hlen 63 sizeof_tcphdr (by omega)


/-! ### The rewrite of the MSS option -/

theorem shl8_or (a b : Nat) (h : b < 256) : (a <<< 8) ||| b = a * 256 + b := by
  rw [Nat.shiftLeft_eq, Nat.mul_comm, ← Nat.mul_add_lt_is_or (i := 8) (by simpa using h)]

theorem and_ff00_shr8 (x : Nat) : ((x &&& 0xff00) >>> 8) % 256 = x / 256 % 256 := by
  apply Nat.eq_of_testBit_eq
  intro i
  have e1 : x / 256 % 256 = (x >>> 8) % 2 ^ 8 := by rw [Nat.shiftRight_eq_div_pow]; rfl
  have e2 : ((x &&& 0xff00) >>> 8) % 256 = ((x &&& 0xff00) >>> 8) % 2 ^ 8 := rfl
  rw [e1, e2, Nat.testBit_mod_two_pow, Nat.testBit_mod_two_pow, Nat.testBit_shiftRight,
    Nat.testBit_shiftRight, Nat.testBit_and]
  by_cases hi : i < 8
  · have : Nat.testBit 0xff00 (8 + i) = true := by
      interval_cases i <;> decide
    simp [hi, this]
  · simp [hi]

theorem and_ff (x : Nat) : (x &&& 0xff) = x % 256 :=
  Nat.and_pow_two_sub_one_eq_mod x 8

theorem pkt_mss_eq (m : Mem) (t off : Nat) :
    (rd8 m (t + off + 2) <<< 8) ||| rd8 m (t + off + 3) = mss_value m t off := by
  rw [shl8_or _ _ (rd8_lt _ _)]
  rfl

theorem rd8_wr8_le (m : Mem) (a v : Nat) : rd8 (wr8 m a v) a ≤ v % 256 := by
  by_cases h : a < m.length
  · rw [rd8_wr8_same m a v h]
  · have hn : (List.set m a (v % 256))[a]? = none :=
      List.getElem?_eq_none (by simpa using Nat.le_of_not_lt h)
    unfold rd8 wr8
    simp [List.getD_eq_getElem?_getD, hn]

theorem length_wr8 (m : Mem) (a v : Nat) : (wr8 m a v).length = m.length := by
  unfold wr8; simp

theorem rd8_wr16_ne (m : Mem) (a b v : Nat) (h1 : a ≠ b) (h2 : a + 1 ≠ b) :
    rd8 (wr16 m a v) b = rd8 m b := by
  unfold wr16
  rw [rd8_wr8_ne _ _ _ _ h2, rd8_wr8_ne _ _ _ _ h1]

theorem max_mss_of_lt (mtu ovl hlen : Nat) : max_mss_of mtu ovl hlen < 65536 := by
  unfold max_mss_of u16; omega

theorem max_mss_of_le (mtu ovl hlen : Nat) (h : ovl + hlen + 20 ≤ mtu) :
    max_mss_of mtu ovl hlen ≤ mtu - (ovl + hlen + 20) := by
  unfold max_mss_of u16 sizeof_tcphdr; omega

/-- The option bytes are not touched by the checksum patch, which writes bytes
16 and 17 of the header. -/
theorem mss_value_csum_replace (skb : sk_buff) (t off old new : Nat) (h : 20 ≤ off) :
    mss_value (inet_proto_csum_replace2 skb (t + 16) old new).head t off =
      mss_value skb.head t off := by
  unfold inet_proto_csum_replace2
  split
  · simp only [mss_value, rd16]
    rw [rd8_wr16_ne _ _ _ _ (by omega) (by omega), rd8_wr16_ne _ _ _ _ (by omega) (by omega)]
  · rfl

/-- After the rewrite the option holds at most `max_mss`. -/
theorem mss_value_rewrite_le (eth_if : vr_interface) (dev : net_device) (t : Nat)
    (skb : sk_buff) (ovl hlen off : Nat) (hd : eth_if.vif_os = some dev) (h : 20 ≤ off) :
    mss_value (tcp_mss_rewrite eth_if t skb ovl hlen off).head t off ≤
      max_mss_of dev.mtu ovl hlen := by
  have hm := max_mss_of_lt dev.mtu ovl hlen
  unfold tcp_mss_rewrite
  simp only [hd, pkt_mss_eq]
  split
  · rw [mss_value_csum_replace _ _ _ _ _ h]
    simp only [mss_value, rd16]
    have h1 : rd8 (wr8 (wr8 skb.head (t + off + 2) ((max_mss_of dev.mtu ovl hlen &&& 0xff00) >>> 8))
        (t + off + 3) (max_mss_of dev.mtu ovl hlen &&& 0xff)) (t + off + 3) ≤
          max_mss_of dev.mtu ovl hlen % 256 := by
      exact Nat.le_trans (rd8_wr8_le _ _ _) (by rw [and_ff]; omega)
    have h2 := rd8_wr8_le skb.head (t + off + 2) ((max_mss_of dev.mtu ovl hlen &&& 0xff00) >>> 8)
    rw [rd8_wr8_ne _ _ _ _ (by omega)]
    rw [and_ff00_shr8] at h2
    have e : t + off + 2 + 1 = t + off + 3 := by omega
    rw [e]
    omega
  · omega

/-- When the advertised MSS is larger than `max_mss` and the option lies in the
buffer, the option holds exactly `max_mss` after the rewrite. -/
theorem mss_value_rewrite_eq (eth_if : vr_interface) (dev : net_device) (t : Nat)
    (skb : sk_buff) (ovl hlen off : Nat) (hd : eth_if.vif_os = some dev) (h : 20 ≤ off)
    (hlen3 : t + off + 3 < skb.head.length)
    (hgt : max_mss_of dev.mtu ovl hlen < mss_value skb.head t off) :
    mss_value (tcp_mss_rewrite eth_if t skb ovl hlen off).head t off =
      max_mss_of dev.mtu ovl hlen := by
  have hm := max_mss_of_lt dev.mtu ovl hlen
  unfold tcp_mss_rewrite
  simp only [hd, pkt_mss_eq, gt_iff_lt, hgt, if_true]
  rw [mss_value_csum_replace _ _ _ _ _ h]
  simp only [mss_value, rd16]
  have e : t + off + 2 + 1 = t + off + 3 := by omega
  rw [e, rd8_wr8_same _ _ _ (by rw [length_wr8]; exact hlen3), rd8_wr8_ne _ _ _ _ (by omega),
    rd8_wr8_same _ _ _ (by omega), and_ff00_shr8, and_ff]
  omega


/-! ### Properties of `lh_adjust_tcp_mss` -/

/-- C1 (as stated, refuted): with MTU 68, overlay_len 58 and hlen 20 the `u16`
value `max_mss` wraps to 65506, the advertised MSS 1460 is left in place, and
1460 exceeds 68 - (58 + 20 + 20). -/
theorem mss_bound_fails_small_mtu :
    lh_adjust_tcp_mss (globals_with_mtu 68) (some 20) ex_inner_syn 58 20 = some ex_inner_syn ∧
      first_mss_option ex_inner_syn.head 20 = some 20 ∧
      mss_value ex_inner_syn.head 20 20 = 1460 ∧
      ¬ ((1460 : Int) ≤ (68 : Int) - (58 + 20 + 20)) := by
  refine ⟨by decide, by decide, by decide, by decide⟩

/-- C1 (amended): when the overhead `overlay_len + hlen + 20` does not exceed
the MTU, a SYN header on which the walk reaches an MSS option of length 4 holds,
after the call, an MSS of at most `MTU - (overlay_len + hlen + 20)`. -/
theorem mss_after_clamp_le (G : Globals) (router : vrouter) (eth_if : vr_interface)
    (dev : net_device) (t : Nat) (skb : sk_buff) (ovl hlen off : Nat)
    (hr : G.router = some router) (he : router.vr_eth_if = some eth_if)
    (hd : eth_if.vif_os = some dev) (hs : tcp_syn skb.head t = true)
    (hreach : first_mss_option skb.head t = some off)
    (hfit : ovl + hlen + 20 ≤ dev.mtu) :
    ∃ skb', lh_adjust_tcp_mss G (some t) skb ovl hlen = some skb' ∧
      mss_value skb'.head t off ≤ dev.mtu - (ovl + hlen + 20) := by
  have hoff := (mss_option_reached_spec _ _ _ _ _ hreach).1
  rw [lh_adjust_tcp_mss_eq G router eth_if t skb ovl hlen hr he hs, hreach]
  refine ⟨_, rfl, ?_⟩
  exact Nat.le_trans (mss_value_rewrite_le eth_if dev t skb ovl hlen off hd hoff)
    (max_mss_of_le _ _ _ hfit)

theorem mss_after_clamp_le_witness :
    58 + 20 + 20 ≤ 1500 ∧
    ∃ skb', lh_adjust_tcp_mss (globals_with_mtu 1500) (some 20) ex_inner_syn 58 20 = some skb' ∧
      mss_value skb'.head 20 20 ≤ 1500 - (58 + 20 + 20) :=
  ⟨by decide, mss_after_clamp_le (globals_with_mtu 1500) _ _ ⟨1500⟩ 20 ex_inner_syn 58 20 20
    rfl rfl rfl (by decide) (by decide) (by decide)⟩

/-- C2: when the MSS option reached by the walk advertises at most `max_mss`,
the call leaves the whole buffer, option value and checksum included, unchanged. -/
theorem lh_adjust_tcp_mss_noop_when_fits (G : Globals) (router : vrouter)
    (eth_if : vr_interface) (dev : net_device) (t : Nat) (skb : sk_buff) (ovl hlen off : Nat)
    (hr : G.router = some router) (he : router.vr_eth_if = some eth_if)
    (hd : eth_if.vif_os = some dev) (hs : tcp_syn skb.head t = true)
    (hreach : first_mss_option skb.head t = some off)
    (hfit : mss_value skb.head t off ≤ max_mss_of dev.mtu ovl hlen) :
    lh_adjust_tcp_mss G (some t) skb ovl hlen = some skb := by
  rw [lh_adjust_tcp_mss_eq G router eth_if t skb ovl hlen hr he hs, hreach]
  simp only [tcp_mss_rewrite, hd, pkt_mss_eq, gt_iff_lt, Nat.not_lt.mpr hfit, if_false]

theorem lh_adjust_tcp_mss_noop_when_fits_witness :
    mss_value ex_inner_syn.head 20 20 ≤ max_mss_of 9000 58 20 ∧
    lh_adjust_tcp_mss (globals_with_mtu 9000) (some 20) ex_inner_syn 58 20 = some ex_inner_syn :=
  ⟨by decide, lh_adjust_tcp_mss_noop_when_fits (globals_with_mtu 9000) _ _ ⟨9000⟩ 20
    ex_inner_syn 58 20 20 rfl rfl rfl (by decide) (by decide) (by decide)⟩

/-- C3 (as stated, refuted): with MTU 1500, overlay_len 58 and hlen 20 the SYN
advertising 1460 behind a 20-byte IP header is rewritten to 1402, not 1442. -/
theorem mss_1460_not_clamped_to_1442 :
    (lh_adjust_tcp_mss (globals_with_mtu 1500) (some 20) ex_inner_syn 58 20).map
        (fun s => mss_value s.head 20 20) = some 1402 ∧
      (lh_adjust_tcp_mss (globals_with_mtu 1500) (some 20) ex_inner_syn 58 20).map
        (fun s => mss_value s.head 20 20) ≠ some 1442 := by
  refine ⟨by decide, by decide⟩

/-- C3 (amended): for a SYN whose MSS option advertises 1460, with physical MTU
1500, overlay_len 58 and hlen 20, the call rewrites the MSS option to
1500 - (58 + 20 + 20) = 1402. -/
theorem mss_1460_clamped_to_1402 (G : Globals) (router : vrouter) (eth_if : vr_interface)
    (dev : net_device) (t : Nat) (skb : sk_buff) (off : Nat)
    (hr : G.router = some router) (he : router.vr_eth_if = some eth_if)
    (hd : eth_if.vif_os = some dev) (hmtu : dev.mtu = 1500)
    (hs : tcp_syn skb.head t = true)
    (hreach : first_mss_option skb.head t = some off)
    (hadv : mss_value skb.head t off = 1460) :
    ∃ skb', lh_adjust_tcp_mss G (some t) skb 58 20 = some skb' ∧
      mss_value skb'.head t off = 1402 := by
  have hoff := (mss_option_reached_spec _ _ _ _ _ hreach).1
  have hmax : max_mss_of dev.mtu 58 20 = 1402 := by rw [hmtu]; decide
  rw [lh_adjust_tcp_mss_eq G router eth_if t skb 58 20 hr he hs, hreach]
  refine ⟨_, rfl, ?_⟩
  have hb3 : rd8 skb.head (t + off + 3) ≠ 0 := by
    have h2 := rd8_lt skb.head (t + off + 2)
    have h3 := rd8_lt skb.head (t + off + 3)
    have e : t + off + 2 + 1 = t + off + 3 := by omega
    simp only [mss_value, rd16, e] at hadv
    omega
  rw [mss_value_rewrite_eq eth_if dev t skb 58 20 off hd hoff
    (lt_length_of_rd8_ne_zero _ _ hb3) (by rw [hmax, hadv]; decide), hmax]

theorem mss_1460_clamped_to_1402_witness :
    mss_value ex_inner_syn.head 20 20 = 1460 ∧
    ∃ skb', lh_adjust_tcp_mss (globals_with_mtu 1500) (some 20) ex_inner_syn 58 20 = some skb' ∧
      mss_value skb'.head 20 20 = 1402 :=
  ⟨by decide, mss_1460_clamped_to_1402 (globals_with_mtu 1500) _ _ ⟨1500⟩ 20 ex_inner_syn 20
    rfl rfl rfl rfl (by decide) (by decide) (by decide)⟩

/-- C4 (the code at the failing input): a SYN whose MSS option starts at the odd
offset 21 has a correct TCP checksum before the call and an incorrect one after
it, while the same clamp on the option at the even offset 20 keeps the checksum
correct. -/
theorem csum_patch_wrong_at_odd_offset :
    transport_csum_ok (ex_pseudo 28) ex_syn_odd = true ∧
    first_mss_option ex_syn_odd 0 = some 21 ∧
    (lh_adjust_tcp_mss (globals_with_mtu 1500) (some 0) (linear_skb ex_syn_odd CHECKSUM_NONE)
        58 20).map (fun s => (mss_value s.head 0 21, transport_csum_ok (ex_pseudo 28) s.head)) =
      some (1402, false) ∧
    transport_csum_ok (ex_pseudo 24) ex_syn_aligned = true ∧
    (lh_adjust_tcp_mss (globals_with_mtu 1500) (some 0) (linear_skb ex_syn_aligned CHECKSUM_NONE)
        58 20).map (fun s => (mss_value s.head 0 20, transport_csum_ok (ex_pseudo 24) s.head)) =
      some (1402, true) := by
  refine ⟨by decide, by decide, by decide, by decide, by decide⟩

/-- C5: the call changes nothing when the SYN flag is clear, or no router
exists, or the router has no physical interface, or that interface has no OS
device. -/
theorem lh_adjust_tcp_mss_noop_unconfigured (G : Globals) (t : Nat) (skb : sk_buff)
    (ovl hlen : Nat)
    (h : tcp_syn skb.head t = false ∨ G.router = none ∨
      (∃ r, G.router = some r ∧ r.vr_eth_if = none) ∨
      (∃ r e, G.router = some r ∧ r.vr_eth_if = some e ∧ e.vif_os = none)) :
    lh_adjust_tcp_mss G (some t) skb ovl hlen = some skb := by
  rcases h with h | h | ⟨r, hr, he⟩ | ⟨r, e, hr, he, hd⟩
  · unfold lh_adjust_tcp_mss
    cases hG : G.router <;> simp [h]
  · unfold lh_adjust_tcp_mss
    simp [h]
  · unfold lh_adjust_tcp_mss
    simp only [hr, he]
    split <;> rfl
  · by_cases hs : tcp_syn skb.head t = true
    · rw [lh_adjust_tcp_mss_eq G r e t skb ovl hlen hr he hs]
      cases first_mss_option skb.head t with
      | none => rfl
      | some o => simp [tcp_mss_rewrite, hd]
    · unfold lh_adjust_tcp_mss
      simp [hr, hs]

theorem lh_adjust_tcp_mss_noop_unconfigured_witness :
    lh_adjust_tcp_mss globals_no_device (some 20) ex_inner_syn 58 20 = some ex_inner_syn :=
  lh_adjust_tcp_mss_noop_unconfigured globals_no_device 20 ex_inner_syn 58 20
    (Or.inr (Or.inr (Or.inr ⟨_, _, rfl, rfl, rfl⟩)))


/-! ### The general path `lh_pull_inner_headers` -/

/-- The call of `lh_adjust_tcp_mss` returns for every argument. -/
theorem lh_adjust_tcp_mss_returns (G : Globals) (tcph : Option Nat) (skb : sk_buff)
    (ovl hlen : Nat) : ∃ skb1, lh_adjust_tcp_mss G tcph skb ovl hlen = some skb1 := by
  cases tcph with
  | none => exact ⟨skb, by simp [lh_adjust_tcp_mss]⟩
  | some t =>
    cases hr : G.router with
    | none => exact ⟨skb, by simp [lh_adjust_tcp_mss, hr]⟩
    | some router =>
      by_cases hs : tcp_syn skb.head t = true
      · cases he : router.vr_eth_if with
        | none => exact ⟨skb, by simp [lh_adjust_tcp_mss, hr, he, hs]⟩
        | some eth_if =>
          rw [lh_adjust_tcp_mss_eq G router eth_if t skb ovl hlen hr he hs]
          cases first_mss_option skb.head t with
          | none => exact ⟨_, rfl⟩
          | some o => exact ⟨_, rfl⟩
      · exact ⟨skb, by simp [lh_adjust_tcp_mss, hr, hs]⟩

/-- C6 (the code at the failing input): for a GRE/MPLS L3 frame whose inner IPv4
header has `ip_hl = 6` (24 bytes), `lh_pull_inner_headers` calls
`lh_adjust_tcp_mss` with `hlen = 20` and clamps the MSS to 1500 - (40 + 20 + 20)
= 1420, while `lh_pkt_from_vm_tcp_mss_adj` on the same inner packet passes
`hlen = 24` and clamps to 1416. -/
theorem pull_inner_headers_passes_fixed_hlen :
    (lh_pull_inner_headers ex_params (globals_with_mtu 1500) ex_gre_frame
        (pkt_at ex_gre_frame 20) VR_IP_PROTO_GRE (some ex_cb_l3)).exit = pull_exit.success ∧
    (lh_pull_inner_headers ex_params (globals_with_mtu 1500) ex_gre_frame
        (pkt_at ex_gre_frame 20) VR_IP_PROTO_GRE (some ex_cb_l3)).st.hlen = 24 ∧
    (lh_pull_inner_headers ex_params (globals_with_mtu 1500) ex_gre_frame
        (pkt_at ex_gre_frame 20) VR_IP_PROTO_GRE (some ex_cb_l3)).mss_args = some (40, 20) ∧
    mss_value (lh_pull_inner_headers ex_params (globals_with_mtu 1500) ex_gre_frame
        (pkt_at ex_gre_frame 20) VR_IP_PROTO_GRE (some ex_cb_l3)).skb.head 52 20 = 1420 ∧
    (lh_pkt_from_vm_tcp_mss_adj ex_params (globals_with_mtu 1500) ex_vm_frame
        (pkt_at ex_vm_frame 0) 40).mss_args = some (40, 24) ∧
    mss_value (lh_pkt_from_vm_tcp_mss_adj ex_params (globals_with_mtu 1500) ex_vm_frame
        (pkt_at ex_vm_frame 0) 40).skb.head 24 20 = 1416 := by
  refine ⟨by decide, by decide, by decide, by decide, by decide, by decide⟩


/-- The end of the checksum block falls through: the option walk of the MSS
clamp never runs out of fuel. -/
theorem csum_finish_next (G : Globals) (cond : Bool) (s : pull_state) (verify : Option Int)
    (outer_udp : Bool) :
    ∃ skb1, (csum_finish G cond s verify outer_udp).step = .next { s with skb := skb1 } ∧
      (csum_finish G cond s verify outer_udp).verify = verify ∧
      (csum_finish G cond s verify outer_udp).outer_udp = outer_udp := by
  unfold csum_finish
  cases cond with
  | false => exact ⟨s.skb, by simp⟩
  | true =>
    obtain ⟨skb1, h⟩ := lh_adjust_tcp_mss_returns G s.tcph s.skb s.vrouter_overlay_len sizeof_vr_ip
    exact ⟨skb1, by simp [h]⟩

/-- The checksum block: the recorded transport checksum is not changed, and a
verification that reports a mismatch leads to the label `cksum_err` unless the
recorded checksum is the diagnostic sentinel, in which case the packet is
flagged and control falls through. -/
theorem stage_csum_verdict (P : VrParams) (G : Globals) (s : pull_state) :
    (stage_csum P G s).step.state.th_csum = s.th_csum ∧
    ∀ v, (stage_csum P G s).verify = some v → v ≠ 0 →
      (s.th_csum = P.VR_DIAG_CSUM →
        ∃ s1, (stage_csum P G s).step = .next s1 ∧ s1.pkt.diag = true) ∧
      (s.th_csum ≠ P.VR_DIAG_CSUM → ∃ s1, (stage_csum P G s).step = .cksum_err s1) := by
  unfold stage_csum
  by_cases h0 : skb_csum_unnecessary s.skb = true
  · simp [h0, pull_step.state]
  · simp only [h0, Bool.false_eq_true, if_false]
    split
    · -- outer UDP datagram
      split
      · rename_i hv
        refine ⟨rfl, ?_⟩
        intro v hv1 hv2
        exact ⟨fun hd => absurd hd hv.2, fun _ => ⟨_, rfl⟩⟩
      · rename_i hv
        obtain ⟨skb1, h1, h2, _⟩ := csum_finish_next G _ _ _ _
        rw [h1, h2]
        refine ⟨rfl, ?_⟩
        intro v hv1 hv2
        simp only [Option.some.injEq] at hv1
        subst hv1
        have hd : s.th_csum = P.VR_DIAG_CSUM := by
          by_contra hc
          exact hv ⟨hv2, hc⟩
        refine ⟨fun _ => ⟨_, rfl, ?_⟩, fun hc => absurd hd hc⟩
        simp only [if_pos hv2, vr_pkt_set_diag]
    · split
      · simp [pull_step.state]
      · simp [pull_step.state]
      · rename_i iph _ _
        split
        · simp [pull_step.state]
        · split
          · split
            · rename_i hv
              refine ⟨rfl, ?_⟩
              intro v hv1 hv2
              exact ⟨fun hd => absurd hd hv.2, fun _ => ⟨_, rfl⟩⟩
            · rename_i hv
              obtain ⟨skb1, h1, h2, _⟩ := csum_finish_next G _ _ _ _
              rw [h1, h2]
              refine ⟨rfl, ?_⟩
              intro v hv1 hv2
              simp only [Option.some.injEq] at hv1
              subst hv1
              have hd : s.th_csum = P.VR_DIAG_CSUM := by
                by_contra hc
                exact hv ⟨hv2, hc⟩
              refine ⟨fun _ => ⟨_, rfl, ?_⟩, fun hc => absurd hd hc⟩
              simp only [if_pos hv2, vr_pkt_set_diag]
          · obtain ⟨skb1, h1, h2, _⟩ := csum_finish_next G _ _ _ _
            rw [h1, h2]
            simp [pull_step.state]


theorem pull_finish_verify (P : VrParams) (o : csum_out) :
    (pull_finish P o).verify = o.verify ∧ (pull_finish P o).mss_args = o.mss_args ∧
      (pull_finish P o).outer_udp = o.outer_udp ∧
      (pull_finish P o).st.th_csum = o.step.state.th_csum ∧
      (pull_finish P o).st.pulls = o.step.state.pulls ∧
      (pull_finish P o).st.gated = o.step.state.gated ∧
      (pull_finish P o).st.loads = o.step.state.loads := by
  unfold pull_finish
  cases o.step <;> simp [pull_step.state]

theorem pull_finish_next (P : VrParams) (o : csum_out) (s : pull_state)
    (h : o.step = .next s) :
    (pull_finish P o).exit = .success ∧ (pull_finish P o).ret = 1 ∧
      (pull_finish P o).pkt = s.pkt ∧ (pull_finish P o).reason = s.reason := by
  unfold pull_finish
  simp [h]

theorem pull_finish_cksum_err (P : VrParams) (o : csum_out) (s : pull_state)
    (h : o.step = .cksum_err s) :
    (pull_finish P o).exit = .cksum_err ∧ (pull_finish P o).ret = 0 ∧
      (pull_finish P o).reason = P.VP_DROP_CKSUM_ERR := by
  unfold pull_finish
  simp [h]

theorem pull_finish_exit (P : VrParams) (o : csum_out) :
    ((pull_finish P o).exit = .cksum_err ↔ ∃ s, o.step = .cksum_err s) ∧
    ((pull_finish P o).exit = .error ↔ ∃ s, o.step = .error s) ∧
    ((pull_finish P o).exit = .success ↔ ∃ s, o.step = .next s) := by
  unfold pull_finish
  cases o.step <;> simp

/-! ### What the header walk keeps -/

/-- What a successful `__pskb_pull_tail` leaves alone, and what it moves. -/
theorem pskb_pull_tail_some (skb skb1 : sk_buff) (d : Nat) (h : __pskb_pull_tail skb d = some skb1) :
    skb1.ip_summed = skb.ip_summed ∧ skb1.len = skb.len ∧ skb1.data = skb.data ∧
    skb1.data_len = skb.data_len - d ∧ skb1.past_tail = skb.past_tail ∧
    (skb.alloc_budget = none → skb1.alloc_budget = none) := by
  unfold __pskb_pull_tail at h
  dsimp only at h
  split at h
  · cases h
  · rename_i budget hb
    simp only [Option.some.injEq] at h
    subst h
    refine ⟨rfl, rfl, rfl, rfl, rfl, ?_⟩
    intro ha
    rw [ha] at hb
    split at hb
    · simp only [alloc_step, Option.some.injEq] at hb
      exact hb.symm
    · simp only [Option.some.injEq] at hb
      exact hb.symm

/-- With an allocator that does not fail, `__pskb_pull_tail` succeeds. -/
theorem pskb_pull_tail_of_budget (skb : sk_buff) (d : Nat) (ha : skb.alloc_budget = none) :
    ∃ skb1, __pskb_pull_tail skb d = some skb1 := by
  unfold __pskb_pull_tail
  dsimp only
  rw [ha]
  split
  · rename_i hb
    split at hb
    · simp [alloc_step] at hb
    · cases hb
  · exact ⟨_, rfl⟩

theorem pskb_may_pull_some (skb skb1 : sk_buff) (n : Nat) (h : pskb_may_pull skb n = some skb1) :
    skb1.ip_summed = skb.ip_summed ∧ skb1.len = skb.len ∧ skb1.data = skb.data := by
  unfold pskb_may_pull at h
  split at h
  · simp only [Option.some.injEq] at h; subst h; exact ⟨rfl, rfl, rfl⟩
  · split at h
    · simp at h
    · obtain ⟨h1, h2, h3, _⟩ := pskb_pull_tail_some _ _ _ h
      exact ⟨h1, h2, h3⟩

/-- A pull leaves an allocator that does not fail and the memory past the tail
as they are. -/
theorem pskb_may_pull_budget (skb skb1 : sk_buff) (n : Nat) (h : pskb_may_pull skb n = some skb1) :
    (skb.alloc_budget = none → skb1.alloc_budget = none) ∧ skb1.past_tail = skb.past_tail := by
  unfold pskb_may_pull at h
  split at h
  · simp only [Option.some.injEq] at h; subst h; exact ⟨fun h => h, rfl⟩
  · split at h
    · simp at h
    · obtain ⟨_, _, _, _, h5, h6⟩ := pskb_pull_tail_some _ _ _ h
      exact ⟨h6, h5⟩

/-- With an allocator that does not fail, a pull of no more than `skb->len` bytes
succeeds. -/
theorem pskb_may_pull_of_le (skb : sk_buff) (n : Nat) (h : n ≤ skb.len)
    (ha : skb.alloc_budget = none) : ∃ skb1, pskb_may_pull skb n = some skb1 := by
  unfold pskb_may_pull
  split
  · exact ⟨_, rfl⟩
  · rw [if_neg (by omega)]
    exact pskb_pull_tail_of_budget skb _ ha

/-- A pull fails because the frame is too short or because an allocation fails. -/
theorem pskb_may_pull_none (skb : sk_buff) (n : Nat) (h : pskb_may_pull skb n = none) :
    skb.len < n ∨ skb.alloc_budget ≠ none := by
  by_contra hc
  simp only [not_or, not_lt, ne_eq, not_not] at hc
  obtain ⟨skb1, h1⟩ := pskb_may_pull_of_le skb n hc.1 hc.2
  rw [h] at h1
  cases h1

theorem keeps_next (pl : List (Nat × Bool)) (rs ips : Nat) (s : pull_state)
    (hr : s.reason = rs) (hi : s.skb.ip_summed = ips) (hp : s.gated = pl) :
    keeps pl rs ips (.next s) :=
  ⟨hr, hi, fun t h => (by cases h), [], (by simpa [pull_step.state] using hp),
    Or.inr (fun p hp => (by cases hp))⟩

theorem keeps_error (pl : List (Nat × Bool)) (rs ips : Nat) (s : pull_state)
    (hr : s.reason = rs) (hi : s.skb.ip_summed = ips) (hp : ∃ l, s.gated = pl ++ l) :
    keeps pl rs ips (.error s) := by
  obtain ⟨l, hl⟩ := hp
  exact ⟨hr, hi, fun t h => (by cases h), l, hl, Or.inl ⟨s, rfl⟩⟩

theorem keeps_weaken (pl l0 : List (Nat × Bool)) (rs ips : Nat) (x : pull_step)
    (h0 : all_ok l0) (h : keeps (pl ++ l0) rs ips x) : keeps pl rs ips x := by
  obtain ⟨hr, hi, hc, l, hl, hok⟩ := h
  refine ⟨hr, hi, hc, l0 ++ l, by rw [hl, List.append_assoc], ?_⟩
  rcases hok with he | ha
  · exact Or.inl he
  · right
    intro p hp
    rcases List.mem_append.mp hp with h1 | h1
    · exact h0 p h1
    · exact ha p h1

theorem all_ok_single (n : Nat) : all_ok [(n, true)] := by
  intro p hp
  simp only [List.mem_singleton] at hp
  subst hp
  rfl

/-- A gating pull keeps the invariant when the code that follows it does. -/
theorem keeps_pull_or_error (pl : List (Nat × Bool)) (rs ips : Nat) (s : pull_state)
    (k : pull_state → pull_step)
    (hr : s.reason = rs) (hi : s.skb.ip_summed = ips) (hp : s.gated = pl)
    (hk : ∀ s1 e, e.2 = true → s1.reason = rs → s1.skb.ip_summed = ips →
      s1.gated = pl ++ [e] → keeps (pl ++ [e]) rs ips (k s1)) :
    keeps pl rs ips (pull_or_error s k) := by
  unfold pull_or_error
  cases h : pskb_may_pull s.skb (u32 s.pull_len) with
  | none =>
    exact keeps_error pl rs ips _ hr hi ⟨[(u32 s.pull_len, false)], by simp [hp]⟩
  | some skb1 =>
    have h1 := (pskb_may_pull_some _ _ _ h).1
    exact keeps_weaken pl _ rs ips _ (all_ok_single _)
      (hk _ (u32 s.pull_len, true) rfl hr (by simpa [hi] using h1) (by simp [hp]))

/-- Sequencing keeps the invariant. -/
theorem keeps_bind (pl : List (Nat × Bool)) (rs ips : Nat) (x : pull_step)
    (f : pull_state → pull_step) (hx : keeps pl rs ips x)
    (hf : ∀ s, s.reason = rs → s.skb.ip_summed = ips → keeps s.gated rs ips (f s)) :
    keeps pl rs ips (x.bind f) := by
  cases x with
  | next s =>
    obtain ⟨hr, hi, _, l, hl, hok⟩ := hx
    simp only [pull_step.bind]
    simp only [pull_step.state] at hr hi hl
    have hl2 : all_ok l := by
      rcases hok with ⟨t, ht⟩ | ha
      · cases ht
      · exact ha
    have := hf s hr hi
    rw [hl] at this
    exact keeps_weaken pl l rs ips _ hl2 this
  | error s => exact hx
  | cksum_err s => exact hx
  | fault s => exact hx
  | out_of_fuel s => exact hx


theorem stage_outer_keeps (P : VrParams) (ip_proto : Nat) (pl : List (Nat × Bool))
    (rs ips : Nat) (s : pull_state)
    (hr : s.reason = rs) (hi : s.skb.ip_summed = ips) (hp : s.gated = pl) :
    keeps pl rs ips (stage_outer P ip_proto s) := by
  unfold stage_outer
  split
  · refine keeps_pull_or_error pl rs ips _ _ hr hi hp ?_
    intro s1 e _ hr1 hi1 hp1
    dsimp only
    split
    · split
      · refine keeps_pull_or_error _ rs ips _ _ hr1 hi1 hp1 ?_
        intro s2 e2 _ hr2 hi2 hp2
        exact keeps_next _ _ _ _ hr2 hi2 hp2
      · exact keeps_next _ _ _ _ hr1 hi1 hp1
    · exact keeps_next _ _ _ _ hr1 hi1 hp1
  · exact keeps_error _ _ _ _ hr hi ⟨[], by simp [hp]⟩

theorem vlan_loop_keeps : ∀ (fuel : Nat) (pl : List (Nat × Bool)) (rs ips : Nat)
    (s : pull_state), s.reason = rs → s.skb.ip_summed = ips → s.gated = pl →
    keeps pl rs ips (vlan_loop fuel s) := by
  intro fuel
  induction fuel with
  | zero =>
    intro pl rs ips s hr hi hp
    exact ⟨hr, hi, fun t h => (by cases h), [], (by simp [vlan_loop, pull_step.state, hp]),
      Or.inr (fun p hp => (by cases hp))⟩
  | succ n ih =>
    intro pl rs ips s hr hi hp
    rw [vlan_loop]
    split
    · refine keeps_pull_or_error pl rs ips _ _ hr hi hp ?_
      intro s1 e _ hr1 hi1 hp1
      exact ih _ rs ips _ hr1 hi1 hp1
    · exact keeps_next _ _ _ _ hr hi hp

theorem stage_l3_keeps (pl : List (Nat × Bool)) (rs ips : Nat) (s : pull_state)
    (hr : s.reason = rs) (hi : s.skb.ip_summed = ips) (hp : s.gated = pl) :
    keeps pl rs ips (stage_l3 s) := by
  unfold stage_l3
  split
  · refine keeps_pull_or_error pl rs ips _ _ hr hi hp ?_
    intro s1 e _ hr1 hi1 hp1
    exact keeps_next _ _ _ _ hr1 hi1 hp1
  · split
    · refine keeps_pull_or_error pl rs ips _ _ hr hi hp ?_
      intro s1 e _ hr1 hi1 hp1
      exact keeps_next _ _ _ _ hr1 hi1 hp1
    · split
      · refine keeps_pull_or_error pl rs ips _ _ hr hi hp ?_
        intro s1 e _ hr1 hi1 hp1
        exact keeps_next _ _ _ _ hr1 hi1 hp1
      · exact keeps_next _ _ _ _ hr hi hp

theorem stage_eth_keeps (pl : List (Nat × Bool)) (rs ips : Nat) (s : pull_state)
    (hr : s.reason = rs) (hi : s.skb.ip_summed = ips) (hp : s.gated = pl) :
    keeps pl rs ips (stage_eth s) := by
  unfold stage_eth
  split
  · exact keeps_next _ _ _ _ hr hi hp
  · apply keeps_bind
    · exact vlan_loop_keeps _ pl rs ips _ hr hi hp
    · intro t hr1 hi1
      exact stage_l3_keeps _ rs ips t hr1 hi1 rfl


theorem keeps_next_ext (pl l : List (Nat × Bool)) (rs ips : Nat) (s : pull_state)
    (hr : s.reason = rs) (hi : s.skb.ip_summed = ips) (hp : s.gated = pl ++ l)
    (hl : all_ok l) : keeps pl rs ips (.next s) :=
  ⟨hr, hi, fun t h => (by cases h), l, hp, Or.inr hl⟩

theorem keeps_fault (pl : List (Nat × Bool)) (rs ips : Nat) (s : pull_state)
    (hr : s.reason = rs) (hi : s.skb.ip_summed = ips) (hp : s.gated = pl) :
    keeps pl rs ips (.fault s) :=
  ⟨hr, hi, fun t h => (by cases h), [], (by simpa [pull_step.state] using hp),
    Or.inr (fun p hp => (by cases hp))⟩

theorem l4_prologue_fields (P : VrParams) (s : pull_state) :
    (l4_prologue P s).reason = s.reason ∧ (l4_prologue P s).skb = s.skb ∧
      (l4_prologue P s).gated = s.gated ∧ (l4_prologue P s).hoff = s.hoff ∧
      (l4_prologue P s).pkt = s.pkt := by
  unfold l4_prologue
  cases s.ip6h with
  | some ip6h =>
    dsimp only
    repeat' split
    all_goals exact ⟨rfl, rfl, rfl, rfl, rfl⟩
  | none =>
    cases s.iph with
    | none =>
      dsimp only
      repeat' split
      all_goals exact ⟨rfl, rfl, rfl, rfl, rfl⟩
    | some iph =>
      dsimp only
      by_cases hv : P.vr_ip_transport_header_valid s.skb.head iph = true
      · simp only [hv, if_true]
        repeat' split
        all_goals exact ⟨rfl, rfl, rfl, rfl, rfl⟩
      · simp [hv]

theorem stage_tcp_keeps (pl : List (Nat × Bool)) (rs ips : Nat) (s : pull_state)
    (hr : s.reason = rs) (hi : s.skb.ip_summed = ips) (hp : s.gated = pl) :
    keeps pl rs ips (stage_tcp s) := by
  unfold stage_tcp
  dsimp only
  split
  · refine keeps_pull_or_error pl rs ips _ _ hr hi hp ?_
    intro s1 e _ hr1 hi1 hp1
    exact keeps_next _ _ _ _ hr1 hi1 hp1
  · exact keeps_next _ _ _ _ hr hi hp


theorem icmp_ports_pull_len_fields (s : pull_state) :
    (icmp_ports_pull_len s).reason = s.reason ∧ (icmp_ports_pull_len s).skb = s.skb ∧
      (icmp_ports_pull_len s).gated = s.gated :=
  ⟨rfl, rfl, rfl⟩

/-- The pull that is not followed by `goto error` is no gating pull: whether it
succeeds or fails, `*reason`, `skb->ip_summed` and the log of gating pulls are
as before. -/
theorem icmp_quoted_csum_fields (proto : Nat) (s : pull_state) :
    (icmp_quoted_csum proto s).reason = s.reason ∧
    (icmp_quoted_csum proto s).skb.ip_summed = s.skb.ip_summed ∧
    (icmp_quoted_csum proto s).gated = s.gated := by
  unfold icmp_quoted_csum
  split
  · cases h : pskb_may_pull s.skb (u32 s.pull_len) with
    | none => exact ⟨rfl, rfl, rfl⟩
    | some skb1 =>
      have hi := (pskb_may_pull_some _ _ _ h).1
      dsimp only
      split
      · exact ⟨rfl, hi, rfl⟩
      · split
        · exact ⟨rfl, hi, rfl⟩
        · split
          · exact ⟨rfl, hi, rfl⟩
          · exact ⟨rfl, hi, rfl⟩
  · exact ⟨rfl, rfl, rfl⟩

theorem stage_icmp_keeps (P : VrParams) (pl : List (Nat × Bool)) (rs ips : Nat)
    (s : pull_state) (hr : s.reason = rs) (hi : s.skb.ip_summed = ips) (hp : s.gated = pl) :
    keeps pl rs ips (stage_icmp P s) := by
  unfold stage_icmp
  dsimp only
  split
  · refine keeps_pull_or_error pl rs ips _ _ hr hi hp ?_
    intro s2 e2 he2 hr2 hi2 hp2
    refine keeps_pull_or_error _ rs ips _ _ hr2 hi2 hp2 ?_
    intro s3 e3 he3 hr3 hi3 hp3
    refine keeps_pull_or_error _ rs ips _ _ hr3 hi3 hp3 ?_
    intro s4 e4 he4 hr4 hi4 hp4
    obtain ⟨h1, h2, h3⟩ := icmp_quoted_csum_fields
      (ip_proto_of s2.skb.head (s2.hoff + s2.hlen + sizeof_icmphdr))
      { s4 with pull_len := s4.pull_len - (sizeof_icmphdr : Int) +
        (icmp_pl_size (ip_proto_of s2.skb.head (s2.hoff + s2.hlen + sizeof_icmphdr)) : Int) }
    refine keeps_next _ _ _ _ ?_ ?_ ?_
    · exact h1.trans hr4
    · exact h2.trans hi4
    · exact h3.trans hp4
  · exact keeps_next _ _ _ _ hr hi hp


theorem icmp6_quoted_csum_keeps (proto : Nat) (pl : List (Nat × Bool)) (rs ips : Nat)
    (s : pull_state) (hr : s.reason = rs) (hi : s.skb.ip_summed = ips) (hp : s.gated = pl) :
    keeps pl rs ips (icmp6_quoted_csum proto s) := by
  unfold icmp6_quoted_csum
  split
  · cases h : pskb_may_pull s.skb (u32 s.pull_len) with
    | none => exact keeps_next _ _ _ _ hr hi hp
    | some skb1 =>
      have hi1 : skb1.ip_summed = ips := ((pskb_may_pull_some _ _ _ h).1).trans hi
      dsimp only
      split
      · split
        · exact keeps_fault _ _ _ _ hr hi1 hp
        · exact keeps_next _ _ _ _ hr hi1 hp
      · split
        · split
          · exact keeps_fault _ _ _ _ hr hi1 hp
          · exact keeps_next _ _ _ _ hr hi1 hp
        · split
          · exact keeps_fault _ _ _ _ hr hi1 hp
          · exact keeps_next _ _ _ _ hr hi1 hp
  · exact keeps_next _ _ _ _ hr hi hp

theorem stage_icmp6_keeps (P : VrParams) (pl : List (Nat × Bool)) (rs ips : Nat)
    (s : pull_state) (hr : s.reason = rs) (hi : s.skb.ip_summed = ips) (hp : s.gated = pl) :
    keeps pl rs ips (stage_icmp6 P s) := by
  unfold stage_icmp6
  dsimp only
  split
  · refine keeps_pull_or_error pl rs ips _ _ hr hi hp ?_
    intro s1 e _ hr1 hi1 hp1
    exact keeps_next _ _ _ _ hr1 hi1 hp1
  · split
    · refine keeps_pull_or_error pl rs ips _ _ hr hi hp ?_
      intro s1 e _ hr1 hi1 hp1
      exact keeps_next _ _ _ _ hr1 hi1 hp1
    · split
      · refine keeps_pull_or_error pl rs ips _ _ hr hi hp ?_
        intro s2 e2 _ hr2 hi2 hp2
        refine keeps_pull_or_error _ rs ips _ _ hr2 hi2 hp2 ?_
        intro s4 e4 _ hr4 hi4 hp4
        apply keeps_bind
        · exact icmp6_quoted_csum_keeps _ _ rs ips _ hr4 hi4 hp4
        · intro t hrt hit
          exact keeps_next _ _ _ _ hrt hit rfl
      · exact keeps_next _ _ _ _ hr hi hp

theorem stage_l4_keeps (P : VrParams) (pl : List (Nat × Bool)) (rs ips : Nat)
    (s : pull_state) (hr : s.reason = rs) (hi : s.skb.ip_summed = ips) (hp : s.gated = pl) :
    keeps pl rs ips (stage_l4 P s) := by
  obtain ⟨h1, h2, h3, _, _⟩ := l4_prologue_fields P s
  have hr0 : (l4_prologue P s).reason = rs := h1.trans hr
  have hi0 : (l4_prologue P s).skb.ip_summed = ips := by rw [h2]; exact hi
  have hp0 : (l4_prologue P s).gated = pl := h3.trans hp
  unfold stage_l4
  dsimp only
  split
  · refine keeps_pull_or_error pl rs ips _ _ hr0 hi0 hp0 ?_
    intro s1 e _ hr1 hi1 hp1
    dsimp only
    split
    · exact stage_tcp_keeps _ rs ips _ hr1 hi1 hp1
    · split
      · exact stage_icmp_keeps P _ rs ips _ hr1 hi1 hp1
      · split
        · exact keeps_next _ _ _ _ hr1 hi1 hp1
        · split
          · exact stage_icmp6_keeps P _ rs ips _ hr1 hi1 hp1
          · exact keeps_next _ _ _ _ hr1 hi1 hp1
  · exact keeps_next _ _ _ _ hr0 hi0 hp0

/-- The label stage either leaves through `error` without having pulled (the
classifier is missing, rejects the label or returns an unknown kind), or it
keeps the invariant relative to the drop reason left by the classifier, which
returned a positive value, or relative to the reason it started from. -/
theorem stage_label_cases (P : VrParams) (cb : Option tunnel_type_cb) (s : pull_state) :
    (∃ t, stage_label P cb s = .error t ∧ t.gated = s.gated ∧
      t.skb.ip_summed = s.skb.ip_summed) ∨
    (∃ rs1, (rs1 = s.reason ∨ ∃ f l c, cb = some f ∧ 0 < (f l c s.reason).1 ∧
        rs1 = (f l c s.reason).2) ∧
      keeps s.gated rs1 s.skb.ip_summed (stage_label P cb s)) := by
  unfold stage_label
  by_cases hm : s.mpls_pkt = true
  · simp only [hm, if_true]
    cases cb with
    | none => exact Or.inl ⟨_, rfl, rfl, rfl⟩
    | some f =>
      dsimp only
      split
      · exact Or.inl ⟨_, rfl, rfl, rfl⟩
      · rename_i hpos
        have hpos1 := Int.not_le.mp hpos
        split
        · refine Or.inr ⟨_, Or.inr ⟨f, _, _, rfl, hpos1, rfl⟩, ?_⟩
          refine keeps_pull_or_error _ _ _ _ _ rfl rfl rfl ?_
          intro s3 e _ hr3 hi3 hp3
          dsimp only
          split
          · exact keeps_next _ _ _ _ hr3 hi3 hp3
          · exact keeps_next _ _ _ _ hr3 hi3 hp3
        · split
          · refine Or.inr ⟨_, Or.inr ⟨f, _, _, rfl, hpos1, rfl⟩, ?_⟩
            refine keeps_pull_or_error _ _ _ _ _ rfl rfl rfl ?_
            intro s3 e _ hr3 hi3 hp3
            exact keeps_next _ _ _ _ hr3 hi3 hp3
          · split
            · refine Or.inr ⟨_, Or.inr ⟨f, _, _, rfl, hpos1, rfl⟩, ?_⟩
              refine keeps_pull_or_error _ _ _ _ _ rfl rfl rfl ?_
              intro s3 e _ hr3 hi3 hp3
              exact keeps_next _ _ _ _ hr3 hi3 hp3
            · exact Or.inl ⟨_, rfl, rfl, rfl⟩
  · simp only [hm, Bool.false_eq_true, if_false]
    exact Or.inr ⟨_, Or.inl rfl, keeps_next _ _ _ _ rfl rfl rfl⟩


theorem all_ok_append (l1 l2 : List (Nat × Bool)) (h1 : all_ok l1) (h2 : all_ok l2) :
    all_ok (l1 ++ l2) := by
  intro p hp
  rcases List.mem_append.mp hp with h | h
  · exact h1 p h
  · exact h2 p h

theorem keeps_walk_ok0 (pl : List (Nat × Bool)) (rs ips : Nat) (x : pull_step)
    (h : keeps pl rs ips x) : walk_ok0 ips x :=
  ⟨h.2.1, h.2.2.1⟩

theorem keeps_walk_ok (pl : List (Nat × Bool)) (rs ips : Nat) (x : pull_step)
    (h : keeps pl rs ips x) (hpl : all_ok pl) : walk_ok rs ips x := by
  obtain ⟨hr, hi, hc, l, hl, hok⟩ := h
  refine ⟨⟨hi, hc⟩, ?_, ?_⟩
  · intro t ht
    subst ht
    exact hr
  · rintro ⟨p, hp, hf⟩
    rcases hok with he | ha
    · exact ⟨he, hr⟩
    · exfalso
      rw [hl] at hp
      have := all_ok_append pl l hpl ha p hp
      rw [hf] at this
      cases this

theorem walk_ok0_bind (ips : Nat) (x : pull_step) (f : pull_state → pull_step)
    (hx : walk_ok0 ips x) (hf : ∀ s, s.skb.ip_summed = ips → walk_ok0 ips (f s)) :
    walk_ok0 ips (x.bind f) := by
  cases x with
  | next s => exact hf s hx.1
  | error s => exact hx
  | cksum_err s => exact hx
  | fault s => exact hx
  | out_of_fuel s => exact hx

theorem walk_ok_bind (rs ips : Nat) (x : pull_step) (f : pull_state → pull_step)
    (hx : walk_ok rs ips x)
    (hf : ∀ s, s.reason = rs → s.skb.ip_summed = ips → all_ok s.gated → walk_ok rs ips (f s)) :
    walk_ok rs ips (x.bind f) := by
  cases x with
  | next s =>
    obtain ⟨⟨hi, _⟩, hr, hp⟩ := hx
    refine hf s (hr s rfl) hi ?_
    intro p hp1
    by_contra hc
    have hfalse : p.2 = false := by
      cases h : p.2 with
      | true => exact absurd h hc
      | false => rfl
    obtain ⟨⟨t, ht⟩, _⟩ := hp ⟨p, hp1, hfalse⟩
    cases ht
  | error s => exact hx
  | cksum_err s => exact hx
  | fault s => exact hx
  | out_of_fuel s => exact hx

theorem stage_label_walk_ok0 (P : VrParams) (cb : Option tunnel_type_cb) (s : pull_state) :
    walk_ok0 s.skb.ip_summed (stage_label P cb s) := by
  rcases stage_label_cases P cb s with ⟨t, ht, _, hi⟩ | ⟨rs1, _, hk⟩
  · rw [ht]
    exact ⟨hi, fun u h => (by cases h)⟩
  · exact keeps_walk_ok0 _ _ _ _ hk

theorem stage_label_walk_ok (P : VrParams) (cb : Option tunnel_type_cb)
    (hcb : ∀ f, cb = some f → ∀ l c r, 0 < (f l c r).1 → (f l c r).2 = r)
    (s : pull_state) (hs : all_ok s.gated) :
    walk_ok s.reason s.skb.ip_summed (stage_label P cb s) := by
  rcases stage_label_cases P cb s with ⟨t, ht, hp, hi⟩ | ⟨rs1, hrs, hk⟩
  · rw [ht]
    refine ⟨⟨hi, fun u h => (by cases h)⟩, fun u h => (by cases h), ?_⟩
    rintro ⟨p, hp1, hf⟩
    exfalso
    simp only [pull_step.state, hp] at hp1
    have := hs p hp1
    rw [hf] at this
    cases this
  · have : rs1 = s.reason := by
      rcases hrs with h | ⟨f, l, c, hf, hpos, h⟩
      · exact h
      · rw [h]; exact hcb f hf l c s.reason hpos
    rw [this] at hk
    exact keeps_walk_ok _ _ _ _ hk hs


theorem pull_outer_headers_walk_ok0 (P : VrParams) (skb : sk_buff) (pkt : vr_packet)
    (ip_proto : Nat) (cb : Option tunnel_type_cb) :
    walk_ok0 skb.ip_summed (pull_outer_headers P skb pkt ip_proto cb) := by
  unfold pull_outer_headers
  refine walk_ok0_bind _ _ _ (walk_ok0_bind _ _ _ (walk_ok0_bind _ _ _ ?_ ?_) ?_) ?_
  · exact keeps_walk_ok0 _ _ _ _ (stage_outer_keeps P ip_proto [] _ _ _ rfl rfl rfl)
  · intro s hi
    rw [← hi]
    exact stage_label_walk_ok0 P cb s
  · intro s hi
    exact keeps_walk_ok0 _ _ _ _ (stage_eth_keeps _ _ _ s rfl hi rfl)
  · intro s hi
    exact ⟨hi, fun t h => (by cases h)⟩

/-- With a classifier that leaves `*reason` alone when it returns a positive
value, the walk up to the inner network header logs a failed pull only on the
way to `error`, with `*reason` still `VP_DROP_PULL`. -/
theorem pull_outer_headers_walk_ok (P : VrParams) (skb : sk_buff) (pkt : vr_packet)
    (ip_proto : Nat) (cb : Option tunnel_type_cb)
    (hcb : ∀ f, cb = some f → ∀ l c r, 0 < (f l c r).1 → (f l c r).2 = r) :
    walk_ok P.VP_DROP_PULL skb.ip_summed (pull_outer_headers P skb pkt ip_proto cb) := by
  unfold pull_outer_headers
  refine walk_ok_bind _ _ _ _ (walk_ok_bind _ _ _ _ (walk_ok_bind _ _ _ _ ?_ ?_) ?_) ?_
  · exact keeps_walk_ok _ _ _ _ (stage_outer_keeps P ip_proto [] _ _ _ rfl rfl rfl)
      (fun p hp => (by cases hp))
  · intro s hr hi hp
    rw [← hr, ← hi]
    exact stage_label_walk_ok P cb hcb s hp
  · intro s hr hi hp
    exact keeps_walk_ok _ _ _ _ (stage_eth_keeps _ _ _ s hr hi rfl) hp
  · intro s hr hi hp
    refine ⟨⟨hi, fun t h => (by cases h)⟩, ?_, ?_⟩
    · intro t ht
      simp only [pull_step.next.injEq] at ht
      subst ht
      exact hr
    · rintro ⟨p, hp1, hf⟩
      exfalso
      have := hp p hp1
      rw [hf] at this
      cases this

/-- The checksum block logs no pull, leaves `*reason` alone and never goes to
`error`. -/
theorem stage_csum_fields (P : VrParams) (G : Globals) (s : pull_state) :
    (stage_csum P G s).step.state.gated = s.gated ∧
    (stage_csum P G s).step.state.reason = s.reason ∧
    ∀ t, (stage_csum P G s).step ≠ .error t := by
  unfold stage_csum
  by_cases h0 : skb_csum_unnecessary s.skb = true
  · simp only [h0, if_true]
    exact ⟨rfl, rfl, fun t h => (by cases h)⟩
  · simp only [h0, Bool.false_eq_true, if_false]
    split
    · split
      · exact ⟨rfl, rfl, fun t h => (by cases h)⟩
      · obtain ⟨skb1, h1, _, _⟩ := csum_finish_next G _ _ _ _
        rw [h1]
        exact ⟨rfl, rfl, fun t h => (by cases h)⟩
    · split
      · exact ⟨rfl, rfl, fun t h => (by cases h)⟩
      · exact ⟨rfl, rfl, fun t h => (by cases h)⟩
      · split
        · exact ⟨rfl, rfl, fun t h => (by cases h)⟩
        · split
          · split
            · exact ⟨rfl, rfl, fun t h => (by cases h)⟩
            · obtain ⟨skb1, h1, _, _⟩ := csum_finish_next G _ _ _ _
              rw [h1]
              exact ⟨rfl, rfl, fun t h => (by cases h)⟩
          · obtain ⟨skb1, h1, _, _⟩ := csum_finish_next G _ _ _ _
            rw [h1]
            exact ⟨rfl, rfl, fun t h => (by cases h)⟩

/-- The two ways through `lh_pull_inner_headers`: either the checksum block is
reached, from a state `s2` left by the transport header walk, or no checksum is
verified, no MSS is adjusted and the label `cksum_err` is not taken. -/
theorem lh_pull_inner_headers_cases (P : VrParams) (G : Globals) (skb : sk_buff)
    (pkt : vr_packet) (ip_proto : Nat) (cb : Option tunnel_type_cb) :
    (∃ s s2, pull_outer_headers P skb pkt ip_proto cb = .next s ∧ stage_l4 P s = .next s2 ∧
      lh_pull_inner_headers P G skb pkt ip_proto cb =
        pull_finish P (stage_csum P G { s2 with pkt := lh_reset_skb_fields s2.skb s2.pkt })) ∨
    (∃ x, lh_pull_inner_headers P G skb pkt ip_proto cb = pull_finish P (csum_skipped x) ∧
      ∀ s, x ≠ .cksum_err s) := by
  unfold lh_pull_inner_headers
  cases h : pull_outer_headers P skb pkt ip_proto cb with
  | next s =>
    simp only
    unfold stage_inner
    by_cases hc : s.iph.isSome = true ∨ s.ip6h.isSome = true
    · simp only [hc, if_true]
      cases h2 : stage_l4 P s with
      | next s2 => exact Or.inl ⟨s, s2, rfl, h2, rfl⟩
      | error s2 => exact Or.inr ⟨_, rfl, by simp⟩
      | cksum_err s2 =>
        exfalso
        exact (keeps_walk_ok0 _ _ _ _ (stage_l4_keeps P _ _ _ s rfl rfl rfl)).2 s2 h2
      | fault s2 => exact Or.inr ⟨_, rfl, by simp⟩
      | out_of_fuel s2 => exact Or.inr ⟨_, rfl, by simp⟩
    · simp only [hc, if_false]
      exact Or.inr ⟨_, rfl, by simp⟩
  | error s => exact Or.inr ⟨_, rfl, by simp⟩
  | cksum_err s =>
    exfalso
    exact (pull_outer_headers_walk_ok0 P skb pkt ip_proto cb).2 s h
  | fault s => exact Or.inr ⟨_, rfl, by simp⟩
  | out_of_fuel s => exact Or.inr ⟨_, rfl, by simp⟩



theorem pull_finish_error (P : VrParams) (o : csum_out) (s : pull_state)
    (h : o.step = .error s) :
    (pull_finish P o).exit = .error ∧ (pull_finish P o).ret = 0 ∧
      (pull_finish P o).reason = s.reason ∧ (pull_finish P o).skb = s.skb ∧
      (pull_finish P o).pkt = lh_reset_skb_fields s.skb s.pkt := by
  unfold pull_finish
  simp [h]

/-! ### Claims about the general path -/

/-- C7: when the classifier returns a value `<= 0` for an MPLS tunnel frame,
`lh_pull_inner_headers` returns 0 and `*reason` is what the classifier left
there; the buffer is the one left by the pull of the outer header, no further
pull is made, no inner header is located, no checksum is verified and no MSS is
rewritten. -/
theorem classifier_reject_drops (P : VrParams) (G : Globals) (skb : sk_buff) (pkt : vr_packet)
    (ip_proto : Nat) (f : tunnel_type_cb) (s : pull_state)
    (hout : stage_outer P ip_proto (pull_init P skb pkt) = .next s)
    (hmpls : s.mpls_pkt = true)
    (hret : (f (rd32 s.skb.head (s.pkt.vp_data + s.hdr_len))
      (rd32_raw s.skb.head (s.pkt.vp_data + s.hdr_len + VR_MPLS_HDR_LEN)) s.reason).1 ≤ 0) :
    (lh_pull_inner_headers P G skb pkt ip_proto (some f)).exit = .error ∧
    (lh_pull_inner_headers P G skb pkt ip_proto (some f)).ret = 0 ∧
    (lh_pull_inner_headers P G skb pkt ip_proto (some f)).reason =
      (f (rd32 s.skb.head (s.pkt.vp_data + s.hdr_len))
        (rd32_raw s.skb.head (s.pkt.vp_data + s.hdr_len + VR_MPLS_HDR_LEN)) s.reason).2 ∧
    (lh_pull_inner_headers P G skb pkt ip_proto (some f)).skb = s.skb ∧
    (lh_pull_inner_headers P G skb pkt ip_proto (some f)).pkt =
      lh_reset_skb_fields s.skb s.pkt ∧
    (lh_pull_inner_headers P G skb pkt ip_proto (some f)).st.pulls = s.pulls ∧
    (lh_pull_inner_headers P G skb pkt ip_proto (some f)).st.iph = s.iph ∧
    (lh_pull_inner_headers P G skb pkt ip_proto (some f)).st.ip6h = s.ip6h ∧
    (lh_pull_inner_headers P G skb pkt ip_proto (some f)).st.tcph = s.tcph ∧
    (lh_pull_inner_headers P G skb pkt ip_proto (some f)).verify = none ∧
    (lh_pull_inner_headers P G skb pkt ip_proto (some f)).mss_args = none := by
  have h : ∃ t, pull_outer_headers P skb pkt ip_proto (some f) = .error t ∧
      t.reason = (f (rd32 s.skb.head (s.pkt.vp_data + s.hdr_len))
        (rd32_raw s.skb.head (s.pkt.vp_data + s.hdr_len + VR_MPLS_HDR_LEN)) s.reason).2 ∧
      t.skb = s.skb ∧ t.pkt = s.pkt ∧ t.pulls = s.pulls ∧ t.iph = s.iph ∧ t.ip6h = s.ip6h ∧
      t.tcph = s.tcph := by
    unfold pull_outer_headers
    rw [hout]
    simp only [pull_step.bind, stage_label, hmpls, if_true, hret]
    exact ⟨_, rfl, rfl, rfl, rfl, rfl, rfl, rfl, rfl⟩
  obtain ⟨t, ht, h1, h2, h3, h4, h5, h6, h7⟩ := h
  unfold lh_pull_inner_headers
  rw [ht]
  simp [pull_finish, csum_skipped, h1, h2, h3, h4, h5, h6, h7]

theorem classifier_reject_drops_witness :
    (lh_pull_inner_headers ex_params (globals_with_mtu 1500) ex_gre_frame
        (pkt_at ex_gre_frame 20) VR_IP_PROTO_GRE (some ex_cb_reject)).ret = 0 ∧
    (lh_pull_inner_headers ex_params (globals_with_mtu 1500) ex_gre_frame
        (pkt_at ex_gre_frame 20) VR_IP_PROTO_GRE (some ex_cb_reject)).reason = 22 :=
  have h := classifier_reject_drops ex_params (globals_with_mtu 1500) ex_gre_frame
    (pkt_at ex_gre_frame 20) VR_IP_PROTO_GRE ex_cb_reject
    (stage_outer ex_params VR_IP_PROTO_GRE
      (pull_init ex_params ex_gre_frame (pkt_at ex_gre_frame 20))).state
    (by decide) (by decide) (by decide)
  ⟨h.2.1, h.2.2.1⟩


theorem not_all_ok_of_failed (l : List (Nat × Bool)) (h : ∃ p ∈ l, p.2 = false) : ¬ all_ok l := by
  obtain ⟨p, hp, hf⟩ := h
  intro ha
  have := ha p hp
  rw [hf] at this
  cases this

/-- A failed `pskb_may_pull` leads to the label `error` with `*reason` still
`VP_DROP_PULL`, provided the classifier leaves `*reason` alone when it accepts. -/
theorem failed_pull_exit (P : VrParams) (G : Globals) (skb : sk_buff)
    (pkt : vr_packet) (ip_proto : Nat) (cb : Option tunnel_type_cb)
    (hcb : ∀ f, cb = some f → ∀ l c r, 0 < (f l c r).1 → (f l c r).2 = r)
    (hfail : ∃ p ∈ (lh_pull_inner_headers P G skb pkt ip_proto cb).st.gated, p.2 = false) :
    (lh_pull_inner_headers P G skb pkt ip_proto cb).exit = .error ∧
    (lh_pull_inner_headers P G skb pkt ip_proto cb).ret = 0 ∧
    (lh_pull_inner_headers P G skb pkt ip_proto cb).reason = P.VP_DROP_PULL := by
  have hw := pull_outer_headers_walk_ok P skb pkt ip_proto cb hcb
  unfold lh_pull_inner_headers at hfail ⊢
  cases h : pull_outer_headers P skb pkt ip_proto cb with
  | next s =>
    rw [h] at hw hfail
    obtain ⟨⟨hi, _⟩, hr, hp⟩ := hw
    have hrs : s.reason = P.VP_DROP_PULL := hr s rfl
    have hok : all_ok s.gated := by
      intro p hp1
      by_contra hc
      have hfalse : p.2 = false := by
        cases h : p.2 with
        | true => exact absurd h hc
        | false => rfl
      obtain ⟨⟨t, ht⟩, _⟩ := hp ⟨p, hp1, hfalse⟩
      cases ht
    simp only at hfail ⊢
    unfold stage_inner at hfail ⊢
    by_cases hc : s.iph.isSome = true ∨ s.ip6h.isSome = true
    · simp only [hc, if_true] at hfail ⊢
      have hk := keeps_walk_ok _ _ _ _ (stage_l4_keeps P _ _ _ s hrs rfl rfl) hok
      cases h2 : stage_l4 P s with
      | next s2 =>
        rw [h2] at hk hfail
        simp only at hfail
        exfalso
        rw [(pull_finish_verify P _).2.2.2.2.2.1, (stage_csum_fields P G _).1] at hfail
        obtain ⟨p, hp1, hf⟩ := hfail
        obtain ⟨⟨t, ht⟩, _⟩ := hk.2.2 ⟨p, hp1, hf⟩
        cases ht
      | error s2 =>
        rw [h2] at hk hfail
        simp only at hfail ⊢
        rw [(pull_finish_verify P _).2.2.2.2.2.1] at hfail
        obtain ⟨_, hreason⟩ := hk.2.2 hfail
        obtain ⟨e1, e2, e3, _, _⟩ := pull_finish_error P (csum_skipped (.error s2)) s2 rfl
        exact ⟨e1, e2, e3.trans hreason⟩
      | cksum_err s2 =>
        rw [h2] at hk
        exact absurd rfl (hk.1.2 s2)
      | fault s2 =>
        rw [h2] at hk hfail
        simp only at hfail
        rw [(pull_finish_verify P _).2.2.2.2.2.1] at hfail
        obtain ⟨⟨t, ht⟩, _⟩ := hk.2.2 hfail
        cases ht
      | out_of_fuel s2 =>
        rw [h2] at hk hfail
        simp only at hfail
        rw [(pull_finish_verify P _).2.2.2.2.2.1] at hfail
        obtain ⟨⟨t, ht⟩, _⟩ := hk.2.2 hfail
        cases ht
    · simp only [hc, if_false] at hfail
      rw [(pull_finish_verify P _).2.2.2.2.2.1] at hfail
      exact absurd hok (not_all_ok_of_failed _ hfail)
  | error s =>
    rw [h] at hw hfail
    simp only at hfail ⊢
    rw [(pull_finish_verify P _).2.2.2.2.2.1] at hfail
    obtain ⟨_, hreason⟩ := hw.2.2 hfail
    obtain ⟨e1, e2, e3, _, _⟩ := pull_finish_error P (csum_skipped (.error s)) s rfl
    exact ⟨e1, e2, e3.trans hreason⟩
  | cksum_err s =>
    rw [h] at hw
    exact absurd rfl (hw.1.2 s)
  | fault s =>
    rw [h] at hw hfail
    simp only at hfail
    rw [(pull_finish_verify P _).2.2.2.2.2.1] at hfail
    obtain ⟨⟨t, ht⟩, _⟩ := hw.2.2 hfail
    cases ht
  | out_of_fuel s =>
    rw [h] at hw hfail
    simp only at hfail
    rw [(pull_finish_verify P _).2.2.2.2.2.1] at hfail
    obtain ⟨⟨t, ht⟩, _⟩ := hw.2.2 hfail
    cases ht

/-- C8 (as stated, refuted): two failed pulls that do not end with `VP_DROP_PULL`.
With a classifier that returns `PKT_MPLS_TUNNEL_L3` and stores 22 in `*reason`,
on a frame too short for the inner IP header, the pull of 28 bytes fails and
the function returns 0 with `*reason = 22`.  On `ex_icmp_paged_frame`, an ICMP
error whose quoted TCP header continues in a page, with an allocator that has
nothing to give, the pull of the quoted TCP header (76 bytes, the one that is
not followed by `goto error`) fails and the function returns 1; with an
allocator that does not fail the same pull succeeds. -/
theorem pull_failure_reason_not_pull :
    ((lh_pull_inner_headers ex_params (globals_with_mtu 1500) ex_gre_short
        (pkt_at ex_gre_short 20) VR_IP_PROTO_GRE (some ex_cb_l3_writes)).st.pulls =
      [(12, true), (28, false)] ∧
    (lh_pull_inner_headers ex_params (globals_with_mtu 1500) ex_gre_short
        (pkt_at ex_gre_short 20) VR_IP_PROTO_GRE (some ex_cb_l3_writes)).ret = 0 ∧
    (lh_pull_inner_headers ex_params (globals_with_mtu 1500) ex_gre_short
        (pkt_at ex_gre_short 20) VR_IP_PROTO_GRE (some ex_cb_l3_writes)).reason = 22 ∧
    (lh_pull_inner_headers ex_params (globals_with_mtu 1500) ex_gre_short
        (pkt_at ex_gre_short 20) VR_IP_PROTO_GRE (some ex_cb_l3_writes)).reason ≠
      ex_params.VP_DROP_PULL) ∧
    ((lh_pull_inner_headers ex_params (globals_with_mtu 1500) (ex_icmp_paged_frame (some 0))
        (pkt_at (ex_icmp_paged_frame (some 0)) 20) VR_IP_PROTO_GRE (some ex_cb_l3)).st.pulls =
      [(12, true), (28, true), (36, true), (56, true), (56, true), (64, true), (76, false)] ∧
    (lh_pull_inner_headers ex_params (globals_with_mtu 1500) (ex_icmp_paged_frame (some 0))
        (pkt_at (ex_icmp_paged_frame (some 0)) 20) VR_IP_PROTO_GRE (some ex_cb_l3)).st.gated =
      [(12, true), (28, true), (36, true), (56, true), (56, true), (64, true)] ∧
    (lh_pull_inner_headers ex_params (globals_with_mtu 1500) (ex_icmp_paged_frame (some 0))
        (pkt_at (ex_icmp_paged_frame (some 0)) 20) VR_IP_PROTO_GRE (some ex_cb_l3)).exit =
      .success ∧
    (lh_pull_inner_headers ex_params (globals_with_mtu 1500) (ex_icmp_paged_frame (some 0))
        (pkt_at (ex_icmp_paged_frame (some 0)) 20) VR_IP_PROTO_GRE (some ex_cb_l3)).ret = 1 ∧
    (lh_pull_inner_headers ex_params (globals_with_mtu 1500) (ex_icmp_paged_frame none)
        (pkt_at (ex_icmp_paged_frame none) 20) VR_IP_PROTO_GRE (some ex_cb_l3)).st.pulls =
      [(12, true), (28, true), (36, true), (56, true), (56, true), (64, true), (76, true)]) := by
  refine ⟨⟨by decide, by decide, by decide, by decide⟩,
    by decide, by decide, by decide, by decide, by decide⟩

/-- C8 (amended): for every frame and every classifier that leaves `*reason` as
it finds it whenever it returns a positive value, whenever a `pskb_may_pull`
that `lh_pull_inner_headers` makes as `if (!pskb_may_pull(...)) goto error;`
fails, for want of bytes in the frame or of memory, the function returns 0 and
the reported drop reason is `VP_DROP_PULL`. -/
theorem pull_failure_drops_with_pull_reason (P : VrParams) (G : Globals) (skb : sk_buff)
    (pkt : vr_packet) (ip_proto : Nat) (cb : Option tunnel_type_cb)
    (hcb : ∀ f, cb = some f → ∀ l c r, 0 < (f l c r).1 → (f l c r).2 = r)
    (hfail : ∃ p ∈ (lh_pull_inner_headers P G skb pkt ip_proto cb).st.gated, p.2 = false) :
    (lh_pull_inner_headers P G skb pkt ip_proto cb).exit = .error ∧
    (lh_pull_inner_headers P G skb pkt ip_proto cb).ret = 0 ∧
    (lh_pull_inner_headers P G skb pkt ip_proto cb).reason = P.VP_DROP_PULL :=
  failed_pull_exit P G skb pkt ip_proto cb hcb hfail

theorem pull_failure_drops_with_pull_reason_witness :
    ((lh_pull_inner_headers ex_params (globals_with_mtu 1500) ex_gre_short
        (pkt_at ex_gre_short 20) VR_IP_PROTO_GRE (some ex_cb_l3)).exit = .error ∧
    (lh_pull_inner_headers ex_params (globals_with_mtu 1500) ex_gre_short
        (pkt_at ex_gre_short 20) VR_IP_PROTO_GRE (some ex_cb_l3)).ret = 0 ∧
    (lh_pull_inner_headers ex_params (globals_with_mtu 1500) ex_gre_short
        (pkt_at ex_gre_short 20) VR_IP_PROTO_GRE (some ex_cb_l3)).reason = 1) ∧
    (lh_pull_inner_headers ex_params (globals_with_mtu 1500) (ex_gre_paged_frame (some 0))
        (pkt_at (ex_gre_paged_frame (some 0)) 20) VR_IP_PROTO_GRE (some ex_cb_l3)).st.gated =
      [(12, false)] ∧
    ((lh_pull_inner_headers ex_params (globals_with_mtu 1500) (ex_gre_paged_frame (some 0))
        (pkt_at (ex_gre_paged_frame (some 0)) 20) VR_IP_PROTO_GRE (some ex_cb_l3)).exit = .error ∧
    (lh_pull_inner_headers ex_params (globals_with_mtu 1500) (ex_gre_paged_frame (some 0))
        (pkt_at (ex_gre_paged_frame (some 0)) 20) VR_IP_PROTO_GRE (some ex_cb_l3)).ret = 0 ∧
    (lh_pull_inner_headers ex_params (globals_with_mtu 1500) (ex_gre_paged_frame (some 0))
        (pkt_at (ex_gre_paged_frame (some 0)) 20) VR_IP_PROTO_GRE (some ex_cb_l3)).reason = 1) ∧
    (lh_pull_inner_headers ex_params (globals_with_mtu 1500) (ex_gre_paged_frame none)
        (pkt_at (ex_gre_paged_frame none) 20) VR_IP_PROTO_GRE (some ex_cb_l3)).exit = .success :=
  ⟨pull_failure_drops_with_pull_reason ex_params (globals_with_mtu 1500) ex_gre_short
      (pkt_at ex_gre_short 20) VR_IP_PROTO_GRE (some ex_cb_l3)
      (by intro f hf l c r _; cases hf; rfl)
      ⟨(28, false), by decide, rfl⟩,
    by decide,
    pull_failure_drops_with_pull_reason ex_params (globals_with_mtu 1500)
      (ex_gre_paged_frame (some 0)) (pkt_at (ex_gre_paged_frame (some 0)) 20) VR_IP_PROTO_GRE
      (some ex_cb_l3) (by intro f hf l c r _; cases hf; rfl)
      ⟨(12, false), by decide, rfl⟩,
    by decide⟩


/-- C9: whenever a checksum verification made by `lh_pull_inner_headers` reports
a mismatch, the function returns 1 with the packet flagged diagnostic if the
recorded transport checksum is `VR_DIAG_CSUM`, and returns 0 with drop reason
`VP_DROP_CKSUM_ERR` otherwise. -/
theorem csum_mismatch_verdict (P : VrParams) (G : Globals) (skb : sk_buff) (pkt : vr_packet)
    (ip_proto : Nat) (cb : Option tunnel_type_cb) (v : Int)
    (hv : (lh_pull_inner_headers P G skb pkt ip_proto cb).verify = some v) (hne : v ≠ 0) :
    ((lh_pull_inner_headers P G skb pkt ip_proto cb).st.th_csum = P.VR_DIAG_CSUM →
      (lh_pull_inner_headers P G skb pkt ip_proto cb).exit = .success ∧
      (lh_pull_inner_headers P G skb pkt ip_proto cb).ret = 1 ∧
      (lh_pull_inner_headers P G skb pkt ip_proto cb).pkt.diag = true) ∧
    ((lh_pull_inner_headers P G skb pkt ip_proto cb).st.th_csum ≠ P.VR_DIAG_CSUM →
      (lh_pull_inner_headers P G skb pkt ip_proto cb).exit = .cksum_err ∧
      (lh_pull_inner_headers P G skb pkt ip_proto cb).ret = 0 ∧
      (lh_pull_inner_headers P G skb pkt ip_proto cb).reason = P.VP_DROP_CKSUM_ERR) := by
  rcases lh_pull_inner_headers_cases P G skb pkt ip_proto cb with ⟨s, s2, _, _, hrun⟩ | ⟨x, hrun, _⟩
  · rw [hrun] at hv ⊢
    obtain ⟨hth, hverdict⟩ := stage_csum_verdict P G
      { s2 with pkt := lh_reset_skb_fields s2.skb s2.pkt }
    obtain ⟨e1, _, _, e4, _⟩ := pull_finish_verify P
      (stage_csum P G { s2 with pkt := lh_reset_skb_fields s2.skb s2.pkt })
    rw [e1] at hv
    rw [e4, hth]
    obtain ⟨hd, hn⟩ := hverdict v hv hne
    constructor
    · intro h
      obtain ⟨s1, hs1, hdiag⟩ := hd h
      obtain ⟨f1, f2, f3, _⟩ := pull_finish_next P _ s1 hs1
      exact ⟨f1, f2, by rw [f3]; exact hdiag⟩
    · intro h
      obtain ⟨s1, hs1⟩ := hn h
      exact pull_finish_cksum_err P _ s1 hs1
  · rw [hrun, (pull_finish_verify P _).1] at hv
    simp [csum_skipped] at hv

theorem csum_mismatch_verdict_witness :
    (lh_pull_inner_headers ex_params (globals_with_mtu 1500) (ex_gre_frame_csum 0x12 0x34)
        (pkt_at ex_gre_frame 20) VR_IP_PROTO_GRE (some ex_cb_l3)).st.th_csum ≠
      ex_params.VR_DIAG_CSUM ∧
    (lh_pull_inner_headers ex_params (globals_with_mtu 1500) (ex_gre_frame_csum 0x12 0x34)
        (pkt_at ex_gre_frame 20) VR_IP_PROTO_GRE (some ex_cb_l3)).exit = .cksum_err ∧
    (lh_pull_inner_headers ex_params (globals_with_mtu 1500) (ex_gre_frame_csum 0x12 0x34)
        (pkt_at ex_gre_frame 20) VR_IP_PROTO_GRE (some ex_cb_l3)).ret = 0 ∧
    (lh_pull_inner_headers ex_params (globals_with_mtu 1500) (ex_gre_frame_csum 0x12 0x34)
        (pkt_at ex_gre_frame 20) VR_IP_PROTO_GRE (some ex_cb_l3)).reason = 35 :=
  ⟨by decide, (csum_mismatch_verdict ex_params (globals_with_mtu 1500)
    (ex_gre_frame_csum 0x12 0x34) (pkt_at ex_gre_frame 20) VR_IP_PROTO_GRE (some ex_cb_l3) (-1)
    (by decide) (by decide)).2 (by decide)⟩

theorem skb_csum_unnecessary_congr (a b : sk_buff) (h : a.ip_summed = b.ip_summed) :
    skb_csum_unnecessary a = skb_csum_unnecessary b := by
  unfold skb_csum_unnecessary
  rw [h]

theorem bind_reason (Q1 Q2 : Nat → Prop) (x : pull_step) (f : pull_state → pull_step)
    (hx : Q1 x.state.reason) (hf : ∀ s, Q1 s.reason → Q2 (f s).state.reason)
    (hm : ∀ r, Q1 r → Q2 r) : Q2 (x.bind f).state.reason := by
  cases x with
  | next s => exact hf s hx
  | error s => exact hm _ hx
  | cksum_err s => exact hm _ hx
  | fault s => exact hm _ hx
  | out_of_fuel s => exact hm _ hx

theorem pull_or_error_reason (Q : Nat → Prop) (s : pull_state) (k : pull_state → pull_step)
    (hs : Q s.reason) (hk : ∀ s1, s1.reason = s.reason → Q (k s1).state.reason) :
    Q (pull_or_error s k).state.reason := by
  unfold pull_or_error
  split
  · exact hs
  · exact hk _ rfl

/-- The label stage, entered with `*reason = VP_DROP_PULL`, leaves in `*reason`
that value, `VP_DROP_MISC`, or what the classifier stored. -/
theorem stage_label_reason (P : VrParams) (cb : Option tunnel_type_cb) (s : pull_state)
    (hs : s.reason = P.VP_DROP_PULL) :
    reason_origin P cb (stage_label P cb s).state.reason := by
  unfold stage_label
  by_cases hm : s.mpls_pkt = true
  · simp only [hm, if_true]
    cases cb with
    | none => exact Or.inr (Or.inl rfl)
    | some f =>
      have hcall : ∀ l c, reason_origin P (some f) (f l c s.reason).2 := by
        intro l c
        rw [hs]
        exact Or.inr (Or.inr ⟨f, l, c, rfl, rfl⟩)
      dsimp only
      split
      · exact hcall _ _
      · split
        · refine pull_or_error_reason _ _ _ (hcall _ _) ?_
          intro s1 h1
          dsimp only
          split
          · show reason_origin P (some f) s1.reason
            rw [h1]
            exact hcall _ _
          · show reason_origin P (some f) s1.reason
            rw [h1]
            exact hcall _ _
        · split
          · refine pull_or_error_reason _ _ _ (hcall _ _) ?_
            intro s1 h1
            show reason_origin P (some f) s1.reason
            rw [h1]
            exact hcall _ _
          · split
            · refine pull_or_error_reason _ _ _ (hcall _ _) ?_
              intro s1 h1
              show reason_origin P (some f) s1.reason
              rw [h1]
              exact hcall _ _
            · exact Or.inr (Or.inl rfl)
  · simp only [hm, Bool.false_eq_true, if_false]
    exact Or.inl hs

theorem pull_outer_headers_reason (P : VrParams) (skb : sk_buff) (pkt : vr_packet)
    (ip_proto : Nat) (cb : Option tunnel_type_cb) :
    reason_origin P cb (pull_outer_headers P skb pkt ip_proto cb).state.reason := by
  unfold pull_outer_headers
  refine bind_reason (reason_origin P cb) _ _ _ ?_ (fun s h => h) (fun r h => h)
  refine bind_reason (reason_origin P cb) _ _ _ ?_ ?_ (fun r h => h)
  · refine bind_reason (fun r => r = P.VP_DROP_PULL) _ _ _ ?_ ?_ (fun r h => Or.inl h)
    · exact (stage_outer_keeps P ip_proto [] _ _ _ rfl rfl rfl).1
    · intro s hs
      exact stage_label_reason P cb s hs
  · intro s hs
    rw [(stage_eth_keeps _ _ _ s rfl rfl rfl).1]
    exact hs

theorem pull_finish_reason (P : VrParams) (o : csum_out)
    (h : (pull_finish P o).exit ≠ .cksum_err) :
    (pull_finish P o).reason = o.step.state.reason := by
  unfold pull_finish at h ⊢
  cases hs : o.step with
  | next t => simp [hs, pull_step.state]
  | error t => simp [hs, pull_step.state]
  | cksum_err t => simp [hs] at h
  | fault t => simp [hs, pull_step.state]
  | out_of_fuel t => simp [hs, pull_step.state]

/-- Unless `lh_pull_inner_headers` leaves through `cksum_err`, the drop reason it
reports is `VP_DROP_PULL`, `VP_DROP_MISC` or what the classifier stored. -/
theorem lh_pull_inner_headers_reason (P : VrParams) (G : Globals) (skb : sk_buff)
    (pkt : vr_packet) (ip_proto : Nat) (cb : Option tunnel_type_cb)
    (hx : (lh_pull_inner_headers P G skb pkt ip_proto cb).exit ≠ .cksum_err) :
    reason_origin P cb (lh_pull_inner_headers P G skb pkt ip_proto cb).reason := by
  have hw := pull_outer_headers_reason P skb pkt ip_proto cb
  rcases lh_pull_inner_headers_cases P G skb pkt ip_proto cb with
    ⟨s, s2, hs, hs2, hrun⟩ | ⟨x, hrun, _⟩
  · rw [hrun] at hx ⊢
    rw [pull_finish_reason P _ hx, (stage_csum_fields P G _).2.1]
    have h2 := (stage_l4_keeps P _ _ _ s rfl rfl rfl).1
    rw [hs2] at h2
    rw [hs] at hw
    show reason_origin P cb s2.reason
    rw [show s2.reason = s.reason from h2]
    exact hw
  · unfold lh_pull_inner_headers at hx ⊢
    cases h : pull_outer_headers P skb pkt ip_proto cb with
    | next s =>
      rw [h] at hw hx
      simp only at hx ⊢
      rw [pull_finish_reason P _ hx]
      unfold stage_inner
      split
      · have h2 := (stage_l4_keeps P _ _ _ s rfl rfl rfl).1
        cases h4 : stage_l4 P s with
        | next s2 =>
          rw [h4] at h2
          simp only
          rw [(stage_csum_fields P G _).2.1]
          show reason_origin P cb s2.reason
          rw [show s2.reason = s.reason from h2]
          exact hw
        | error s2 => rw [h4] at h2; simp only [csum_skipped]; rw [h2]; exact hw
        | cksum_err s2 => rw [h4] at h2; simp only [csum_skipped]; rw [h2]; exact hw
        | fault s2 => rw [h4] at h2; simp only [csum_skipped]; rw [h2]; exact hw
        | out_of_fuel s2 => rw [h4] at h2; simp only [csum_skipped]; rw [h2]; exact hw
      · exact hw
    | error s => rw [h] at hw hx; simp only at hx ⊢; rw [pull_finish_reason P _ hx]; exact hw
    | cksum_err s => rw [h] at hw hx; simp only at hx ⊢; rw [pull_finish_reason P _ hx]; exact hw
    | fault s => rw [h] at hw hx; simp only at hx ⊢; rw [pull_finish_reason P _ hx]; exact hw
    | out_of_fuel s =>
      rw [h] at hw hx; simp only at hx ⊢; rw [pull_finish_reason P _ hx]; exact hw

/-- When `skb_csum_unnecessary` holds on entry, `lh_pull_inner_headers` calls no
checksum verification, does not leave through `cksum_err` and does not adjust
the MSS. -/
theorem csum_unnecessary_skips (P : VrParams) (G : Globals) (skb : sk_buff)
    (pkt : vr_packet) (ip_proto : Nat) (cb : Option tunnel_type_cb)
    (hun : skb_csum_unnecessary skb = true) :
    (lh_pull_inner_headers P G skb pkt ip_proto cb).verify = none ∧
    (lh_pull_inner_headers P G skb pkt ip_proto cb).exit ≠ .cksum_err ∧
    (lh_pull_inner_headers P G skb pkt ip_proto cb).mss_args = none := by
  rcases lh_pull_inner_headers_cases P G skb pkt ip_proto cb with ⟨s, s2, hs, hs2, hrun⟩ | ⟨x, hrun, hx⟩
  · have h1 := (pull_outer_headers_walk_ok0 P skb pkt ip_proto cb).1
    rw [hs] at h1
    have h2 := (keeps_walk_ok0 _ _ _ _ (stage_l4_keeps P _ _ _ s rfl rfl rfl)).1
    rw [hs2] at h2
    simp only [pull_step.state] at h1 h2
    have h3 : skb_csum_unnecessary s2.skb = true := by
      rw [skb_csum_unnecessary_congr s2.skb skb (h2.trans h1)]
      exact hun
    have h4 : stage_csum P G { s2 with pkt := lh_reset_skb_fields s2.skb s2.pkt } =
        csum_skipped (.next { s2 with pkt := lh_reset_skb_fields s2.skb s2.pkt }) := by
      unfold stage_csum
      simp only [h3, if_true]
      rfl
    rw [hrun, h4]
    simp [pull_finish, csum_skipped]
  · rw [hrun]
    refine ⟨by rw [(pull_finish_verify P _).1]; rfl, ?_, by rw [(pull_finish_verify P _).2.1]; rfl⟩
    intro h
    obtain ⟨t, ht⟩ := (pull_finish_exit P _).1.mp h
    exact hx t ht

/-- C15 (as stated, refuted): on a frame whose checksum status is
`CHECKSUM_UNNECESSARY`, with a classifier that rejects the label and stores
`VP_DROP_CKSUM_ERR` in `*reason`, `lh_pull_inner_headers` verifies no checksum
and returns 0 with drop reason `VP_DROP_CKSUM_ERR`. -/
theorem csum_unnecessary_reason_from_classifier :
    skb_csum_unnecessary (skb_set_ip_summed ex_gre_frame CHECKSUM_UNNECESSARY) = true ∧
    (lh_pull_inner_headers ex_params (globals_with_mtu 1500)
        (skb_set_ip_summed ex_gre_frame CHECKSUM_UNNECESSARY)
        (pkt_at ex_gre_frame 20) VR_IP_PROTO_GRE (some ex_cb_reject_cksum)).verify = none ∧
    (lh_pull_inner_headers ex_params (globals_with_mtu 1500)
        (skb_set_ip_summed ex_gre_frame CHECKSUM_UNNECESSARY)
        (pkt_at ex_gre_frame 20) VR_IP_PROTO_GRE (some ex_cb_reject_cksum)).ret = 0 ∧
    (lh_pull_inner_headers ex_params (globals_with_mtu 1500)
        (skb_set_ip_summed ex_gre_frame CHECKSUM_UNNECESSARY)
        (pkt_at ex_gre_frame 20) VR_IP_PROTO_GRE (some ex_cb_reject_cksum)).reason =
      ex_params.VP_DROP_CKSUM_ERR := by
  refine ⟨by decide, by decide, by decide, by decide⟩

/-- C15 (amended): when the hardware checksum status on entry is already-verified
(`skb_csum_unnecessary` holds), `lh_pull_inner_headers` calls no checksum
verification, does not adjust the MSS and does not leave through the label
`cksum_err`, the one place where it sets `VP_DROP_CKSUM_ERR`: the drop reason
it reports is `VP_DROP_PULL`, `VP_DROP_MISC` or the value the classifier stored
in `*reason`; so it is not `VP_DROP_CKSUM_ERR` (a constant different from the
other two) when the classifier does not store that value. -/
theorem csum_unnecessary_no_verification (P : VrParams) (G : Globals) (skb : sk_buff)
    (pkt : vr_packet) (ip_proto : Nat) (cb : Option tunnel_type_cb)
    (hun : skb_csum_unnecessary skb = true) :
    (lh_pull_inner_headers P G skb pkt ip_proto cb).verify = none ∧
    (lh_pull_inner_headers P G skb pkt ip_proto cb).exit ≠ .cksum_err ∧
    (lh_pull_inner_headers P G skb pkt ip_proto cb).mss_args = none ∧
    ((lh_pull_inner_headers P G skb pkt ip_proto cb).reason = P.VP_DROP_PULL ∨
      (lh_pull_inner_headers P G skb pkt ip_proto cb).reason = P.VP_DROP_MISC ∨
      ∃ f l c, cb = some f ∧
        (lh_pull_inner_headers P G skb pkt ip_proto cb).reason = (f l c P.VP_DROP_PULL).2) ∧
    (P.VP_DROP_PULL ≠ P.VP_DROP_CKSUM_ERR → P.VP_DROP_MISC ≠ P.VP_DROP_CKSUM_ERR →
      (∀ f, cb = some f → ∀ l c, (f l c P.VP_DROP_PULL).2 ≠ P.VP_DROP_CKSUM_ERR) →
      (lh_pull_inner_headers P G skb pkt ip_proto cb).reason ≠ P.VP_DROP_CKSUM_ERR) := by
  obtain ⟨h1, h2, h3⟩ := csum_unnecessary_skips P G skb pkt ip_proto cb hun
  have h4 := lh_pull_inner_headers_reason P G skb pkt ip_proto cb h2
  refine ⟨h1, h2, h3, h4, ?_⟩
  intro hp hm hcb
  rcases h4 with h | h | ⟨f, l, c, hf, h⟩
  · rw [h]; exact hp
  · rw [h]; exact hm
  · rw [h]; exact hcb f hf l c

theorem csum_unnecessary_no_verification_witness :
    (lh_pull_inner_headers ex_params (globals_with_mtu 1500)
        (skb_set_ip_summed (ex_gre_frame_csum 0x12 0x34) CHECKSUM_UNNECESSARY)
        (pkt_at ex_gre_frame 20) VR_IP_PROTO_GRE (some ex_cb_l3)).verify = none ∧
    (lh_pull_inner_headers ex_params (globals_with_mtu 1500)
        (skb_set_ip_summed (ex_gre_frame_csum 0x12 0x34) CHECKSUM_UNNECESSARY)
        (pkt_at ex_gre_frame 20) VR_IP_PROTO_GRE (some ex_cb_l3)).exit = .success ∧
    (lh_pull_inner_headers ex_params (globals_with_mtu 1500)
        (skb_set_ip_summed (ex_gre_frame_csum 0x12 0x34) CHECKSUM_UNNECESSARY)
        (pkt_at ex_gre_frame 20) VR_IP_PROTO_GRE (some ex_cb_l3)).reason ≠
      ex_params.VP_DROP_CKSUM_ERR :=
  have h := csum_unnecessary_no_verification ex_params (globals_with_mtu 1500)
    (skb_set_ip_summed (ex_gre_frame_csum 0x12 0x34) CHECKSUM_UNNECESSARY)
    (pkt_at ex_gre_frame 20) VR_IP_PROTO_GRE (some ex_cb_l3) (by decide)
  ⟨h.1, by decide, h.2.2.2.2 (by decide) (by decide)
    (by intro f hf l c; cases hf; exact (by decide : (1 : Nat) ≠ 35))⟩


/-- The label stage of a frame that is not MPLS does not consult the classifier:
it only places the inner Ethernet header after the outer header and the 8-byte
VXLAN header. -/
theorem stage_label_vxlan (P : VrParams) (cb : Option tunnel_type_cb) (s : pull_state)
    (h : s.mpls_pkt = false) :
    stage_label P cb s = .next { s with hoff := s.pkt.vp_data + s.hdr_len + sizeof_vr_vxlan,
                                        eth := some (s.pkt.vp_data + s.hdr_len + sizeof_vr_vxlan) } := by
  unfold stage_label
  simp [h]

/-- The outer stage of a UDP frame whose destination port is not an
MPLS-over-UDP port: a pull of UDP header, VXLAN header and Ethernet header
(8 + 8 + 14 bytes from the packet data), and on success a state marked as not
MPLS. -/
theorem stage_outer_vxlan (P : VrParams) (skb : sk_buff) (pkt : vr_packet) (port : Nat)
    (hport : outer_udp_dport skb pkt = some port) (hn : P.vr_mpls_udp_port port = false) :
    (∃ t, stage_outer P VR_IP_PROTO_UDP (pull_init P skb pkt) = .error t ∧
      t.reason = P.VP_DROP_PULL ∧
      t.pulls = [(u32 (16 + ((pkt.vp_data : Int) - (skb.data : Int))), true),
        (u32 (30 + ((pkt.vp_data : Int) - (skb.data : Int))), false)]) ∨
    (∃ t, stage_outer P VR_IP_PROTO_UDP (pull_init P skb pkt) = .next t ∧
      t.mpls_pkt = false ∧ t.pkt = pkt ∧ t.hdr_len = sizeof_udphdr ∧
      t.pulls = [(u32 (16 + ((pkt.vp_data : Int) - (skb.data : Int))), true),
        (u32 (30 + ((pkt.vp_data : Int) - (skb.data : Int))), true)]) := by
  unfold outer_udp_dport at hport
  cases h1 : pskb_may_pull skb (u32 ((sizeof_udphdr : Int) + (VR_MPLS_HDR_LEN : Int) +
    (VR_L2_MCAST_CTRL_DATA_LEN : Int) + ((pkt.vp_data : Int) - (skb.data : Int)))) with
  | none => rw [h1] at hport; cases hport
  | some skb1 =>
    rw [h1] at hport
    simp only [Option.map_some', Option.some.injEq] at hport
    have e16 : (sizeof_udphdr : Int) + (VR_MPLS_HDR_LEN : Int) + (VR_L2_MCAST_CTRL_DATA_LEN : Int) +
        ((pkt.vp_data : Int) - (skb.data : Int)) = 16 + ((pkt.vp_data : Int) - (skb.data : Int)) := by
      simp only [sizeof_udphdr, VR_MPLS_HDR_LEN, VR_L2_MCAST_CTRL_DATA_LEN]; omega
    have e30 : (sizeof_udphdr : Int) + (VR_MPLS_HDR_LEN : Int) + (VR_L2_MCAST_CTRL_DATA_LEN : Int) +
        ((pkt.vp_data : Int) - (skb.data : Int)) - ((VR_MPLS_HDR_LEN : Int) +
        (VR_L2_MCAST_CTRL_DATA_LEN : Int)) + (sizeof_vr_vxlan : Int) + (sizeof_vr_eth : Int) =
        30 + ((pkt.vp_data : Int) - (skb.data : Int)) := by
      simp only [sizeof_udphdr, VR_MPLS_HDR_LEN, VR_L2_MCAST_CTRL_DATA_LEN, sizeof_vr_vxlan,
        sizeof_vr_eth]; omega
    unfold stage_outer
    simp only [VR_IP_PROTO_UDP, VR_IP_PROTO_GRE, Nat.reduceEqDiff, or_true, if_true, if_false,
      pull_or_error, pull_init, h1, hport, hn, Bool.not_false]
    rw [e30]
    cases h2 : pskb_may_pull skb1 (u32 (30 + ((pkt.vp_data : Int) - (skb.data : Int)))) with
    | none =>
      left
      exact ⟨_, rfl, rfl, by simp [e16]⟩
    | some skb2 =>
      right
      exact ⟨_, rfl, rfl, rfl, rfl, by simp [e16]⟩


/-- C10: for a UDP-encapsulated frame whose outer destination port is not an
MPLS-over-UDP port, the result of `lh_pull_inner_headers` (return value, drop
reason, buffer, packet) is the same for every classifier, a null one included;
the function pulls UDP header, VXLAN header and Ethernet header (8 + 8 + 14
bytes), drops with `VP_DROP_PULL` when they are not there, and otherwise takes
the inner Ethernet header at packet data + 8 + 8 without calling the
classifier. -/
theorem vxlan_ignores_classifier (P : VrParams) (G : Globals) (skb : sk_buff)
    (pkt : vr_packet) (port : Nat) (cb cb1 : Option tunnel_type_cb)
    (hport : outer_udp_dport skb pkt = some port) (hn : P.vr_mpls_udp_port port = false) :
    lh_pull_inner_headers P G skb pkt VR_IP_PROTO_UDP cb =
      lh_pull_inner_headers P G skb pkt VR_IP_PROTO_UDP cb1 ∧
    (((lh_pull_inner_headers P G skb pkt VR_IP_PROTO_UDP cb).ret = 0 ∧
      (lh_pull_inner_headers P G skb pkt VR_IP_PROTO_UDP cb).reason = P.VP_DROP_PULL ∧
      (lh_pull_inner_headers P G skb pkt VR_IP_PROTO_UDP cb).st.pulls =
        [(u32 (16 + ((pkt.vp_data : Int) - (skb.data : Int))), true),
          (u32 (30 + ((pkt.vp_data : Int) - (skb.data : Int))), false)]) ∨
     (∃ t, stage_outer P VR_IP_PROTO_UDP (pull_init P skb pkt) = .next t ∧
      t.pulls = [(u32 (16 + ((pkt.vp_data : Int) - (skb.data : Int))), true),
          (u32 (30 + ((pkt.vp_data : Int) - (skb.data : Int))), true)] ∧
      (stage_label P cb t).state.eth = some (pkt.vp_data + 8 + 8) ∧
      (stage_label P cb t).state.pulls = t.pulls ∧
      (stage_label P cb t).state.reason = t.reason)) := by
  rcases stage_outer_vxlan P skb pkt port hport hn with ⟨t, ht, hr, hp⟩ | ⟨t, ht, hm, hpk, hh, hp⟩
  · constructor
    · unfold lh_pull_inner_headers pull_outer_headers
      rw [ht]
      rfl
    · left
      unfold lh_pull_inner_headers pull_outer_headers
      rw [ht]
      simp only [pull_step.bind]
      obtain ⟨_, e2, e3, _, _⟩ := pull_finish_error P (csum_skipped (.error t)) t rfl
      refine ⟨e2, e3.trans hr, ?_⟩
      rw [(pull_finish_verify P _).2.2.2.2.1]
      exact hp
  · constructor
    · unfold lh_pull_inner_headers pull_outer_headers
      rw [ht]
      simp only [pull_step.bind, stage_label_vxlan P cb t hm, stage_label_vxlan P cb1 t hm]
    · right
      refine ⟨t, ht, hp, ?_⟩
      rw [stage_label_vxlan P cb t hm]
      simp [pull_step.state, hpk, hh, sizeof_udphdr, sizeof_vr_vxlan]

theorem vxlan_ignores_classifier_witness :
    lh_pull_inner_headers ex_params (globals_with_mtu 1500) ex_vxlan_frame
        (pkt_at ex_vxlan_frame 20) VR_IP_PROTO_UDP (some ex_cb_reject) =
      lh_pull_inner_headers ex_params (globals_with_mtu 1500) ex_vxlan_frame
        (pkt_at ex_vxlan_frame 20) VR_IP_PROTO_UDP none :=
  (vxlan_ignores_classifier ex_params (globals_with_mtu 1500) ex_vxlan_frame
    (pkt_at ex_vxlan_frame 20) 4789 (some ex_cb_reject) none (by decide) (by decide)).1


/-- C11: `lh_pull_inner_headers` does not size the GRE header from the flag bits:
for every GRE frame the outer header length it uses is `sizeof(struct vr_gre)`,
4 bytes.  On `ex_gre_key_frame`, whose GRE header has the key-present flag set
(key 7) so that the MPLS label entry `0x00010140` stands at outer-header start
+ 8, the classifier is handed the key read at outer-header start + 4 (the frame
is dropped with the echoed value 7), after a single pull of 4 + 8 bytes. -/
theorem gre_header_len_ignores_flags :
    (∀ (P : VrParams) (skb : sk_buff) (pkt : vr_packet),
      (stage_outer P VR_IP_PROTO_GRE (pull_init P skb pkt)).state.hdr_len = sizeof_vr_gre) ∧
    rd16 ex_gre_key_frame.head 20 = 0x2000 ∧
    rd32 ex_gre_key_frame.head (20 + 4 + 4) = 0x00010140 ∧
    rd32 ex_gre_key_frame.head (20 + 4) = 7 ∧
    (lh_pull_inner_headers ex_params (globals_with_mtu 1500) ex_gre_key_frame
      (pkt_at ex_gre_key_frame 20) VR_IP_PROTO_GRE (some ex_cb_echo_label)).reason = 7 ∧
    (lh_pull_inner_headers ex_params (globals_with_mtu 1500) ex_gre_key_frame
      (pkt_at ex_gre_key_frame 20) VR_IP_PROTO_GRE (some ex_cb_echo_label)).st.pulls =
        [(12, true)] := by
  refine ⟨?_, by decide, by decide, by decide, by decide, by decide⟩
  intro P skb pkt
  unfold stage_outer pull_or_error
  simp only [VR_IP_PROTO_GRE, VR_IP_PROTO_UDP, true_or, if_true]
  split <;> simp [pull_step.state, pull_init]


theorem pull_finish_csum_finish (P : VrParams) (G : Globals) (cond : Bool) (t : pull_state)
    (v : Option Int) (ou : Bool) :
    (pull_finish P (csum_finish G cond t v ou)).exit = .success ∧
    (pull_finish P (csum_finish G cond t v ou)).verify = v ∧
    (pull_finish P (csum_finish G cond t v ou)).outer_udp = ou ∧
    (pull_finish P (csum_finish G cond t v ou)).pkt = t.pkt := by
  obtain ⟨skb1, e1, e2, e3⟩ := csum_finish_next G cond t v ou
  obtain ⟨f1, _, f3, _⟩ := pull_finish_next P _ _ e1
  obtain ⟨g1, _, g3, _⟩ := pull_finish_verify P (csum_finish G cond t v ou)
  exact ⟨f1, g1.trans e2, g3.trans e3, f3⟩

/-- C17: in `lh_pull_inner_headers`, when the header walk of a frame whose outer IP
header says UDP reaches the checksum block with an inner IP header, a non-zero
outer UDP checksum and a checksum status that the hardware has not verified,
the one verification called is `lh_csum_verify_udp` on the outer datagram (the
inner transport checksum is not recomputed), and the exit is decided by its
value and the diagnostic sentinel alone: `cksum_err` when it is non-zero and
`th_csum` is not `VR_DIAG_CSUM`, success otherwise, with the packet flagged
diagnostic exactly when it is non-zero under the sentinel (or was flagged). -/
theorem outer_udp_csum_decides (P : VrParams) (G : Globals) (skb : sk_buff) (pkt : vr_packet)
    (ip_proto : Nat) (cb : Option tunnel_type_cb) (s s2 : pull_state) (o : Nat)
    (hs : pull_outer_headers P skb pkt ip_proto cb = .next s)
    (hi : s.iph.isSome ∨ s.ip6h.isSome)
    (h4 : stage_l4 P s = .next s2)
    (hc : s2.udph_cksum ≠ 0)
    (hn : skb_csum_unnecessary skb = false)
    (ho : pkt_network_header (lh_reset_skb_fields s2.skb s2.pkt) = some o)
    (hp : ip_proto_of s2.skb.head o = VR_IP_PROTO_UDP) :
    (lh_pull_inner_headers P G skb pkt ip_proto cb).outer_udp = true ∧
    (lh_pull_inner_headers P G skb pkt ip_proto cb).verify = some (outer_udp_verify s2 o) ∧
    ((lh_pull_inner_headers P G skb pkt ip_proto cb).exit =
      if outer_udp_verify s2 o ≠ 0 ∧ s2.th_csum ≠ P.VR_DIAG_CSUM then .cksum_err
      else .success) ∧
    ((lh_pull_inner_headers P G skb pkt ip_proto cb).exit = .success →
      ((lh_pull_inner_headers P G skb pkt ip_proto cb).pkt.diag = true ↔
        (s2.pkt.diag = true ∨ outer_udp_verify s2 o ≠ 0))) := by
  have hrun : lh_pull_inner_headers P G skb pkt ip_proto cb =
      pull_finish P (stage_csum P G { s2 with pkt := lh_reset_skb_fields s2.skb s2.pkt }) := by
    unfold lh_pull_inner_headers stage_inner
    rw [hs]
    simp only [hi, if_true, h4]
  have h1 := (pull_outer_headers_walk_ok0 P skb pkt ip_proto cb).1
  rw [hs] at h1
  have h2 := (keeps_walk_ok0 _ _ _ _ (stage_l4_keeps P _ _ _ s rfl rfl rfl)).1
  rw [h4] at h2
  simp only [pull_step.state] at h1 h2
  have h3 : skb_csum_unnecessary s2.skb = false := by
    rw [skb_csum_unnecessary_congr s2.skb skb (h2.trans h1)]
    exact hn
  have hv : (lh_csum_verify_udp (skb_pull s2.skb
      (u32 (((lh_reset_skb_fields s2.skb s2.pkt).vp_data : Int) - (s2.skb.data : Int)))) o).1 =
      outer_udp_verify s2 o := rfl
  rw [hrun]
  unfold stage_csum
  simp only [h3, Bool.false_eq_true, if_false, ho, Option.isSome_some, Option.getD_some, hp, hc,
    ne_eq, not_false_eq_true, and_self, if_true, hv]
  by_cases hb : outer_udp_verify s2 o ≠ 0 ∧ s2.th_csum ≠ P.VR_DIAG_CSUM
  · simp only [ne_eq] at hb
    simp only [hb, not_false_eq_true, and_self, if_true, pull_finish]
    simp
  · have hb1 : ¬ (¬ outer_udp_verify s2 o = 0 ∧ ¬ s2.th_csum = P.VR_DIAG_CSUM) := hb
    simp only [hb1, if_false]
    obtain ⟨f1, f2, f3, f4⟩ := pull_finish_csum_finish P G (s2.tcph.isSome && G.vr_to_vm_mss_adj)
      _ (some (outer_udp_verify s2 o)) true
    refine ⟨f3, f2, f1, ?_⟩
    intro _
    rw [f4]
    by_cases hz : outer_udp_verify s2 o = 0
    · simp [hz, lh_reset_skb_fields]
    · simp [hz, vr_pkt_set_diag]

theorem outer_udp_csum_decides_witness :
    (lh_pull_inner_headers ex_params (globals_with_mtu 1500) ex_udp_mpls_frame
      (pkt_at ex_udp_mpls_frame 20) VR_IP_PROTO_UDP (some ex_cb_l3)).outer_udp = true :=
  (outer_udp_csum_decides ex_params (globals_with_mtu 1500) ex_udp_mpls_frame
    (pkt_at ex_udp_mpls_frame 20) VR_IP_PROTO_UDP (some ex_cb_l3)
    (pull_outer_headers ex_params ex_udp_mpls_frame (pkt_at ex_udp_mpls_frame 20)
      VR_IP_PROTO_UDP (some ex_cb_l3)).state
    (stage_l4 ex_params (pull_outer_headers ex_params ex_udp_mpls_frame
      (pkt_at ex_udp_mpls_frame 20) VR_IP_PROTO_UDP (some ex_cb_l3)).state).state
    0 (by decide) (by decide) (by decide) (by decide) (by decide) (by decide) (by decide)).1


theorem pull_or_error_some (s : pull_state) (k : pull_state → pull_step) (skb1 : sk_buff)
    (h : pskb_may_pull s.skb (u32 s.pull_len) = some skb1) :
    pull_or_error s k = k { s with skb := skb1, pulls := s.pulls ++ [(u32 s.pull_len, true)],
                                   gated := s.gated ++ [(u32 s.pull_len, true)],
                                   pulled := max s.pulled (u32 s.pull_len) } := by
  unfold pull_or_error
  rw [h]

theorem pull_or_error_none (s : pull_state) (k : pull_state → pull_step)
    (h : pskb_may_pull s.skb (u32 s.pull_len) = none) :
    pull_or_error s k = .error { s with pulls := s.pulls ++ [(u32 s.pull_len, false)],
                                        gated := s.gated ++ [(u32 s.pull_len, false)] } := by
  unfold pull_or_error
  rw [h]

theorem icmp_ports_pull_len_min (s : pull_state) (hlen : s.skb.len < 4294967296) :
    u32 (icmp_ports_pull_len s).pull_len = min s.skb.len (u32 (s.pull_len + 8)) := by
  unfold icmp_ports_pull_len
  simp only [sizeof_icmphdr, Nat.cast_ofNat]
  by_cases hc : s.skb.len < u32 (s.pull_len + 8)
  · rw [if_pos hc, Nat.min_eq_left (Nat.le_of_lt hc)]
    unfold u32
    omega
  · rw [if_neg hc, Nat.min_eq_right (by omega)]

/-- With an allocator that does not fail, the pull that is not followed by
`goto error` succeeds whenever it is made. -/
theorem icmp_quoted_csum_next (proto : Nat) (s : pull_state) (ha : s.skb.alloc_budget = none) :
    (icmp_quoted_csum proto s).reason = s.reason ∧
    ∃ l, (icmp_quoted_csum proto s).pulls = s.pulls ++ l ∧ all_ok l := by
  refine ⟨(icmp_quoted_csum_fields proto s).1, ?_⟩
  unfold icmp_quoted_csum
  split
  · rename_i hlen
    obtain ⟨skb1, h⟩ := pskb_may_pull_of_le s.skb (u32 s.pull_len) hlen ha
    rw [h]
    dsimp only
    split
    · exact ⟨_, rfl, all_ok_single _⟩
    · split
      · exact ⟨_, rfl, all_ok_single _⟩
      · split
        · exact ⟨_, rfl, all_ok_single _⟩
        · exact ⟨_, rfl, all_ok_single _⟩
  · exact ⟨[], by simp, fun p hp => (by cases hp)⟩

theorem icmp_ports_stage (proto : Nat) (x : pull_state) (r : Nat) (pl : List (Nat × Bool))
    (hlen : x.skb.len < 4294967296) (ha : x.skb.alloc_budget = none) (hr : x.reason = r)
    (hp : x.pulls ++ [(min x.skb.len (u32 (x.pull_len + 8)), true)] = pl) :
    ∃ t l, pull_or_error (icmp_ports_pull_len x) (fun s4 =>
        .next (rederive_iph (icmp_quoted_csum proto
          { s4 with pull_len := s4.pull_len - (sizeof_icmphdr : Int) +
            (icmp_pl_size proto : Int) }))) = .next t ∧
      t.reason = r ∧ all_ok l ∧ t.pulls = pl ++ l := by
  have hn := icmp_ports_pull_len_min x hlen
  obtain ⟨skb4, h4⟩ := pskb_may_pull_of_le (icmp_ports_pull_len x).skb
    (u32 (icmp_ports_pull_len x).pull_len) (by rw [hn]; exact Nat.min_le_left _ _) ha
  have ha4 : skb4.alloc_budget = none := (pskb_may_pull_budget _ _ _ h4).1 ha
  rw [pull_or_error_some _ _ skb4 h4]
  obtain ⟨k1, l, k2, k3⟩ := icmp_quoted_csum_next proto
    { icmp_ports_pull_len x with
      skb := skb4,
      pulls := (icmp_ports_pull_len x).pulls ++ [(u32 (icmp_ports_pull_len x).pull_len, true)],
      gated := (icmp_ports_pull_len x).gated ++ [(u32 (icmp_ports_pull_len x).pull_len, true)],
      pulled := max (icmp_ports_pull_len x).pulled (u32 (icmp_ports_pull_len x).pull_len),
      pull_len := (icmp_ports_pull_len x).pull_len - (sizeof_icmphdr : Int) +
        (icmp_pl_size proto : Int) } ha4
  refine ⟨_, l, rfl, ?_, k3, ?_⟩
  · exact k1.trans hr
  · refine Eq.trans k2 ?_
    rw [← hp, hn]
    rfl

/-- C19: in the inner ICMP error case of `lh_pull_inner_headers`, once the quoted
IPv4 header is present (the pulls of its fixed part and of its options
succeed), and no memory allocation fails, the pull made for the quoted
transport ports asks for exactly min(skb->len, required length) bytes and
succeeds, whatever is left of the quoted transport header: control does not go
to `error`, `*reason` is untouched and no later pull of the case fails. -/
theorem icmp_truncated_quote_pull (P : VrParams) (s : pull_state) (skb2 skb3 : sk_buff)
    (hlen : s.skb.len < 4294967296)
    (ha : s.skb.alloc_budget = none)
    (he : P.vr_icmp_error s.skb.head (s.hoff + s.hlen) = true)
    (h1 : pskb_may_pull s.skb (u32 (s.pull_len + 20)) = some skb2)
    (h2 : pskb_may_pull skb2 (u32 (s.pull_len + 20 +
      ((ip_hl skb2.head (s.hoff + s.hlen + 8) * 4 : Nat) - 20))) = some skb3) :
    ∃ t l, stage_icmp P s = .next t ∧ t.reason = s.reason ∧ all_ok l ∧
      t.pulls = s.pulls ++ [(u32 (s.pull_len + 20), true),
        (u32 (s.pull_len + 20 + ((ip_hl skb2.head (s.hoff + s.hlen + 8) * 4 : Nat) - 20)), true),
        (min s.skb.len (u32 (s.pull_len + 20 +
          ((ip_hl skb2.head (s.hoff + s.hlen + 8) * 4 : Nat) - 20) + 8)), true)] ++ l := by
  have e2 := (pskb_may_pull_some _ _ _ h1).2.1
  have e3 := (pskb_may_pull_some _ _ _ h2).2.1
  have hl3 : skb3.len = s.skb.len := e3.trans e2
  have ha3 : skb3.alloc_budget = none :=
    (pskb_may_pull_budget _ _ _ h2).1 ((pskb_may_pull_budget _ _ _ h1).1 ha)
  unfold stage_icmp
  simp only [he, if_true]
  rw [pull_or_error_some _ _ skb2 h1]
  simp only []
  rw [pull_or_error_some _ _ skb3 h2]
  simp only []
  generalize ip_proto_of _ _ = proto
  refine icmp_ports_stage proto _ _ _ ?_ ha3 rfl ?_
  · show skb3.len < 4294967296
    rw [hl3]
    exact hlen
  · simp [hl3, rederive_iph, sizeof_vr_ip, sizeof_icmphdr]


theorem icmp_truncated_quote_pull_witness :
    (∃ t l, stage_icmp ex_params ex_icmp_trunc_state = .next t ∧ t.reason = 1 ∧ all_ok l ∧
      t.pulls = [(12, true), (28, true), (36, true)] ++
        [(56, true), (56, true), (58, true)] ++ l) ∧
    ex_icmp_trunc_frame.len = 58 ∧
    stage_l4 ex_params (pull_outer_headers ex_params ex_icmp_trunc_frame
      (pkt_at ex_icmp_trunc_frame 20) VR_IP_PROTO_GRE (some ex_cb_l3)).state =
        stage_icmp ex_params ex_icmp_trunc_state ∧
    (lh_pull_inner_headers ex_params (globals_with_mtu 1500) ex_icmp_trunc_frame
      (pkt_at ex_icmp_trunc_frame 20) VR_IP_PROTO_GRE (some ex_cb_l3)).ret = 1 :=
  ⟨icmp_truncated_quote_pull ex_params ex_icmp_trunc_state ex_icmp_trunc_frame
    ex_icmp_trunc_frame (by decide) (by decide) (by decide) (by decide) (by decide),
    by decide, by decide, by decide⟩

/-- C20: on an ICMPv6 error that quotes, in full, a packet whose next header is
ICMP (`ex_icmp6_frame 1`), `lh_pull_inner_headers` pulls the quoted headers and
then reads the quoted checksum through `icmp_pl_iph`, which is `NULL` on this
path: the call ends in an invalid memory access instead of recording a
checksum.  For a quoted TCP header on the same linear frame it records the
field at quoted IPv6 header + 40 + 16. -/
theorem icmp6_quoted_icmp_null_read :
    (lh_pull_inner_headers ex_params (globals_with_mtu 1500) (ex_icmp6_frame VR_IP_PROTO_ICMP)
      (pkt_at (ex_icmp6_frame VR_IP_PROTO_ICMP) 20) VR_IP_PROTO_GRE (some ex_cb_l3)).exit = .fault ∧
    (lh_pull_inner_headers ex_params (globals_with_mtu 1500) (ex_icmp6_frame VR_IP_PROTO_ICMP)
      (pkt_at (ex_icmp6_frame VR_IP_PROTO_ICMP) 20) VR_IP_PROTO_GRE (some ex_cb_l3)).st.pulls =
        [(12, true), (28, true), (56, true), (96, true), (104, true), (104, true)] ∧
    (lh_pull_inner_headers ex_params (globals_with_mtu 1500) (ex_icmp6_frame VR_IP_PROTO_TCP)
      (pkt_at (ex_icmp6_frame VR_IP_PROTO_TCP) 20) VR_IP_PROTO_GRE (some ex_cb_l3)).exit = .success ∧
    (lh_pull_inner_headers ex_params (globals_with_mtu 1500) (ex_icmp6_frame VR_IP_PROTO_TCP)
      (pkt_at (ex_icmp6_frame VR_IP_PROTO_TCP) 20) VR_IP_PROTO_GRE (some ex_cb_l3)).st.th_csum =
        rd16 (ex_icmp6_frame VR_IP_PROTO_TCP).head (28 + 40 + 8 + 40 + 16) := by
  refine ⟨by decide, by decide, by decide, by decide⟩


theorem csum_finish_pkt (G : Globals) (cond : Bool) (s : pull_state) (v : Option Int)
    (ou : Bool) (t : pull_state) (h : (csum_finish G cond s v ou).step = .next t) :
    t.pkt = s.pkt := by
  obtain ⟨skb1, e1, _, _⟩ := csum_finish_next G cond s v ou
  rw [e1] at h
  cases h
  rfl

theorem stage_csum_pkt_inv (P : VrParams) (G : Globals) (s t : pull_state)
    (h : (stage_csum P G s).step = .next t) (hinv : pkt_len_inv s.pkt) : pkt_len_inv t.pkt := by
  have hd : pkt_len_inv (vr_pkt_set_diag s.pkt) := hinv
  unfold stage_csum at h
  split at h
  · cases h; exact hinv
  · dsimp only at h
    split at h
    · split at h
      · cases h
      · have := csum_finish_pkt _ _ _ _ _ _ h
        rw [this]
        dsimp only
        split
        · exact hd
        · exact hinv
    · split at h
      · cases h; exact hinv
      · cases h
      · split at h
        · cases h; exact hinv
        · split at h
          · split at h
            · cases h
            · have := csum_finish_pkt _ _ _ _ _ _ h
              rw [this]
              dsimp only
              split
              · exact hd
              · exact hinv
          · have := csum_finish_pkt _ _ _ _ _ _ h
            rw [this]
            exact hinv

theorem lh_pull_inner_headers_pkt_inv (P : VrParams) (G : Globals) (skb : sk_buff)
    (pkt : vr_packet) (ip_proto : Nat) (cb : Option tunnel_type_cb)
    (h : (lh_pull_inner_headers P G skb pkt ip_proto cb).exit = .success ∨
      (lh_pull_inner_headers P G skb pkt ip_proto cb).exit = .error ∨
      (lh_pull_inner_headers P G skb pkt ip_proto cb).exit = .cksum_err) :
    pkt_len_inv (lh_pull_inner_headers P G skb pkt ip_proto cb).pkt := by
  have hfin : ∀ o : csum_out, (∀ t, o.step = .next t → pkt_len_inv t.pkt) →
      ((pull_finish P o).exit = .success ∨ (pull_finish P o).exit = .error ∨
        (pull_finish P o).exit = .cksum_err) → pkt_len_inv (pull_finish P o).pkt := by
    intro o ho hx
    unfold pull_finish at hx ⊢
    cases hs : o.step with
    | next t => simp only [hs]; exact ho t hs
    | error t => simp only [hs]; rfl
    | cksum_err t => simp only [hs]; rfl
    | fault t => simp [hs] at hx
    | out_of_fuel t => simp [hs] at hx
  unfold lh_pull_inner_headers at h ⊢
  cases ho : pull_outer_headers P skb pkt ip_proto cb with
  | next s =>
    rw [ho] at h
    simp only at h ⊢
    have hs : pkt_len_inv s.pkt := by
      unfold pull_outer_headers at ho
      generalize ((stage_outer P ip_proto (pull_init P skb pkt)).bind (stage_label P cb)).bind
        stage_eth = x at ho
      cases x with
      | next s0 =>
        simp only [pull_step.bind, pull_step.next.injEq] at ho
        rw [← ho]
        rfl
      | error s0 => cases ho
      | cksum_err s0 => cases ho
      | fault s0 => cases ho
      | out_of_fuel s0 => cases ho
    refine hfin _ ?_ h
    intro t ht
    unfold stage_inner at ht
    split at ht
    · cases h4 : stage_l4 P s with
      | next s2 =>
        rw [h4] at ht
        exact stage_csum_pkt_inv P G _ t ht rfl
      | error s2 => rw [h4] at ht; cases ht
      | cksum_err s2 => rw [h4] at ht; cases ht
      | fault s2 => rw [h4] at ht; cases ht
      | out_of_fuel s2 => rw [h4] at ht; cases ht
    · cases ht
      exact hs
  | error s => rw [ho] at h; exact hfin _ (fun t ht => by cases ht) h
  | cksum_err s => rw [ho] at h; exact hfin _ (fun t ht => by cases ht) h
  | fault s => rw [ho] at h; exact hfin _ (fun t ht => by cases ht) h
  | out_of_fuel s => rw [ho] at h; exact hfin _ (fun t ht => by cases ht) h


theorem pskb_may_pull_fixed (skb : sk_buff) (n : Nat) (h : n ≤ skb_headlen skb) :
    pskb_may_pull skb n = some skb := by
  unfold pskb_may_pull
  rw [if_pos h]

/-- C29: `lh_reset_skb_fields` establishes the packet invariant `len = tail - data`
(in `unsigned short` arithmetic) and leaves the data offset alone; hence the
invariant holds after every successful `lh_pkt_may_pull`, which succeeds at
least when the bytes asked for are in the linear part, and on every return of
`lh_pull_inner_headers` (success, `error`, `cksum_err`).  `lh_pexpand_head`
returns `NULL` without a buffer or when the allocation fails; otherwise it
succeeds, moves `skb->data` and `skb->tail` by `hspace`, shifts the data, tail,
network-header and inner-network-header offsets of the packet by `hspace`,
leaves `len` unchanged and keeps the invariant. -/
theorem pkt_len_invariant (P : VrParams) (G : Globals) (skb : sk_buff) (pkt : vr_packet)
    (ip_proto : Nat) (cb : Option tunnel_type_cb) (len hspace : Nat) :
    (pkt_len_inv (lh_reset_skb_fields skb pkt) ∧
      (lh_reset_skb_fields skb pkt).vp_data = pkt.vp_data) ∧
    ((lh_pkt_may_pull skb pkt len).ret = 0 →
      pkt_len_inv (lh_pkt_may_pull skb pkt len).pkt ∧
      (lh_pkt_may_pull skb pkt len).pkt.vp_data = pkt.vp_data) ∧
    (u32 ((pkt.vp_data : Int) - (skb_headroom skb : Int) + (len : Int)) ≤ skb_headlen skb →
      (lh_pkt_may_pull skb pkt len).ret = 0) ∧
    (((lh_pull_inner_headers P G skb pkt ip_proto cb).exit = .success ∨
      (lh_pull_inner_headers P G skb pkt ip_proto cb).exit = .error ∨
      (lh_pull_inner_headers P G skb pkt ip_proto cb).exit = .cksum_err) →
      pkt_len_inv (lh_pull_inner_headers P G skb pkt ip_proto cb).pkt) ∧
    (skb.alloc_budget ≠ some 0 →
      ∃ skb1 pkt1, lh_pexpand_head (some skb) pkt hspace = some (skb1, pkt1) ∧
        skb1.data = skb.data + hspace ∧ skb1.tail = skb.tail + hspace ∧ skb1.len = skb.len ∧
        pkt1.vp_len = pkt.vp_len ∧
        pkt1.vp_data = u16 ((pkt.vp_data : Int) + (hspace : Int)) ∧
        pkt1.vp_tail = u16 ((pkt.vp_tail : Int) + (hspace : Int)) ∧
        pkt1.vp_network_h = u16 ((pkt.vp_network_h : Int) + (hspace : Int)) ∧
        pkt1.vp_inner_network_h = u16 ((pkt.vp_inner_network_h : Int) + (hspace : Int)) ∧
        (pkt_len_inv pkt → pkt_len_inv pkt1)) ∧
    (skb.alloc_budget = some 0 → lh_pexpand_head (some skb) pkt hspace = none) ∧
    lh_pexpand_head none pkt hspace = none := by
  refine ⟨⟨rfl, rfl⟩, ?_, ?_, lh_pull_inner_headers_pkt_inv P G skb pkt ip_proto cb, ?_, ?_, rfl⟩
  · intro h
    unfold lh_pkt_may_pull at h ⊢
    dsimp only at h ⊢
    cases hp : pskb_may_pull skb (u32 ((pkt.vp_data : Int) - (skb_headroom skb : Int) + (len : Int))) with
    | none => rw [hp] at h; simp at h
    | some skb1 => exact ⟨rfl, rfl⟩
  · intro h
    unfold lh_pkt_may_pull
    dsimp only
    rw [pskb_may_pull_fixed _ _ h]
  · intro hb
    have hstep : ∃ b, alloc_step skb.alloc_budget = some b := by
      unfold alloc_step
      cases hk : skb.alloc_budget with
      | none => exact ⟨_, rfl⟩
      | some n =>
        cases n with
        | zero => exact absurd hk hb
        | succ m => exact ⟨_, rfl⟩
    obtain ⟨b, hb1⟩ := hstep
    unfold lh_pexpand_head pskb_expand_head
    simp only [hb1]
    refine ⟨_, _, rfl, rfl, rfl, rfl, rfl, rfl, rfl, rfl, rfl, ?_⟩
    intro hinv
    unfold pkt_len_inv u16 at *
    simp only
    omega
  · intro hb
    unfold lh_pexpand_head pskb_expand_head
    simp only [hb, alloc_step]

theorem pkt_len_invariant_witness :
    pkt_len_inv (lh_pkt_may_pull ex_gre_frame (pkt_at ex_gre_frame 20) 12).pkt ∧
    (lh_pkt_may_pull ex_gre_frame (pkt_at ex_gre_frame 20) 12).ret = 0 ∧
    pkt_len_inv (lh_pull_inner_headers ex_params (globals_with_mtu 1500) ex_gre_frame
      (pkt_at ex_gre_frame 20) VR_IP_PROTO_GRE (some ex_cb_l3)).pkt ∧
    (∃ skb1 pkt1, lh_pexpand_head (some ex_gre_frame) (pkt_at ex_gre_frame 20) 16 =
        some (skb1, pkt1) ∧ skb1.data = 36 ∧ pkt1.vp_data = 36 ∧ pkt1.vp_tail = 92 ∧
        pkt1.vp_len = 56 ∧ pkt_len_inv pkt1) ∧
    lh_pexpand_head (some { ex_gre_frame with alloc_budget := some 0 })
      (pkt_at ex_gre_frame 20) 16 = none :=
  have h := pkt_len_invariant ex_params (globals_with_mtu 1500) ex_gre_frame
    (pkt_at ex_gre_frame 20) VR_IP_PROTO_GRE (some ex_cb_l3) 12 16
  have h0 := pkt_len_invariant ex_params (globals_with_mtu 1500)
    { ex_gre_frame with alloc_budget := some 0 } (pkt_at ex_gre_frame 20) VR_IP_PROTO_GRE
    (some ex_cb_l3) 12 16
  ⟨(h.2.1 (by decide)).1, h.2.2.1 (by decide), h.2.2.2.1 (Or.inl (by decide)),
    (h.2.2.2.2.1 (by decide)).elim fun skb1 hx => hx.elim fun pkt1 hy =>
      ⟨skb1, pkt1, hy.1, hy.2.1.trans (by decide), hy.2.2.2.2.2.1.trans (by decide),
        hy.2.2.2.2.2.2.1.trans (by decide), hy.2.2.2.2.1.trans (by decide),
        hy.2.2.2.2.2.2.2.2.2 (by unfold pkt_len_inv; decide)⟩,
    h0.2.2.2.2.2.1 rfl⟩

theorem mss_trace_result (eth_if : vr_interface) (t : Nat) (skb : sk_buff) (ovl hlen : Nat) :
    ∀ (fuel off : Nat), (lh_adjust_tcp_mss_loop_trace eth_if t skb ovl hlen fuel off).result =
      lh_adjust_tcp_mss_loop eth_if t skb ovl hlen fuel off := by
  intro fuel
  induction fuel with
  | zero => intro off; rfl
  | succ n ih =>
    intro off
    rw [lh_adjust_tcp_mss_loop_trace, lh_adjust_tcp_mss_loop]
    dsimp only
    split
    · split
      · rfl
      · split
        · exact ih _
        · split
          · split
            · rfl
            · split
              · rfl
              · rfl
          · split
            · rfl
            · split
              · exact ih _
              · exact ih _
    · rfl

theorem mss_trace_spec (eth_if : vr_interface) (t : Nat) (skb : sk_buff) (ovl hlen : Nat) :
    ∀ (fuel off : Nat), 20 ≤ off →
      (∀ i ∈ (lh_adjust_tcp_mss_loop_trace eth_if t skb ovl hlen fuel off).accesses,
        i = 12 ∨ i < tcp_doff skb.head t * 4) ∧
      (∀ a ∈ (lh_adjust_tcp_mss_loop_trace eth_if t skb ovl hlen fuel off).iters,
        off ≤ a ∧ a < tcp_doff skb.head t * 4) ∧
      (∀ b ∈ (lh_adjust_tcp_mss_loop_trace eth_if t skb ovl hlen fuel off).iters.head?, b = off) ∧
      List.Chain' (fun a b => a < b ∧ opt_step skb.head t a b)
        (lh_adjust_tcp_mss_loop_trace eth_if t skb ovl hlen fuel off).iters ∧
      (lh_adjust_tcp_mss_loop_trace eth_if t skb ovl hlen fuel off).iters.length ≤
        tcp_doff skb.head t * 4 - off := by
  intro fuel
  induction fuel with
  | zero => intro off _; simp [lh_adjust_tcp_mss_loop_trace]
  | succ n ih =>
    intro off hoff
    rw [lh_adjust_tcp_mss_loop_trace]
    dsimp only
    by_cases h1 : off < tcp_doff skb.head t * 4
    · simp only [h1, if_true]
      by_cases h2 : rd8 skb.head (t + off) = TCPOPT_EOL
      · simp only [h2, if_true]
        simp
        omega
      · simp only [h2, if_false]
        by_cases h3 : rd8 skb.head (t + off) = TCPOPT_NOP
        · simp only [h3, if_true]
          obtain ⟨i1, i2, i3, i4, i5⟩ := ih (off + 1) (by omega)
          refine ⟨?_, ?_, ?_, ?_, ?_⟩
          · intro i hi
            simp only [mss_trace.step, List.mem_append, List.mem_cons, List.mem_singleton,
              List.not_mem_nil, or_false] at hi
            rcases hi with (h | h) | h
            · exact Or.inl h
            · exact Or.inr (by omega)
            · exact i1 i h
          · intro a ha
            simp only [mss_trace.step, List.mem_cons] at ha
            rcases ha with h | h
            · omega
            · have := i2 a h; omega
          · intro b hb
            simpa [mss_trace.step] using hb.symm
          · simp only [mss_trace.step]
            rw [List.chain'_cons']
            refine ⟨?_, i4⟩
            intro b hb
            have := i3 b hb
            subst this
            exact ⟨by omega, by simp [opt_step, h3]⟩
          · simp only [mss_trace.step, List.length_cons]
            omega
        · simp only [h3, if_false]
          by_cases h4 : rd8 skb.head (t + off) = TCPOPT_MSS
          · simp only [h4, if_true]
            by_cases h5 : off + TCPOLEN_MSS > tcp_doff skb.head t * 4
            · simp only [h5, if_true]
              simp
              omega
            · simp only [h5, if_false]
              have h5b : off + 4 ≤ tcp_doff skb.head t * 4 := by
                simp only [TCPOLEN_MSS] at h5; omega
              by_cases h6 : rd8 skb.head (t + off + 1) = TCPOLEN_MSS
              · simp only [h6, ne_eq, not_true_eq_false, if_false]
                refine ⟨?_, by simp; omega, by simp, by simp, by simp; omega⟩
                intro i hi
                simp only [tcp_mss_rewrite_accesses, List.mem_append, List.mem_cons,
                  List.mem_singleton, List.not_mem_nil, or_false] at hi
                rcases hi with h | h
                · omega
                · rcases h with h | h
                  · omega
                  · revert h
                    cases eth_if.vif_os with
                    | none => simp
                    | some dev =>
                      simp only
                      split
                      · intro h
                        simp only [List.mem_append, List.mem_cons, List.mem_singleton,
                          List.not_mem_nil, or_false] at h
                        rcases h with h | h
                        · omega
                        · split at h
                          · simp at h; omega
                          · simp at h
                      · simp
              · simp only [h6, ne_eq, not_false_eq_true, if_true]
                simp
                omega
          · simp only [h4, if_false]
            by_cases h5 : off + 1 = tcp_doff skb.head t * 4
            · simp only [h5, if_true]
              simp
              omega
            · simp only [h5, if_false]
              by_cases h6 : rd8 skb.head (t + off + 1) = 0
              · simp only [h6, ne_eq, not_true_eq_false, if_false]
                obtain ⟨i1, i2, i3, i4, i5⟩ := ih (off + 1) (by omega)
                refine ⟨?_, ?_, ?_, ?_, ?_⟩
                · intro i hi
                  simp only [mss_trace.step, List.mem_append, List.mem_cons, List.mem_singleton,
                    List.not_mem_nil, or_false] at hi
                  rcases hi with (h | h | h | h) | h
                  · exact Or.inl h
                  · exact Or.inr (by omega)
                  · exact Or.inl h
                  · exact Or.inr (by omega)
                  · exact i1 i h
                · intro a ha
                  simp only [mss_trace.step, List.mem_cons] at ha
                  rcases ha with h | h
                  · omega
                  · have := i2 a h; omega
                · intro b hb
                  simpa [mss_trace.step] using hb.symm
                · simp only [mss_trace.step]
                  rw [List.chain'_cons']
                  refine ⟨?_, i4⟩
                  intro b hb
                  have := i3 b hb
                  subst this
                  exact ⟨by omega, by simp [opt_step, h3, h6]⟩
                · simp only [mss_trace.step, List.length_cons]
                  omega
              · simp only [h6, ne_eq, not_false_eq_true, if_true]
                obtain ⟨i1, i2, i3, i4, i5⟩ := ih (off + rd8 skb.head (t + off + 1)) (by omega)
                refine ⟨?_, ?_, ?_, ?_, ?_⟩
                · intro i hi
                  simp only [mss_trace.step, List.mem_append, List.mem_cons, List.mem_singleton,
                    List.not_mem_nil, or_false] at hi
                  rcases hi with (h | h | h | h) | h
                  · exact Or.inl h
                  · exact Or.inr (by omega)
                  · exact Or.inl h
                  · exact Or.inr (by omega)
                  · exact i1 i h
                · intro a ha
                  simp only [mss_trace.step, List.mem_cons] at ha
                  rcases ha with h | h
                  · omega
                  · have := i2 a h; omega
                · intro b hb
                  simpa [mss_trace.step] using hb.symm
                · simp only [mss_trace.step]
                  rw [List.chain'_cons']
                  refine ⟨?_, i4⟩
                  intro b hb
                  have := i3 b hb
                  subst this
                  exact ⟨by omega, by simp [opt_step, h3, h6]⟩
                · simp only [mss_trace.step, List.length_cons]
                  omega
    · simp only [h1, if_false]
      simp

theorem lh_adjust_tcp_mss_loop_fuel (eth_if : vr_interface) (t : Nat) (skb : sk_buff)
    (ovl hlen : Nat) : ∀ (f1 f2 off : Nat), tcp_doff skb.head t * 4 ≤ off + f1 →
    tcp_doff skb.head t * 4 ≤ off + f2 →
    lh_adjust_tcp_mss_loop eth_if t skb ovl hlen (f1 + 1) off =
      lh_adjust_tcp_mss_loop eth_if t skb ovl hlen (f2 + 1) off := by
  intro f1
  induction f1 with
  | zero =>
    intro f2 off h _
    have h1 : ¬ off < tcp_doff skb.head t * 4 := by omega
    conv_lhs => rw [lh_adjust_tcp_mss_loop]
    conv_rhs => rw [lh_adjust_tcp_mss_loop]
    simp [h1]
  | succ n ih =>
    intro f2 off h hf2
    by_cases h1 : off < tcp_doff skb.head t * 4
    · obtain ⟨m, rfl⟩ : ∃ m, f2 = m + 1 := ⟨f2 - 1, by omega⟩
      conv_lhs => rw [lh_adjust_tcp_mss_loop]
      conv_rhs => rw [lh_adjust_tcp_mss_loop]
      simp only [h1, if_true]
      split
      · rfl
      · split
        · exact ih m _ (by omega) (by omega)
        · split
          · rfl
          · split
            · rfl
            · split
              · rename_i h6
                have : 0 < rd8 skb.head (t + off + 1) := Nat.pos_of_ne_zero h6
                exact ih m _ (by omega) (by omega)
              · exact ih m _ (by omega) (by omega)
    · conv_lhs => rw [lh_adjust_tcp_mss_loop]
      conv_rhs => rw [lh_adjust_tcp_mss_loop]
      simp [h1]


/-- C24: the option walk of `lh_adjust_tcp_mss` terminates for every header
content: with any fuel of at least 41 loop tests the loop returns, with the
result it gives for 41 (so the body runs at most 40 times), and
`lh_adjust_tcp_mss` returns; the offsets with which the body runs start at 20,
stay below `doff*4`, are at most 40 in number, and each is followed by a
strictly larger one: one more after a NOP, the declared length more after
another option, one more when the declared length is 0. -/
theorem tcp_option_walk_terminates (G : Globals) (eth_if : vr_interface) (t : Nat)
    (skb : sk_buff) (ovl hlen fuel : Nat) (hf : 41 ≤ fuel) :
    (∃ r, lh_adjust_tcp_mss_loop eth_if t skb ovl hlen fuel sizeof_tcphdr = some r ∧
      lh_adjust_tcp_mss_loop eth_if t skb ovl hlen 41 sizeof_tcphdr = some r) ∧
    (∃ skb1, lh_adjust_tcp_mss G (some t) skb ovl hlen = some skb1) ∧
    (lh_adjust_tcp_mss_loop_trace eth_if t skb ovl hlen fuel sizeof_tcphdr).result =
      lh_adjust_tcp_mss_loop eth_if t skb ovl hlen fuel sizeof_tcphdr ∧
    (lh_adjust_tcp_mss_loop_trace eth_if t skb ovl hlen fuel sizeof_tcphdr).iters.length ≤ 40 ∧
    List.Chain' (fun a b => a < b ∧ opt_step skb.head t a b)
      (lh_adjust_tcp_mss_loop_trace eth_if t skb ovl hlen fuel sizeof_tcphdr).iters ∧
    (∀ a ∈ (lh_adjust_tcp_mss_loop_trace eth_if t skb ovl hlen fuel sizeof_tcphdr).iters,
      sizeof_tcphdr ≤ a ∧ a < tcp_doff skb.head t * 4) := by
  have hd := tcp_doff_le skb.head t
  obtain ⟨m, rfl⟩ : ∃ m, fuel = m + 1 := ⟨fuel - 1, by omega⟩
  obtain ⟨_, i2, _, i4, i5⟩ := mss_trace_spec eth_if t skb ovl hlen (m + 1) sizeof_tcphdr
    (by simp [sizeof_tcphdr])
  refine ⟨?_, lh_adjust_tcp_mss_returns G (some t) skb ovl hlen,
    mss_trace_result eth_if t skb ovl hlen _ _, ?_, i4, i2⟩
  · have e := lh_adjust_tcp_mss_loop_fuel eth_if t skb ovl hlen m 40 sizeof_tcphdr
      (by simp only [sizeof_tcphdr]; omega) (by simp only [sizeof_tcphdr]; omega)
    have e2 := lh_adjust_tcp_mss_loop_eq eth_if t skb ovl hlen m sizeof_tcphdr
      (by simp only [sizeof_tcphdr]; omega)
    rw [← e]
    rw [e2]
    cases mss_option_reached skb.head t (m + 1) sizeof_tcphdr with
    | none => exact ⟨_, rfl, rfl⟩
    | some o => exact ⟨_, rfl, rfl⟩
  · simp only [sizeof_tcphdr] at i5
    simp only [sizeof_tcphdr]
    omega

theorem tcp_option_walk_terminates_witness :
    (lh_adjust_tcp_mss_loop_trace ex_eth_if 0 (linear_skb ex_syn_odd CHECKSUM_NONE) 58 20 64
      sizeof_tcphdr).iters.length ≤ 40 :=
  (tcp_option_walk_terminates (globals_with_mtu 1500) ex_eth_if 0
    (linear_skb ex_syn_odd CHECKSUM_NONE) 58 20 64 (by decide)).2.2.2.1

/-- C26 (as stated, refuted): on a SYN header whose data offset field is 0 the
header length `doff*4` is 0, and `lh_adjust_tcp_mss` still reads the flag `syn`
in byte 13 and the field `doff` in byte 12. -/
theorem mss_reads_fixed_fields_past_doff :
    tcp_doff (linear_skb ex_tcp_doff0 CHECKSUM_NONE).head 0 * 4 = 0 ∧
    lh_adjust_tcp_mss_accesses (globals_with_mtu 1500) (some 0)
      (linear_skb ex_tcp_doff0 CHECKSUM_NONE) 58 20 = [13, 12] := by
  refine ⟨by decide, by decide⟩

/-- C26 (amended): every byte index of the TCP header that `lh_adjust_tcp_mss` reads
or writes is that of the fixed fields `doff` (12) and `syn` (13) or is strictly
less than `doff*4`, for every header content; in particular every index in the
option area is below `doff*4`. -/
theorem mss_accesses_inside_header (G : Globals) (t : Nat) (skb : sk_buff) (ovl hlen : Nat)
    (i : Nat) (hi : i ∈ lh_adjust_tcp_mss_accesses G (some t) skb ovl hlen) :
    (i = 12 ∨ i = 13 ∨ i < tcp_doff skb.head t * 4) ∧
    (sizeof_tcphdr ≤ i → i < tcp_doff skb.head t * 4) := by
  have key : i = 12 ∨ i = 13 ∨ i < tcp_doff skb.head t * 4 := by
    unfold lh_adjust_tcp_mss_accesses at hi
    cases hr : G.router with
    | none =>
      rw [hr] at hi
      simp at hi
      exact Or.inr (Or.inl hi)
    | some router =>
      rw [hr] at hi
      simp only at hi
      split at hi
      · simp at hi
        exact Or.inr (Or.inl hi)
      · cases he : router.vr_eth_if with
        | none =>
          rw [he] at hi
          simp at hi
          exact Or.inr (Or.inl hi)
        | some eth_if =>
          rw [he] at hi
          simp only [List.mem_cons] at hi
          rcases hi with h | h
          · exact Or.inr (Or.inl h)
          · rcases (mss_trace_spec eth_if t skb ovl hlen 64 sizeof_tcphdr
              (by simp [sizeof_tcphdr])).1 i h with h1 | h1
            · exact Or.inl h1
            · exact Or.inr (Or.inr h1)
  refine ⟨key, ?_⟩
  intro h20
  simp only [sizeof_tcphdr] at h20
  omega

theorem mss_accesses_inside_header_witness :
    (23 = 12 ∨ 23 = 13 ∨ 23 < tcp_doff (linear_skb ex_syn_odd CHECKSUM_NONE).head 0 * 4) ∧
    (sizeof_tcphdr ≤ 23 → 23 < tcp_doff (linear_skb ex_syn_odd CHECKSUM_NONE).head 0 * 4) :=
  mss_accesses_inside_header (globals_with_mtu 1500) 0 (linear_skb ex_syn_odd CHECKSUM_NONE)
    58 20 23 (by decide)


theorem seg_offset_zero (segs : List pkt_seg) : seg_offset segs 0 = 0 := by
  simp [seg_offset]

theorem seg_offset_cons (f : pkt_seg) (rest : List pkt_seg) (k : Nat) :
    seg_offset (f :: rest) (k + 1) = f.vp_end + seg_offset rest k := by
  simp [seg_offset]

theorem frag_list_walk_spec : ∀ (segs : List pkt_seg) (off : Nat), off < 65536 →
    (∀ k seg, segs[k]? = some seg → seg_offset segs k ≤ off → off < seg_offset segs (k + 1) →
      frag_list_walk segs off = some (seg.vp_head + (off - seg_offset segs k))) ∧
    (frag_list_walk segs off = none ↔ seg_offset segs segs.length ≤ off) := by
  intro segs
  induction segs with
  | nil =>
    intro off _
    simp [frag_list_walk, seg_offset]
  | cons f rest ih =>
    intro off hoff
    by_cases h : off < f.vp_end
    · constructor
      · intro k seg hk h1 h2
        cases k with
        | zero =>
          simp only [List.getElem?_cons_zero, Option.some.injEq] at hk
          subst hk
          simp [frag_list_walk, h, seg_offset_zero]
        | succ n =>
          rw [seg_offset_cons] at h1
          omega
      · simp only [frag_list_walk, h, if_true, List.length_cons, seg_offset_cons]
        constructor
        · intro hc; cases hc
        · intro hc; omega
    · have e : u16 ((off : Int) - (f.vp_end : Int)) = off - f.vp_end := by
        unfold u16; omega
      obtain ⟨i1, i2⟩ := ih (off - f.vp_end) (by omega)
      constructor
      · intro k seg hk h1 h2
        cases k with
        | zero =>
          rw [seg_offset_cons, seg_offset_zero] at h2
          omega
        | succ n =>
          simp only [List.getElem?_cons_succ] at hk
          rw [seg_offset_cons] at h1 h2
          simp only [frag_list_walk, h, if_false, e]
          rw [i1 n seg hk (by omega) (by omega), seg_offset_cons]
          congr 2
          omega
      · simp only [frag_list_walk, h, if_false, e, List.length_cons, seg_offset_cons]
        rw [i2]
        omega

theorem lh_data_at_offset_eq_walk (pkt : vr_packet) (chain : List pkt_seg) (off : Nat) :
    lh_data_at_offset pkt chain off = frag_list_walk (pkt_segments pkt chain) off := rfl

/-- C18: for a packet whose head segment has capacity `e0` and whose chained
segments have capacities `e1, e2, ...`, and every `unsigned short` offset
`off`, `lh_data_at_offset` returns `base_k + (off - (e0 + ... + e_{k-1}))` for
the index `k` with `e0 + ... + e_{k-1} ≤ off < e0 + ... + e_k` (the least index
whose running sum exceeds `off`), and returns `NULL` exactly when `off` is at
least the sum of all capacities. -/
theorem lh_data_at_offset_spec (pkt : vr_packet) (chain : List pkt_seg) (off : Nat)
    (hoff : off < 65536) :
    (∀ k seg, (pkt_segments pkt chain)[k]? = some seg →
      seg_offset (pkt_segments pkt chain) k ≤ off →
      off < seg_offset (pkt_segments pkt chain) (k + 1) →
      lh_data_at_offset pkt chain off =
        some (seg.vp_head + (off - seg_offset (pkt_segments pkt chain) k))) ∧
    (lh_data_at_offset pkt chain off = none ↔
      seg_offset (pkt_segments pkt chain) (pkt_segments pkt chain).length ≤ off) := by
  rw [lh_data_at_offset_eq_walk]
  exact frag_list_walk_spec (pkt_segments pkt chain) off hoff

theorem lh_data_at_offset_spec_witness :
    lh_data_at_offset (pkt_at ex_inner_syn 0) [⟨1000, 30⟩, ⟨2000, 50⟩] 80 = some (2000 + (80 - 74)) :=
  (lh_data_at_offset_spec (pkt_at ex_inner_syn 0) [⟨1000, 30⟩, ⟨2000, 50⟩] 80 (by decide)).1
    2 ⟨2000, 50⟩ (by decide) (by decide) (by decide)

/-- C27 (the code at the failing input): with the inner network header at offset 34
of a head segment of capacity 44, `lh_data_at_offset` returns the address
`vp_head + 34`, and so does the sibling `lh_network_header` for a network
header at that offset, while `lh_inner_network_header`, which lacks the test
for the head segment, returns `NULL` when there is no chained segment and, the
`unsigned short` offset having wrapped to 65526, an address inside the chained
segment when one of that capacity follows. -/
theorem inner_network_header_in_head_differs :
    lh_data_at_offset { pkt_at ex_inner_syn 0 with vp_inner_network_h := 34 } [] 34 = some 34 ∧
    lh_inner_network_header { pkt_at ex_inner_syn 0 with vp_inner_network_h := 34 } [] = none ∧
    lh_network_header { pkt_at ex_inner_syn 0 with vp_network_h := 34 } [] = some 34 ∧
    lh_data_at_offset { pkt_at ex_inner_syn 0 with vp_inner_network_h := 34 } [⟨1000, 65535⟩] 34 =
      some 34 ∧
    lh_inner_network_header { pkt_at ex_inner_syn 0 with vp_inner_network_h := 34 }
      [⟨1000, 65535⟩] = some (1000 + 65526) := by
  refine ⟨by decide, by decide, by decide, by decide, by decide⟩

/-- Where the inner network header is not inside the head segment
(`vp_end ≤ vp_inner_network_h`), `lh_inner_network_header(pkt)` returns the
same address as `lh_data_at_offset(pkt, pkt->vp_inner_network_h)`;
`lh_network_header(pkt)` agrees with `lh_data_at_offset(pkt, pkt->vp_network_h)`
for every offset. -/
theorem inner_network_header_eq_data_at_offset (pkt : vr_packet) (chain : List pkt_seg)
    (h : pkt.vp_end ≤ pkt.vp_inner_network_h) :
    lh_inner_network_header pkt chain = lh_data_at_offset pkt chain pkt.vp_inner_network_h ∧
    lh_network_header pkt chain = lh_data_at_offset pkt chain pkt.vp_network_h := by
  constructor
  · unfold lh_inner_network_header lh_data_at_offset
    rw [if_neg (by omega)]
  · rfl

theorem inner_network_header_eq_data_at_offset_witness :
    lh_inner_network_header { pkt_at ex_inner_syn 0 with vp_inner_network_h := 50 } [⟨1000, 30⟩] =
      lh_data_at_offset { pkt_at ex_inner_syn 0 with vp_inner_network_h := 50 } [⟨1000, 30⟩] 50 :=
  (inner_network_header_eq_data_at_offset
    { pkt_at ex_inner_syn 0 with vp_inner_network_h := 50 } [⟨1000, 30⟩] (by decide)).1


/-- The port computed from a hash value lies in the dynamic port range and the
branch `port > port_range` is not taken. -/
theorem port_of_hash_range (Q : PortParams) (hashval : Nat)
    (h0 : 0 < Q.VR_MUDP_PORT_RANGE_START)
    (h1 : Q.VR_MUDP_PORT_RANGE_START < Q.VR_MUDP_PORT_RANGE_END)
    (h2 : Q.VR_MUDP_PORT_RANGE_END ≤ 65535) :
    (port_of_hash Q hashval).2 = .hashed ∧
    Q.VR_MUDP_PORT_RANGE_START ≤ (port_of_hash Q hashval).1 ∧
    (port_of_hash Q hashval).1 < Q.VR_MUDP_PORT_RANGE_END := by
  have hpr : u32 ((Q.VR_MUDP_PORT_RANGE_END : Int) - (Q.VR_MUDP_PORT_RANGE_START : Int)) =
      Q.VR_MUDP_PORT_RANGE_END - Q.VR_MUDP_PORT_RANGE_START := by
    unfold u32; omega
  unfold port_of_hash
  simp only [hpr]
  generalize hpr2 : Q.VR_MUDP_PORT_RANGE_END - Q.VR_MUDP_PORT_RANGE_START = pr
  have ha : hashval % 4294967296 < 4294967296 := Nat.mod_lt _ (by decide)
  generalize hashval % 4294967296 = a at ha
  have hprpos : 0 < pr := by omega
  have hprod : a * pr < 4294967296 * pr := Nat.mul_lt_mul_of_pos_right ha hprpos
  have hq : a * pr / 4294967296 < pr := Nat.div_lt_of_lt_mul hprod
  have hbig : a * pr < 18446744073709551616 := by
    have : 4294967296 * pr ≤ 4294967296 * 65535 := Nat.mul_le_mul_left _ (by omega)
    omega
  rw [Nat.mod_eq_of_lt hbig]
  generalize a * pr / 4294967296 = q at hq
  have hq2 : q % 65536 = q := Nat.mod_eq_of_lt (by omega)
  rw [hq2]
  have hng : ¬ q > pr := by omega
  simp only [hng, if_false]
  refine ⟨trivial, ?_, ?_⟩ <;> omega

theorem port_ip_tail_shape (P : VrParams) (Q : PortParams) (skb : sk_buff) (pkt : vr_packet)
    (pull_len : Int) (pulls : List (Nat × Bool)) (fentry : Option Nat)
    (frag : Option (Nat × Nat)) (vrf : Nat) :
    port_shape Q fentry (port_ip_tail P Q skb pkt pull_len pulls fentry frag vrf) := by
  unfold port_ip_tail port_shape
  cases fentry with
  | some p =>
    dsimp only
    repeat' split
    all_goals first
      | exact Or.inl ⟨rfl, rfl⟩
      | exact Or.inr (Or.inl ⟨rfl, p, rfl, rfl⟩)
  | none =>
    dsimp only
    repeat' split
    all_goals first
      | exact Or.inl ⟨rfl, rfl⟩
      | exact Or.inr (Or.inr ⟨_, rfl, rfl⟩)

theorem lh_get_udp_src_port_shape (P : VrParams) (Q : PortParams) (skb : sk_buff)
    (pkt : vr_packet) (fentry : Option Nat) (frag : Option (Nat × Nat)) (vrf : Nat) :
    port_shape Q fentry (lh_get_udp_src_port P Q skb pkt fentry frag vrf) := by
  unfold lh_get_udp_src_port
  dsimp only
  repeat' split
  all_goals first
    | exact port_ip_tail_shape _ _ _ _ _ _ _ _ _
    | exact Or.inl ⟨rfl, rfl⟩
    | exact Or.inr (Or.inr ⟨_, rfl, rfl⟩)


/-- C23 (as stated, refuted): with a flow entry whose `fe_udp_src_port` is 0,
`lh_get_udp_src_port` returns 0 through `return fentry->fe_udp_src_port`,
which is not the error path. -/
theorem udp_src_port_zero_from_flow_entry :
    (lh_get_udp_src_port ex_params (ex_port_params false) ex_inner_syn
      { pkt_at ex_inner_syn 0 with vp_type := 1 } (some 0) none 5).ret = 0 ∧
    (lh_get_udp_src_port ex_params (ex_port_params false) ex_inner_syn
      { pkt_at ex_inner_syn 0 with vp_type := 1 } (some 0) none 5).path = .flow_entry := by
  refine ⟨by decide, by decide⟩

/-- C23 (amended): given `0 < START < END ≤ 65535`, for every 32-bit hash value
the port `lh_get_udp_src_port` computes on its hashing path lies in
`[VR_MUDP_PORT_RANGE_START, VR_MUDP_PORT_RANGE_END)` and is not 0; the branch
`port > port_range` is never taken; and a return value of 0 occurs only on
the error path or when the port stored in the flow entry is 0. -/
theorem udp_src_port_in_range (P : VrParams) (Q : PortParams) (skb : sk_buff) (pkt : vr_packet)
    (fentry : Option Nat) (frag : Option (Nat × Nat)) (vrf hashval : Nat)
    (h0 : 0 < Q.VR_MUDP_PORT_RANGE_START)
    (h1 : Q.VR_MUDP_PORT_RANGE_START < Q.VR_MUDP_PORT_RANGE_END)
    (h2 : Q.VR_MUDP_PORT_RANGE_END ≤ 65535) :
    ((port_of_hash Q hashval).2 = .hashed ∧
      Q.VR_MUDP_PORT_RANGE_START ≤ (port_of_hash Q hashval).1 ∧
      (port_of_hash Q hashval).1 < Q.VR_MUDP_PORT_RANGE_END ∧
      (port_of_hash Q hashval).1 ≠ 0) ∧
    (lh_get_udp_src_port P Q skb pkt fentry frag vrf).path ≠ .fallback ∧
    ((lh_get_udp_src_port P Q skb pkt fentry frag vrf).path = .hashed →
      Q.VR_MUDP_PORT_RANGE_START ≤ (lh_get_udp_src_port P Q skb pkt fentry frag vrf).ret ∧
      (lh_get_udp_src_port P Q skb pkt fentry frag vrf).ret < Q.VR_MUDP_PORT_RANGE_END) ∧
    ((lh_get_udp_src_port P Q skb pkt fentry frag vrf).ret = 0 →
      (lh_get_udp_src_port P Q skb pkt fentry frag vrf).path = .error ∨
      ((lh_get_udp_src_port P Q skb pkt fentry frag vrf).path = .flow_entry ∧
        ∃ p, fentry = some p ∧ p % 65536 = 0)) := by
  obtain ⟨r1, r2, r3⟩ := port_of_hash_range Q hashval h0 h1 h2
  refine ⟨⟨r1, r2, r3, by omega⟩, ?_⟩
  rcases lh_get_udp_src_port_shape P Q skb pkt fentry frag vrf with
    ⟨hp, hr⟩ | ⟨hp, p, hf, hr⟩ | ⟨h, hr, hp⟩
  · rw [hp]
    exact ⟨by simp, by simp, fun _ => Or.inl rfl⟩
  · rw [hp, hr]
    exact ⟨by simp, by simp, fun hz => Or.inr ⟨rfl, p, hf, hz⟩⟩
  · obtain ⟨q1, q2, q3⟩ := port_of_hash_range Q h h0 h1 h2
    rw [hp, hr, q1]
    exact ⟨by simp, fun _ => ⟨q2, q3⟩, fun hz => by omega⟩

theorem udp_src_port_in_range_witness :
    (lh_get_udp_src_port ex_params (ex_port_params false) ex_paged_ip_skb (ex_paged_ip_pkt 14)
      none none 5).path ≠ .fallback :=
  (udp_src_port_in_range ex_params (ex_port_params false) ex_paged_ip_skb (ex_paged_ip_pkt 14)
    none none 5 0 (by decide) (by decide) (by decide)).2.1

/-- C30: the test of the tails in `lh_get_udp_src_port` on `ex_paged_ip_skb`, whose
IPv4 header lies beyond the packet tail.  Without `NET_SKBUFF_DATA_USES_OFFSET`
differing tails give the error return with no pull and equal tails pull the
header (34 bytes) first.  With `NET_SKBUFF_DATA_USES_OFFSET` the `goto error`
is missing from the branch, so the `if` governs the pull: differing tails pull
and carry on to a port, equal tails read the header without any pull. -/
theorem udp_src_port_tail_test_by_config :
    ((lh_get_udp_src_port ex_params (ex_port_params false) ex_paged_ip_skb (ex_paged_ip_pkt 10)
        none none 5).path = .error ∧
      (lh_get_udp_src_port ex_params (ex_port_params false) ex_paged_ip_skb (ex_paged_ip_pkt 10)
        none none 5).pulls = [] ∧
      (lh_get_udp_src_port ex_params (ex_port_params false) ex_paged_ip_skb (ex_paged_ip_pkt 14)
        none none 5).pulls = [(34, true), (38, true)]) ∧
    ((lh_get_udp_src_port ex_params (ex_port_params true) ex_paged_ip_skb (ex_paged_ip_pkt 10)
        none none 5).path = .hashed ∧
      (lh_get_udp_src_port ex_params (ex_port_params true) ex_paged_ip_skb (ex_paged_ip_pkt 10)
        none none 5).pulls = [(34, true), (38, true)] ∧
      (lh_get_udp_src_port ex_params (ex_port_params true) ex_paged_ip_skb (ex_paged_ip_pkt 10)
        none none 5).ret ≠ 0 ∧
      (lh_get_udp_src_port ex_params (ex_port_params true) ex_paged_ip_skb (ex_paged_ip_pkt 14)
        none none 5).path = .hashed ∧
      (lh_get_udp_src_port ex_params (ex_port_params true) ex_paged_ip_skb (ex_paged_ip_pkt 14)
        none none 5).pulls = []) := by
  refine ⟨⟨by decide, by decide, by decide⟩, by decide, by decide, by decide, by decide, by decide⟩


/-- C14: on `ex_fast_udp_diag`, a frame of fast-path shape (UDP header in the linear
part, one page) whose outer UDP checksum is wrong and whose inner UDP checksum
is the sentinel `VR_DIAG_CSUM`, the two paths disagree: the fast path goes to
`cksum_err` (`*ret = PKT_RET_ERROR`) without flagging the packet, the general
path flags the packet diagnostic and returns 1. -/
theorem fast_and_general_disagree_on_diag :
    (lh_pull_inner_headers_fast ex_params ex_fast_params ex_fast_udp_diag
      (paged_pkt ex_fast_udp_diag) VR_IP_PROTO_UDP (some ex_cb_l3) 0).exit = .cksum_err ∧
    (lh_pull_inner_headers_fast ex_params ex_fast_params ex_fast_udp_diag
      (paged_pkt ex_fast_udp_diag) VR_IP_PROTO_UDP (some ex_cb_l3) 0).ret =
        some ex_fast_params.PKT_RET_ERROR ∧
    (lh_pull_inner_headers_fast ex_params ex_fast_params ex_fast_udp_diag
      (paged_pkt ex_fast_udp_diag) VR_IP_PROTO_UDP (some ex_cb_l3) 0).pkt.diag = false ∧
    (lh_pull_inner_headers ex_params (globals_with_mtu 1500) ex_fast_udp_diag
      (paged_pkt ex_fast_udp_diag) VR_IP_PROTO_UDP (some ex_cb_l3)).exit = .success ∧
    (lh_pull_inner_headers ex_params (globals_with_mtu 1500) ex_fast_udp_diag
      (paged_pkt ex_fast_udp_diag) VR_IP_PROTO_UDP (some ex_cb_l3)).pkt.diag = true ∧
    (lh_pull_inner_headers ex_params (globals_with_mtu 1500) ex_fast_udp_diag
      (paged_pkt ex_fast_udp_diag) VR_IP_PROTO_UDP (some ex_cb_l3)).verify = some (-1) ∧
    (lh_pull_inner_headers ex_params (globals_with_mtu 1500) ex_fast_udp_diag
      (paged_pkt ex_fast_udp_diag) VR_IP_PROTO_UDP (some ex_cb_l3)).st.th_csum =
        ex_params.VR_DIAG_CSUM := by
  refine ⟨by decide, by decide, by decide, by decide, by decide, by decide, by decide⟩

/-- C16: on `ex_fast_udp_badtcp CHECKSUM_UNNECESSARY`, a frame received with the
checksum already verified by the hardware, with outer UDP checksum 0 and an
inner TCP segment whose checksum field is wrong, the UDP fast path recomputes
the inner checksum (`lh_csum_verify_fast` returns -1) and sets
`*ret = PKT_RET_ERROR`; the GRE fast path on the same inner packet verifies
nothing and returns `PKT_RET_FAST_PATH`. -/
theorem fast_udp_verifies_despite_unnecessary :
    skb_csum_unnecessary (ex_fast_udp_badtcp CHECKSUM_UNNECESSARY) = true ∧
    (lh_pull_inner_headers_fast_udp ex_params ex_fast_params
      (ex_fast_udp_badtcp CHECKSUM_UNNECESSARY) (paged_pkt (ex_fast_udp_badtcp CHECKSUM_UNNECESSARY))
      (some ex_cb_l3) 0).verify = some (-1) ∧
    (lh_pull_inner_headers_fast_udp ex_params ex_fast_params
      (ex_fast_udp_badtcp CHECKSUM_UNNECESSARY) (paged_pkt (ex_fast_udp_badtcp CHECKSUM_UNNECESSARY))
      (some ex_cb_l3) 0).ret = some ex_fast_params.PKT_RET_ERROR ∧
    (lh_pull_inner_headers_fast_gre ex_params ex_fast_params
      (ex_fast_gre_badtcp CHECKSUM_UNNECESSARY) (paged_pkt (ex_fast_gre_badtcp CHECKSUM_UNNECESSARY))
      (some ex_cb_l3) 0).verify = none ∧
    (lh_pull_inner_headers_fast_gre ex_params ex_fast_params
      (ex_fast_gre_badtcp CHECKSUM_UNNECESSARY) (paged_pkt (ex_fast_gre_badtcp CHECKSUM_UNNECESSARY))
      (some ex_cb_l3) 0).ret = some ex_fast_params.PKT_RET_FAST_PATH := by
  refine ⟨by decide, by decide, by decide, by decide, by decide⟩

/-- C28: on frames whose inner IPv4 protocol makes `vr_ip_transport_parse` report
`PKT_RET_UNHANDLED`, the UDP fast path returns 0 with the buffer untouched,
while the GRE fast path, which tests `helper_ret` a second time instead of
`parse_ret`, copies 24 bytes into the linear part, moves the packet data offset
and returns 1 with `PKT_RET_FAST_PATH`. -/
theorem fast_gre_ignores_parse_unhandled :
    (ex_fast_params.vr_ip_transport_parse ([0, 1, 1, 64] ++ ex_inner_ip 47 28 ++
      [0, 0, 8, 0, 1, 2, 3, 4]) (some 4) none 32 24).ret = ex_fast_params.PKT_RET_UNHANDLED ∧
    (lh_pull_inner_headers_fast_udp ex_params ex_fast_params ex_fast_udp_other
      (paged_pkt ex_fast_udp_other) (some ex_cb_l3) 0).retval = 0 ∧
    (lh_pull_inner_headers_fast_udp ex_params ex_fast_params ex_fast_udp_other
      (paged_pkt ex_fast_udp_other) (some ex_cb_l3) 0).skb = ex_fast_udp_other ∧
    (lh_pull_inner_headers_fast_gre ex_params ex_fast_params ex_fast_gre_other
      (paged_pkt ex_fast_gre_other) (some ex_cb_l3) 0).retval = 1 ∧
    (lh_pull_inner_headers_fast_gre ex_params ex_fast_params ex_fast_gre_other
      (paged_pkt ex_fast_gre_other) (some ex_cb_l3) 0).ret =
        some ex_fast_params.PKT_RET_FAST_PATH ∧
    (lh_pull_inner_headers_fast_gre ex_params ex_fast_params ex_fast_gre_other
      (paged_pkt ex_fast_gre_other) (some ex_cb_l3) 0).copied = some 24 ∧
    (lh_pull_inner_headers_fast_gre ex_params ex_fast_params ex_fast_gre_other
      (paged_pkt ex_fast_gre_other) (some ex_cb_l3) 0).skb.tail = ex_fast_gre_other.tail + 24 := by
  refine ⟨by decide, by decide, by decide, by decide, by decide, by decide, by decide⟩

/-- C12 (as stated, refuted): a buffer with two pages and no chain successor is not
sent to the slow path: on `ex_fast_gre_two_pages`, whose GRE header (protocol
not MPLS) starts the first page, `lh_pull_inner_headers_fast_gre` returns 0
and does not write `*ret`. -/
theorem fast_gre_two_pages_not_slow :
    ex_fast_gre_two_pages.frags.length = 2 ∧ ex_fast_gre_two_pages.frag_list = [] ∧
    (lh_pull_inner_headers_fast_gre ex_params ex_fast_params ex_fast_gre_two_pages
      (paged_pkt ex_fast_gre_two_pages) (some ex_cb_l3) 0).retval = 0 ∧
    (lh_pull_inner_headers_fast_gre ex_params ex_fast_params ex_fast_gre_two_pages
      (paged_pkt ex_fast_gre_two_pages) (some ex_cb_l3) 0).ret = none := by
  refine ⟨by decide, by decide, by decide, by decide⟩

/-- C12 (amended): for every packet whose buffer has no page fragment or has a
chain successor (`frag_list`), both `lh_pull_inner_headers_fast_gre` and
`lh_pull_inner_headers_fast_udp` return 1 with `*ret = PKT_RET_SLOW_PATH`,
copy nothing and leave buffer, packet and `*encap_type` as they were. -/
theorem fast_slow_without_single_page (P : VrParams) (F : FastParams) (skb : sk_buff)
    (pkt : vr_packet) (cb : Option tunnel_type_cb) (encap_type : Int)
    (h : skb.frags = [] ∨ skb.frag_list ≠ []) :
    (∃ n, lh_pull_inner_headers_fast_gre P F skb pkt cb encap_type =
      fast_slow F skb pkt encap_type n) ∧
    (∃ n, lh_pull_inner_headers_fast_udp P F skb pkt cb encap_type =
      fast_slow F skb pkt encap_type n) := by
  constructor
  · unfold lh_pull_inner_headers_fast_gre
    split
    · exact ⟨_, rfl⟩
    · split
      · exact ⟨_, rfl⟩
      · rename_i frag rest hfr
        rcases h with h | h
        · rw [h] at hfr; cases hfr
        · simp only [h, ne_eq, not_false_eq_true, if_true]
          exact ⟨_, rfl⟩
  · unfold lh_pull_inner_headers_fast_udp
    split
    · exact ⟨_, rfl⟩
    · split
      · exact ⟨_, rfl⟩
      · rename_i frag rest hfr
        rcases h with h | h
        · rw [h] at hfr; cases hfr
        · simp only [h, ne_eq, not_false_eq_true, if_true]
          exact ⟨_, rfl⟩

theorem fast_slow_without_single_page_witness :
    (∃ n, lh_pull_inner_headers_fast_gre ex_params ex_fast_params ex_gre_frame
      (pkt_at ex_gre_frame 20) (some ex_cb_l3) 0 =
        fast_slow ex_fast_params ex_gre_frame (pkt_at ex_gre_frame 20) 0 n) ∧
    (∃ n, lh_pull_inner_headers_fast_udp ex_params ex_fast_params ex_gre_frame
      (pkt_at ex_gre_frame 20) (some ex_cb_l3) 0 =
        fast_slow ex_fast_params ex_gre_frame (pkt_at ex_gre_frame 20) 0 n) :=
  fast_slow_without_single_page ex_params ex_fast_params ex_gre_frame (pkt_at ex_gre_frame 20)
    (some ex_cb_l3) 0 (Or.inl rfl)


theorem nat_or_eq_zero (a b : Nat) : a ||| b = 0 ↔ a = 0 ∧ b = 0 := by
  constructor
  · intro h
    have hb : ∀ i, (a.testBit i || b.testBit i) = false := by
      intro i
      rw [← Nat.testBit_or, h]
      simp
    constructor
    · apply Nat.eq_of_testBit_eq
      intro i
      have := hb i
      simp_all
    · apply Nat.eq_of_testBit_eq
      intro i
      have := hb i
      simp_all
  · rintro ⟨rfl, rfl⟩
    rfl

/-- The tests on a non-empty linear part let through exactly the full GRE header
length given by the flag word in the linear part. -/
theorem fast_gre_linear_some (skb : sk_buff) (pkt : vr_packet) (hl n : Nat)
    (h : fast_gre_linear skb pkt hl = some n) :
    n = hl ∧ hl = 4 + (if rd16 skb.head pkt.vp_data &&& VR_GRE_FLAG_CSUM ≠ 0 then 4 else 0) +
      (if rd16 skb.head pkt.vp_data &&& VR_GRE_FLAG_KEY ≠ 0 then 4 else 0) := by
  unfold fast_gre_linear at h
  dsimp only at h
  rw [Nat.and_or_distrib_left] at h
  have hor := nat_or_eq_zero (rd16 skb.head pkt.vp_data &&& VR_GRE_FLAG_CSUM)
    (rd16 skb.head pkt.vp_data &&& VR_GRE_FLAG_KEY)
  generalize rd16 skb.head pkt.vp_data &&& VR_GRE_FLAG_CSUM = a at *
  generalize rd16 skb.head pkt.vp_data &&& VR_GRE_FLAG_KEY = b at *
  simp only [VR_GRE_BASIC_HDR_LEN, VR_GRE_CKSUM_HDR_LEN, VR_GRE_KEY_HDR_LEN, ne_eq, hor] at h
  by_cases ha : a = 0 <;> by_cases hb : b = 0 <;>
    simp only [ha, hb, ne_eq, not_true_eq_false, not_false_eq_true, if_true, if_false,
      and_self, and_true, and_false, true_and, false_and] at h ⊢ <;>
    split_ifs at h <;> simp only [Option.some.injEq] at h <;> omega


/-- C13: the fast path goes past its test of the shape of the outer header only
when the linear length is 0 or the full outer header length: for UDP every
non-zero linear length other than 8 gives `PKT_RET_SLOW_PATH`; for GRE every
non-zero linear length other than 4 + (4 if the checksum flag is set) + (4 if
the key flag is set), flags read from the flag word in the linear part, gives
`PKT_RET_SLOW_PATH`; buffer, packet and `*encap_type` are untouched. -/
theorem fast_shape_check (P : VrParams) (F : FastParams) (skb : sk_buff) (pkt : vr_packet)
    (cb : Option tunnel_type_cb) (encap_type : Int) (h0 : pkt_head_len pkt ≠ 0) :
    (pkt_head_len pkt ≠ 8 →
      lh_pull_inner_headers_fast_udp P F skb pkt cb encap_type =
        fast_slow F skb pkt encap_type sizeof_udphdr) ∧
    (pkt_head_len pkt ≠ 4 +
        (if rd16 skb.head pkt.vp_data &&& VR_GRE_FLAG_CSUM ≠ 0 then 4 else 0) +
        (if rd16 skb.head pkt.vp_data &&& VR_GRE_FLAG_KEY ≠ 0 then 4 else 0) →
      lh_pull_inner_headers_fast_gre P F skb pkt cb encap_type =
        fast_slow F skb pkt encap_type VR_GRE_BASIC_HDR_LEN) ∧
    (fast_slow F skb pkt encap_type VR_GRE_BASIC_HDR_LEN).ret = some F.PKT_RET_SLOW_PATH ∧
    (fast_slow F skb pkt encap_type sizeof_udphdr).ret = some F.PKT_RET_SLOW_PATH := by
  refine ⟨?_, ?_, rfl, rfl⟩
  · intro h
    unfold lh_pull_inner_headers_fast_udp
    simp only [sizeof_udphdr, ne_eq, h0, h, not_false_eq_true, and_self, if_true]
  · intro h
    have hn : fast_gre_linear skb pkt (pkt_head_len pkt) = none := by
      cases hc : fast_gre_linear skb pkt (pkt_head_len pkt) with
      | none => rfl
      | some n => exact absurd (fast_gre_linear_some skb pkt _ n hc).2 h
    unfold lh_pull_inner_headers_fast_gre
    simp only [ne_eq, h0, not_false_eq_true, if_true, hn]

theorem fast_shape_check_witness :
    lh_pull_inner_headers_fast_gre ex_params ex_fast_params ex_gre_key_frame
        (pkt_at ex_gre_key_frame 20) (some ex_cb_l3) 0 =
      fast_slow ex_fast_params ex_gre_key_frame (pkt_at ex_gre_key_frame 20) 0
        VR_GRE_BASIC_HDR_LEN :=
  (fast_shape_check ex_params ex_fast_params ex_gre_key_frame (pkt_at ex_gre_key_frame 20)
    (some ex_cb_l3) 0 (by decide)).2.1 (by decide)


end Vrouter
